import Mathlib

/-!
# HTTP access layer of the task client: token store, auth session, 401 recovery

A shallow embedding of `src/api/tokenStorage.js` and of the session and
response-interception parts of `src/api/client.js`.

Module-level variables become fields of a state record, every function takes
the state and returns the new one.  Console output, listener calls, network
dispatches and promise settlements are appended to a log kept in the state, so
that "called exactly once" or "no refresh call" are statements about that log.

The response handler is an `async` function with one `await`.  It is cut
there: what runs before the `await` runs in the turn that delivers the error,
what runs after it runs in the turn that delivers the answer of the refresh
call.  Whoever waits for a promise is recorded as a chain of waiters (`Kont`).
One turn (`step`) is everything the event loop runs before it takes the next
response: the interceptors, the handler resumed by the answer, the release of
the wait queue.  The request interceptor is applied when `api(...)` is called.
The HTTP client, the `URL` class and `localStorage` belong to the platform:
the first is the list of requests in flight, the second a parameter of the
handler, the third a store with a schedule of failing calls.
-/

namespace Datacake

/-! ## JavaScript values -/

/-- A value of type `string | null | undefined`, as the token fields are. -/
inductive JsVal where
  | undefined
  | null
  | str (s : String)
  deriving DecidableEq, Repr

/-- Truthiness of a `string | null` value held as an option: only a non-empty string is truthy. -/
def truthy : Option String → Bool
  | some s => s != ""
  | none => false

/-- The expression `value || null` on a `string | null` value. -/
def orNull (v : Option String) : Option String :=
  if truthy v then v else none

/-- The expression `value || null` on a `string | null | undefined` value. -/
def JsVal.orNull : JsVal → Option String
  | .str s => if s != "" then some s else none
  | _ => none

/-- A `string | null` value seen as a `string | null | undefined` one. -/
def JsVal.ofOption : Option String → JsVal
  | some s => .str s
  | none => .null

/-! ## tokenStorage.js -/

def ACCESS_KEY : String := "datacake.access_token"

def REFRESH_KEY : String := "datacake.refresh_token"

/-- The durable store `globalThis.localStorage`: its items, and for each of the
upcoming `getItem` / `setItem` / `removeItem` calls whether that call throws
(`true`); once the list is used up no call throws. -/
structure LocalStorage where
  items : List (String × String)
  faults : List Bool
  deriving DecidableEq, Repr

/-- Module state of tokenStorage.js: the durable store (`none` when
`hasLocalStorage()` is false: undefined, or reading the global throws), the
`fallbackStore` object, and the number of `console.warn` calls made so far. -/
structure TokenStorage where
  localStorage : Option LocalStorage
  fallbackStore : List (String × String)
  warnings : Nat
  deriving DecidableEq, Repr

/-- Assignment `obj[key] = value` on an object held as an association list. -/
def setKey (kvs : List (String × String)) (key value : String) : List (String × String) :=
  match kvs with
  | [] => [(key, value)]
  | (k, v) :: rest => if k = key then (key, value) :: rest else (k, v) :: setKey rest key value

/-- The statement `delete obj[key]` on an object held as an association list. -/
def deleteKey (kvs : List (String × String)) (key : String) : List (String × String) :=
  kvs.filter (fun kv => kv.1 != key)

/-- Whether the next call on the durable store throws. -/
def LocalStorage.throwsNext (ls : LocalStorage) : Bool := ls.faults.headD false

/-- The durable store after one call has been made on it (the call itself left the items alone). -/
def LocalStorage.afterCall (ls : LocalStorage) : LocalStorage := { ls with faults := ls.faults.tail }

/-- The call `localStorage.getItem(key)`: `none` when it throws, else the item or null. -/
def LocalStorage.getItem (ls : LocalStorage) (key : String) : Option (Option String) × LocalStorage :=
  (if ls.throwsNext then none else some (ls.items.lookup key), ls.afterCall)

/-- The call `localStorage.setItem(key, value)`: `false` when it throws. -/
def LocalStorage.setItem (ls : LocalStorage) (key value : String) : Bool × LocalStorage :=
  if ls.throwsNext then (false, ls.afterCall)
  else (true, { ls.afterCall with items := setKey ls.items key value })

/-- The call `localStorage.removeItem(key)`: `false` when it throws. -/
def LocalStorage.removeItem (ls : LocalStorage) (key : String) : Bool × LocalStorage :=
  if ls.throwsNext then (false, ls.afterCall)
  else (true, { ls.afterCall with items := deleteKey ls.items key })

/-- The last line of `readStorage`: the own property of `fallbackStore`, or null. -/
def readFallback (st : TokenStorage) (key : String) : Option String :=
  st.fallbackStore.lookup key

def readStorage (st : TokenStorage) (key : String) : Option String × TokenStorage :=
  match st.localStorage with
  | some ls =>
    match ls.getItem key with
    | (some v, ls') => (v, { st with localStorage := some ls' })
    | (none, ls') =>
      (readFallback st key, { st with localStorage := some ls', warnings := st.warnings + 1 })
  | none => (readFallback st key, st)

/-- The tail of `writeStorage`, reached without a durable store or after it threw. -/
def writeFallback (st : TokenStorage) (key : String) (value : Option String) : TokenStorage :=
  match value with
  | none => { st with fallbackStore := deleteKey st.fallbackStore key }
  | some v => { st with fallbackStore := setKey st.fallbackStore key v }

/-- The function `writeStorage(key, value)`; `none` is a null or undefined value. -/
def writeStorage (st : TokenStorage) (key : String) (value : Option String) : TokenStorage :=
  match st.localStorage with
  | some ls =>
    let r := match value with
      | none => ls.removeItem key
      | some v => ls.setItem key v
    if r.1 then { st with localStorage := some r.2 }
    else writeFallback { st with localStorage := some r.2, warnings := st.warnings + 1 } key value
  | none => writeFallback st key value

/-- The record `{ accessToken, refreshToken }`, each field a string or null. -/
structure AuthTokens where
  accessToken : Option String
  refreshToken : Option String
  deriving DecidableEq, Repr

def getStoredTokens (st : TokenStorage) : Option AuthTokens × TokenStorage :=
  let a := readStorage st ACCESS_KEY
  let r := readStorage a.2 REFRESH_KEY
  if !truthy a.1 && !truthy r.1 then (none, r.2)
  else (some { accessToken := a.1, refreshToken := r.1 }, r.2)

def persistTokens (st : TokenStorage) (accessToken refreshToken : JsVal) : TokenStorage :=
  writeStorage (writeStorage st ACCESS_KEY accessToken.orNull) REFRESH_KEY refreshToken.orNull

def clearStoredTokens (st : TokenStorage) : TokenStorage :=
  writeStorage (writeStorage st ACCESS_KEY none) REFRESH_KEY none

/-! ## client.js: the auth session -/

/-- A request config, as far as the pipeline reads or writes it: `_retry` is
the mark set by the response handler, `authorization` the header of that name. -/
structure Request where
  method : Option String
  url : Option String
  data : Option String
  authorization : Option String
  retry : Bool
  deriving DecidableEq, Repr

/-- What a handler can reject with: an error raised by the HTTP client (its
`config`, and `response.status` when a response came), or one of the two
errors thrown inside the refresh `try` block. -/
inductive Err where
  | axios (config : Option Request) (status : Option Nat)
  | refreshTokenMissing
  | accessTokenMissing
  deriving DecidableEq, Repr

/-- Who waits for the outcome of a request sent through `api`: the code that
issued it, or a response handler suspended at `await api.post(...)`, which
holds its `originalRequest`, its local `currentRefresh`, and the waiter of the
promise that handler returned. -/
inductive Kont where
  | caller
  | driver (originalRequest : Request) (currentRefresh : Option String) (next : Kont)
  deriving DecidableEq, Repr

/-- A request handed to the HTTP client together with the waiter of its promise.
An entry of `failedQueue` is one too: `resolve` re-sends `config`, and both
`resolve` and `reject` settle the promise `kont` waits for. -/
structure Flight where
  config : Request
  kont : Kont
  deriving DecidableEq, Repr

/-- Body of a response, as far as the refresh code reads it. -/
structure ResponseData where
  access : Option String
  refresh : Option String
  deriving DecidableEq, Repr

/-- A callback passed to `subscribeUnauthorized`.  The one the application
registers calls `clearAuthTokens()` and updates the screen; `clears` records
the former, `throws` whether the callback ends by throwing. -/
structure Listener where
  id : Nat
  clears : Bool
  throws : Bool
  deriving DecidableEq, Repr

/-- What the pipeline does towards the outside. -/
inductive Effect where
  | sent (f : Flight)
  | listenerCalled (l : Listener)
  | listenerWarned (l : Listener)
  | rejected (config : Request) (error : Err)
  | resolved (config : Request) (data : Option ResponseData)
  deriving DecidableEq, Repr

/-- Module state of client.js (session and pipeline part), the state of
tokenStorage.js, the requests awaiting a response, and the log.  `ready` holds
promise rejections whose waiter is a suspended handler and that have been
issued but not yet delivered. -/
structure ClientState where
  authTokens : AuthTokens
  authorization : Option String
  baseURL : String
  storage : TokenStorage
  isRefreshing : Bool
  failedQueue : List Flight
  unauthorizedListeners : List Listener
  inFlight : List Flight
  ready : List (Flight × Err)
  log : List Effect
  deriving DecidableEq, Repr

def applyAuthorizationHeader (s : ClientState) (token : Option String) : ClientState :=
  match token with
  | some t => if t != "" then { s with authorization := some ("Bearer " ++ t) }
              else { s with authorization := none }
  | none => { s with authorization := none }

def hydrateStoredTokens (s : ClientState) : ClientState :=
  let r := getStoredTokens s.storage
  match r.1 with
  | none =>
    applyAuthorizationHeader
      { s with storage := r.2, authTokens := { accessToken := none, refreshToken := none } } none
  | some stored =>
    let tokens : AuthTokens :=
      { accessToken := orNull stored.accessToken, refreshToken := orNull stored.refreshToken }
    applyAuthorizationHeader { s with storage := r.2, authTokens := tokens } tokens.accessToken

def getAuthTokens (s : ClientState) : AuthTokens :=
  { accessToken := s.authTokens.accessToken, refreshToken := s.authTokens.refreshToken }

def setAuthTokens (s : ClientState) (accessToken refreshToken : JsVal) : ClientState :=
  let tokens : AuthTokens :=
    { accessToken :=
        match accessToken with
        | .undefined => s.authTokens.accessToken
        | v => v.orNull
      refreshToken :=
        match refreshToken with
        | .undefined => s.authTokens.refreshToken
        | v => v.orNull }
  let s1 := applyAuthorizationHeader { s with authTokens := tokens } tokens.accessToken
  if truthy tokens.accessToken || truthy tokens.refreshToken then
    { s1 with storage := persistTokens s1.storage (JsVal.ofOption tokens.accessToken)
                (JsVal.ofOption tokens.refreshToken) }
  else { s1 with storage := clearStoredTokens s1.storage }

def clearAuthTokens (s : ClientState) : ClientState :=
  let s1 := applyAuthorizationHeader
    { s with authTokens := { accessToken := none, refreshToken := none } } none
  { s1 with storage := clearStoredTokens s1.storage }

/-- The state right after the modules have been loaded in a process that finds
the durable store of `storage`, for instance the store an earlier process has
left: tokenStorage.js starts with `fallbackStore = {}` and nothing warned,
whatever a fallback object held before, and client.js hydrates. -/
def initialState (storage : TokenStorage) (baseURL : String) : ClientState :=
  hydrateStoredTokens
    { authTokens := { accessToken := none, refreshToken := none }
      authorization := none
      baseURL := baseURL
      storage := { localStorage := storage.localStorage, fallbackStore := [], warnings := 0 }
      isRefreshing := false
      failedQueue := []
      unauthorizedListeners := []
      inFlight := []
      ready := []
      log := [] }

/-! ## client.js: the request pipeline -/

/-- The function passed to `api.interceptors.request.use`. -/
def requestInterceptor (tokens : AuthTokens) (config : Request) : Request :=
  match tokens.accessToken with
  | some t => if t != "" then { config with authorization := some ("Bearer " ++ t) } else config
  | none => config

/-- The call `api(config)`: the request interceptor stamps the config, the
request leaves, and `k` waits for the promise the call returned. -/
def dispatch (s : ClientState) (config : Request) (k : Kont) : ClientState :=
  let f : Flight := { config := requestInterceptor s.authTokens config, kont := k }
  { s with inFlight := s.inFlight ++ [f], log := s.log ++ [.sent f] }

/-- The config built by `api.post("auth/token/refresh/", { refresh: currentRefresh })`. -/
def refreshRequest (currentRefresh : Option String) : Request :=
  { method := some "post", url := some "auth/token/refresh/", data := currentRefresh,
    authorization := none, retry := false }

def onRefreshed (s : ClientState) : ClientState :=
  { s.failedQueue.foldl (fun acc entry => dispatch acc entry.config entry.kont) s with
    failedQueue := [] }

/-- The call `entry.reject(error)`: the issuer of the request sees the
rejection; a suspended handler is resumed by it in a later turn. -/
def rejectEntry (s : ClientState) (entry : Flight) (error : Err) : ClientState :=
  match entry.kont with
  | .caller => { s with log := s.log ++ [.rejected entry.config error] }
  | .driver _ _ _ => { s with ready := s.ready ++ [(entry, error)] }

def onRefreshFailed (s : ClientState) (error : Err) : ClientState :=
  { s.failedQueue.foldl (fun acc entry => rejectEntry acc entry error) s with failedQueue := [] }

/-- One round of the loop in `notifyUnauthorized`: `try { listener() } catch { console.warn }`. -/
def callListener (s : ClientState) (l : Listener) : ClientState :=
  let s1 := { s with log := s.log ++ [.listenerCalled l] }
  let s2 := if l.clears then clearAuthTokens s1 else s1
  if l.throws then { s2 with log := s2.log ++ [.listenerWarned l] } else s2

def notifyUnauthorized (s : ClientState) : ClientState :=
  let s1 := clearAuthTokens s
  s1.unauthorizedListeners.foldl callListener s1

def subscribeUnauthorized (s : ClientState) (l : Listener) : ClientState :=
  if l ∈ s.unauthorizedListeners then s
  else { s with unauthorizedListeners := s.unauthorizedListeners ++ [l] }

/-- The function returned by `subscribeUnauthorized`. -/
def unsubscribeUnauthorized (s : ClientState) (l : Listener) : ClientState :=
  { s with unauthorizedListeners := s.unauthorizedListeners.erase l }

/-- The `catch (refreshError)` block followed by the `finally` block of the
response handler, up to the rejection it returns. -/
def refreshCatch (s : ClientState) (refreshError : Err) : ClientState :=
  { notifyUnauthorized (onRefreshFailed s refreshError) with isRefreshing := false }

/-- The promise of `req` rejects with `e`: the issuer sees it, a handler
suspended at `await api.post(...)` goes through its `catch` and `finally` and
rejects its own promise in turn. -/
def settleRejected (s : ClientState) (req : Request) (e : Err) : Kont → ClientState
  | .caller => { s with log := s.log ++ [.rejected req e] }
  | .driver originalRequest _ next => settleRejected (refreshCatch s e) originalRequest e next

/-- The promise of `req` resolves with a response whose body is `data`: the
issuer sees it, a handler suspended at `await api.post(...)` runs the rest of
its `try` block and its `finally`. -/
def settleResolved (s : ClientState) (req : Request) (data : Option ResponseData) :
    Kont → ClientState
  | .caller => { s with log := s.log ++ [.resolved req data] }
  | .driver originalRequest currentRefresh next =>
    match data.bind (fun d => d.access) with
    | some access =>
      if access != "" then
        let refreshToken : JsVal :=
          match data.bind (fun d => d.refresh) with
          | some r => .str r
          | none => JsVal.ofOption currentRefresh
        let s1 := setAuthTokens s (.str access) refreshToken
        let s2 := onRefreshed s1
        let s3 := dispatch s2 originalRequest next
        { s3 with isRefreshing := false }
      else settleRejected (refreshCatch s .accessTokenMissing) originalRequest .accessTokenMissing next
    | none => settleRejected (refreshCatch s .accessTokenMissing) originalRequest .accessTokenMissing next

/-- The expression `error.config || {}`. -/
def originalRequestOf : Err → Request
  | .axios (some config) _ => config
  | _ => { method := none, url := none, data := none, authorization := none, retry := false }

/-- The expression `error.response?.status`. -/
def statusOf : Err → Option Nat
  | .axios _ status => status
  | _ => none

/-- The replacement `value.replace(/^\//, "")`. -/
def dropLeadingSlash (value : String) : String :=
  match value.data with
  | '/' :: rest => String.mk rest
  | _ => value

/-- The inner function `normalizePath`.  `URL url base` is the `pathname` of
`new URL(url, base)`, and `none` when the constructor is missing or the
expression throws. -/
def normalizePath (URL : String → String → Option String) (baseURL : String)
    (url : Option String) : String :=
  match url with
  | none => ""
  | some u =>
    if u = "" then ""
    else match URL u baseURL with
      | some pathname => pathname
      | none => "/" ++ dropLeadingSlash u

def authCriticalEndpoints : List String :=
  ["/api/auth/token/refresh/", "/api/auth/logout/", "/api/auth/token/"]

/-- The inner function `isAuthCriticalPath`; `endsWith` is the suffix test. -/
def isAuthCriticalPath (path : String) : Bool :=
  authCriticalEndpoints.any (fun endpoint => endpoint.data.isSuffixOf path.data)

/-- The rejection handler passed to `api.interceptors.response.use`, run on
`error`; `k` waits for the promise it returns. -/
def responseErrorHandler (URL : String → String → Option String) (s : ClientState)
    (error : Err) (k : Kont) : ClientState :=
  let originalRequest := originalRequestOf error
  let requestPath := normalizePath URL s.baseURL originalRequest.url
  if statusOf error != some 401 then settleRejected s originalRequest error k
  else if originalRequest.retry then settleRejected (notifyUnauthorized s) originalRequest error k
  else if isAuthCriticalPath requestPath then
    settleRejected (notifyUnauthorized s) originalRequest error k
  else if s.isRefreshing then
    { s with failedQueue := s.failedQueue ++ [{ config := originalRequest, kont := k }] }
  else
    let marked := { originalRequest with retry := true }
    let s1 := { s with isRefreshing := true }
    let currentRefresh := s1.authTokens.refreshToken
    if !truthy currentRefresh then
      settleRejected (refreshCatch s1 .refreshTokenMissing) marked .refreshTokenMissing k
    else dispatch s1 (refreshRequest currentRefresh) (.driver marked currentRefresh k)

/-! ## The event loop -/

/-- What comes back for a request: a response the client accepts, or an
error, with the status of the response when there was one. -/
inductive Response where
  | ok (data : Option ResponseData)
  | fail (status : Option Nat)
  deriving DecidableEq, Repr

/-- One turn of the event loop. -/
inductive Event where
  | request (config : Request)
  | response (f : Flight) (r : Response)
  | tick
  | setAuthTokens (accessToken refreshToken : JsVal)
  | clearAuthTokens
  | subscribe (l : Listener)
  | unsubscribe (l : Listener)
  deriving DecidableEq, Repr

/-- The state after one turn.  A response takes its request out of the
requests in flight and goes through the response interceptors (the success
one is the identity); `tick` delivers the oldest pending rejection. -/
def step (URL : String → String → Option String) (s : ClientState) : Event → ClientState
  | .request config => dispatch s config .caller
  | .response f r =>
    let s1 := { s with inFlight := s.inFlight.erase f }
    match r with
    | .ok data => settleResolved s1 f.config data f.kont
    | .fail status => responseErrorHandler URL s1 (.axios (some f.config) status) f.kont
  | .tick =>
    match s.ready with
    | [] => s
    | (f, e) :: rest => settleRejected { s with ready := rest } f.config e f.kont
  | .setAuthTokens accessToken refreshToken => setAuthTokens s accessToken refreshToken
  | .clearAuthTokens => clearAuthTokens s
  | .subscribe l => subscribeUnauthorized s l
  | .unsubscribe l => unsubscribeUnauthorized s l

/-- A response can only come for a request that is in flight. -/
def Event.enabled (s : ClientState) : Event → Bool
  | .response f _ => decide (f ∈ s.inFlight)
  | _ => true

def run (URL : String → String → Option String) (s : ClientState) (events : List Event) :
    ClientState :=
  events.foldl (step URL) s

/-- States the client can be in: the state after loading, and every state one
enabled turn later. -/
inductive Reachable (URL : String → String → Option String) : ClientState → Prop where
  | init (storage : TokenStorage) (baseURL : String) : Reachable URL (initialState storage baseURL)
  | step {s : ClientState} (ev : Event) : Reachable URL s → ev.enabled s = true →
    Reachable URL (step URL s ev)

/-! ## A model of URL resolution, for concrete runs -/

/-- Characters after the scheme and `://` of an absolute URL. -/
def afterScheme : List Char → List Char
  | ':' :: '/' :: '/' :: rest => rest
  | _ :: rest => afterScheme rest
  | [] => []

/-- Path of an absolute URL `scheme://authority/path`; `/` when it has none. -/
def pathOfBase (base : String) : List Char :=
  match (afterScheme base.data).dropWhile (fun c => c != '/') with
  | [] => ['/']
  | path => path

/-- A path up to and including its last `/`. -/
def directoryOf (path : List Char) : List Char :=
  (path.reverse.dropWhile (fun c => c != '/')).reverse

/-- The `pathname` of `new URL(url, base)` on a platform that implements it,
for `base` of the form `scheme://authority/path` and `url` a relative reference
made of plain path segments (no scheme, query, fragment, `.` or `..`): `url`
itself when it starts with `/`, else the directory of the base path followed
by `url`.  Other shapes are outside this model. -/
def whatwgPathname (url base : String) : Option String :=
  match url.data with
  | '/' :: _ => some url
  | _ => some (String.mk (directoryOf (pathOfBase base) ++ url.data))

/-- A platform without a usable `URL`: the constructor is missing, or reading
`pathname` throws. -/
def noURL (_url _base : String) : Option String := none

/-! ## Reading the log and the pending work -/

/-- The requests handed to the HTTP client, oldest first. -/
def sends : List Effect → List Flight
  | [] => []
  | .sent f :: rest => f :: sends rest
  | _ :: rest => sends rest

def Kont.isCaller : Kont → Bool
  | .caller => true
  | .driver _ _ _ => false

/-- Number of calls of the refresh endpoint made by response handlers: the
requests whose outcome a suspended handler waits for. -/
def refreshCalls (log : List Effect) : Nat :=
  ((sends log).filter (fun f => !f.kont.isCaller)).length

/-- Number of such calls that have not been answered yet. -/
def outstandingRefreshCalls (s : ClientState) : Nat :=
  (s.inFlight.filter (fun f => !f.kont.isCaller)).length

/-- Number of suspended handlers in a chain of waiters. -/
def Kont.frames : Kont → Nat
  | .caller => 0
  | .driver _ _ next => next.frames + 1

def framesOf : List Flight → Nat
  | [] => 0
  | f :: rest => f.kont.frames + framesOf rest

/-- Number of response handlers suspended at `await api.post(...)`. -/
def suspendedHandlers (s : ClientState) : Nat :=
  framesOf s.inFlight + framesOf s.failedQueue + framesOf (s.ready.map Prod.fst)

/-- What one run of the loop of `notifyUnauthorized` over `ls` writes to the log. -/
def notifyLog : List Listener → List Effect
  | [] => []
  | l :: rest =>
    if l.throws then .listenerCalled l :: .listenerWarned l :: notifyLog rest
    else .listenerCalled l :: notifyLog rest

/-- The entries of the wait queue whose promise the issuer of the request holds. -/
def callerEntries (queue : List Flight) : List Flight :=
  queue.filter (fun f => f.kont.isCaller)

/-- The entries of the wait queue whose promise a suspended handler awaits. -/
def handlerEntries (queue : List Flight) : List Flight :=
  queue.filter (fun f => !f.kont.isCaller)

/-- Every turn of the run is enabled in the state it is taken in. -/
def validRun (URL : String → String → Option String) (s : ClientState) : List Event → Bool
  | [] => true
  | ev :: rest => ev.enabled s && validRun URL (step URL s ev) rest

/-- The entry as `api(entry.config)` sends it under the tokens `tokens`. -/
def Flight.stamped (tokens : AuthTokens) (f : Flight) : Flight :=
  { config := requestInterceptor tokens f.config, kont := f.kont }

/-! ## Concrete sessions, for the runs below -/

def localBase : String := "http://localhost:8000/api/"

def overrideBase : String := "https://api.example.com/"

/-- The listener the application registers: it clears the tokens and resets the screen. -/
def screenListener : Listener := { id := 1, clears := true, throws := false }

/-- A signed-in client with nothing pending. -/
def signedIn (baseURL : String) : ClientState :=
  { authTokens := { accessToken := some "old", refreshToken := some "r" }
    authorization := some "Bearer old"
    baseURL := baseURL
    storage :=
      { localStorage := none
        fallbackStore := [(ACCESS_KEY, "old"), (REFRESH_KEY, "r")]
        warnings := 0 }
    isRefreshing := false
    failedQueue := []
    unauthorizedListeners := [screenListener]
    inFlight := []
    ready := []
    log := [] }

def listTasks : Request :=
  { method := some "get", url := some "tasks/", data := none,
    authorization := some "Bearer old", retry := false }

def addTask : Request :=
  { method := some "post", url := some "tasks/", data := some "title=milk",
    authorization := some "Bearer old", retry := false }

def loginRequest : Request :=
  { method := some "post", url := some "auth/token/", data := some "identifier=ana",
    authorization := some "Bearer old", retry := false }

/-- The error the HTTP client raises for a 401 response to `config`. -/
def unauthorized (config : Request) : Err := .axios (some config) (some 401)

/-- The refresh call a handler makes for `originalRequest` in the signed-in session. -/
def refreshCallFor (originalRequest : Request) : Flight :=
  { config := { refreshRequest (some "r") with authorization := some "Bearer old" }
    kont := .driver { originalRequest with retry := true } (some "r") .caller }

/-- The signed-in session whose refresh token is gone. -/
def accessOnly : ClientState :=
  { signedIn localBase with authTokens := { accessToken := some "old", refreshToken := none } }

/-- The signed-in session in the middle of a refresh: the task listing was
answered 401 and its handler awaits the refresh call, the task creation was
answered 401 after that and waits in the queue. -/
def midRefresh (baseURL : String) : ClientState :=
  { signedIn baseURL with
    isRefreshing := true
    inFlight := [refreshCallFor listTasks]
    failedQueue := [{ config := addTask, kont := .caller }] }

/-- The session `midRefresh` after its refresh call was answered 401 on a
platform without a usable `URL`: nothing is in flight, the flag is still set,
and the refresh request itself waits in the queue behind the task creation. -/
def stalled : ClientState :=
  { midRefresh localBase with
    inFlight := []
    failedQueue := [{ config := addTask, kont := .caller }, refreshCallFor listTasks] }

/-- The signed-in session with the task listing and the task creation in
flight, both sent under the access token that is about to be refused. -/
def twoInFlight : ClientState :=
  { signedIn localBase with
    inFlight := [{ config := listTasks, kont := .caller }, { config := addTask, kont := .caller }] }

/-- A token store without durable storage and with nothing in it. -/
def emptyStorage : TokenStorage := { localStorage := none, fallbackStore := [], warnings := 0 }

/-- A session from the start: the screen subscribes, the user signs in, the
task listing and the task creation are issued, and both are answered 401, the
listing first. -/
def sessionUntilRefresh : List Event :=
  [.subscribe screenListener,
    .setAuthTokens (.str "old") (.str "r"),
    .request { listTasks with authorization := none },
    .request { addTask with authorization := none },
    .response { config := listTasks, kont := .caller } (.fail (some 401)),
    .response { config := addTask, kont := .caller } (.fail (some 401))]

/-! ## Reading the token store -/

/-- What the store holds under a key: the item of the durable store, or
without a durable store the own property of `fallbackStore`. -/
def TokenStorage.holds (st : TokenStorage) (key : String) : Option String :=
  match st.localStorage with
  | some ls => ls.items.lookup key
  | none => st.fallbackStore.lookup key

/-- A working store: none of the upcoming calls on the durable store throws,
or there is no durable store and the fallback object serves. -/
def TokenStorage.working (st : TokenStorage) : Bool :=
  match st.localStorage with
  | some ls => ls.faults.all (fun throws => !throws)
  | none => true

/-- Token fields as the client keeps them: a non-empty string or null. -/
def AuthTokens.wellFormed (t : AuthTokens) : Prop :=
  t.accessToken ≠ some "" ∧ t.refreshToken ≠ some ""

/-- The value `Bearer <token>` of the header that goes with an access token. -/
def bearerOf (accessToken : Option String) : Option String :=
  accessToken.map (fun token => "Bearer " ++ token)

/-- The listeners called, in the order of the calls. -/
def calls : List Effect → List Listener
  | [] => []
  | .listenerCalled l :: rest => l :: calls rest
  | _ :: rest => calls rest

/-- The rejections handed to the issuers of requests, oldest first. -/
def rejections : List Effect → List (Request × Err)
  | [] => []
  | .rejected config error :: rest => (config, error) :: rejections rest
  | _ :: rest => rejections rest

/-! ## More concrete sessions -/

/-- A working durable store with the given items. -/
def durable (items : List (String × String)) : TokenStorage :=
  { localStorage := some { items := items, faults := [] }, fallbackStore := [], warnings := 0 }

/-- A durable store that holds the session old/r: it answers the two reads of
the hydration, and its next two calls throw (as `setItem` does once the quota
is used up, or any call once access to the storage is refused). -/
def fullDisk : TokenStorage :=
  { localStorage :=
      some { items := [(ACCESS_KEY, "old"), (REFRESH_KEY, "r")]
             faults := [false, false, true, true] }
    fallbackStore := []
    warnings := 0 }

/-- The events by which the user signs in with the access token "old". -/
def signIn : List Event :=
  [.subscribe screenListener, .setAuthTokens (.str "old") (.str "r")]

/-- An empty durable store that refuses writes, as in a private window: the
next two calls throw, reads work. -/
def writeProtected : TokenStorage :=
  { localStorage := some { items := [], faults := [true, true] }
    fallbackStore := []
    warnings := 0 }

def removeTask : Request :=
  { method := some "delete", url := some "tasks/7/", data := none,
    authorization := some "Bearer old", retry := false }

/-- The session `sessionUntilRefresh` with a third request, the removal of a
task, issued and answered 401 while the refresh call is out. -/
def sessionWithTwoQueued : List Event :=
  sessionUntilRefresh ++
    [.request { removeTask with authorization := none },
      .response { config := removeTask, kont := .caller } (.fail (some 401))]

/-! ## client.js: the base URL -/

def API_ROOT_PATH : String := "/api"

def HEALTH_PATH : String := API_ROOT_PATH ++ "/health/"

/-- The method `value.endsWith(suffix)`. -/
def endsWith (value suffix : String) : Bool := suffix.data.isSuffixOf value.data

/-- The method `value.startsWith(start)`. -/
def startsWith (value start : String) : Bool := start.data.isPrefixOf value.data

/-- White space and line terminators: what `String.prototype.trim` removes. -/
def isWhiteSpace (c : Char) : Bool :=
  [0x09, 0x0A, 0x0B, 0x0C, 0x0D, 0x20, 0xA0, 0x1680, 0x2000, 0x2001, 0x2002, 0x2003, 0x2004,
    0x2005, 0x2006, 0x2007, 0x2008, 0x2009, 0x200A, 0x2028, 0x2029, 0x202F, 0x205F, 0x3000,
    0xFEFF].contains c.toNat

/-- The method `value.trim()`. -/
def trim (value : String) : String :=
  String.mk ((value.data.dropWhile isWhiteSpace).reverse.dropWhile isWhiteSpace).reverse

/-- The method `value.toLowerCase()` on the letters A to Z; other characters
are kept.  The results are only compared with literals made of the letters
a to z without k, digits and dots, and no other character maps into these. -/
def toLowerCase (value : String) : String := String.mk (value.data.map Char.toLower)

def stripTrailingSlash (value : String) : String :=
  if endsWith value "/" then String.mk value.data.dropLast else value

/-- What the module reads from its surroundings when it is loaded: `Platform`,
`Constants`, `NativeModules`, `process.env`, and `hostname value`, the
`hostname` of `new URL(value)`, `none` when `URL` is missing or the expression
throws.  `API_PORT` is the text `${API_PORT}` gives. -/
structure Runtime where
  OS : String
  isDevice : Bool
  EXPO_PUBLIC_API_URL : Option String
  API_PORT : String
  scriptURL : Option String
  expoGoConfig_debuggerHost : Option String
  expoGoConfig_hostUri : Option String
  expoConfig_hostUri : Option String
  manifest_debuggerHost : Option String
  manifest_hostUri : Option String
  manifest2_host : Option String
  hostname : String → Option String

def sanitizeHost (rt : Runtime) (host : Option String) : Option String :=
  match host with
  | none => none
  | some h =>
    if h = "" then none
    else
      let clean := trim h
      if clean = "" then none
      else
        let lowered := toLowerCase clean
        if lowered = "localhost" ∨ lowered = "127.0.0.1" then
          if rt.OS = "android" then (if rt.isDevice then none else some "10.0.2.2")
          else (if rt.isDevice then none else some "localhost")
        else some clean

def isExpoTunnelHost (host : Option String) : Bool :=
  match host with
  | none => false
  | some h =>
    if h = "" then false
    else
      let normalized := toLowerCase h
      normalized = "exp.host" || endsWith normalized ".exp.host" ||
        normalized = "exp.direct" || endsWith normalized ".exp.direct" ||
        normalized = "expo.dev" || endsWith normalized ".expo.dev"

/-- The class `[a-z0-9.+-]` under the flag `i`. -/
def isSchemeChar (c : Char) : Bool := c.isAlphanum || c = '.' || c = '+' || c = '-'

/-- The replacement `value.replace(/^[a-z][a-z0-9.+-]*:\/\//i, "")`. -/
def stripScheme (value : String) : String :=
  match value.data with
  | [] => value
  | c :: rest =>
    if c.isAlpha then
      match rest.dropWhile isSchemeChar with
      | ':' :: '/' :: '/' :: tail => String.mk tail
      | _ => value
    else value

/-- The class `[^/?#:]`. -/
def isHostChar (c : Char) : Bool := !(c = '/' || c = '?' || c = '#' || c = ':')

def parseHostCandidate (rt : Runtime) (candidate : Option String) : Option String :=
  match candidate with
  | none => none
  | some c =>
    if c = "" then none
    else
      let trimmed := trim c
      if trimmed = "" then none
      else
        let withoutScheme := stripScheme trimmed
        let normalized :=
          if startsWith withoutScheme "//" then "http:" ++ withoutScheme
          else "http://" ++ withoutScheme
        match rt.hostname normalized with
        | some hostname => sanitizeHost rt (some hostname)
        | none =>
          let fallbackMatch := withoutScheme.data.takeWhile isHostChar
          sanitizeHost rt (if fallbackMatch = [] then none else some (String.mk fallbackMatch))

/-- The loop of `resolveExpoHost` over the candidates left. -/
def firstHost (rt : Runtime) : List (Option String) → Option String
  | [] => none
  | candidate :: rest =>
    match parseHostCandidate rt candidate with
    | some host =>
      if host != "" && !isExpoTunnelHost (some host) then some host else firstHost rt rest
    | none => firstHost rt rest

def resolveExpoHost (rt : Runtime) : Option String :=
  firstHost rt
    [rt.expoGoConfig_debuggerHost, rt.expoGoConfig_hostUri, rt.expoConfig_hostUri,
      rt.manifest_debuggerHost, rt.manifest_hostUri, rt.manifest2_host]

def resolveMetroHost (rt : Runtime) : Option String :=
  let host := parseHostCandidate rt rt.scriptURL
  if isExpoTunnelHost host then none else host

def buildBaseUrlForHost (rt : Runtime) (host : String) : String :=
  "http://" ++ host ++ ":" ++ rt.API_PORT ++ API_ROOT_PATH

def resolveDeviceBaseUrl (rt : Runtime) : Option String :=
  if rt.OS = "web" then none
  else
    let host :=
      match resolveMetroHost rt with
      | some h => some h
      | none => resolveExpoHost rt
    match host with
    | none => none
    | some h => if h = "" then none else some (buildBaseUrlForHost rt h)

/-- The expression `value?.split(":")?.[0]`. -/
def beforeColon (value : Option String) : Option String :=
  value.map (fun v => String.mk (v.data.takeWhile (fun c => c != ':')))

/-- The values of an array in the order of their first occurrence, as
`Array.from(new Set(values))` lists them. -/
def distinct : List String → List String
  | [] => []
  | x :: rest => x :: (distinct rest).filter (fun y => y != x)

def collectHostCandidates (rt : Runtime) : List String :=
  let raw :=
    [resolveMetroHost rt, resolveExpoHost rt,
      sanitizeHost rt (beforeColon rt.manifest_debuggerHost),
      sanitizeHost rt (beforeColon rt.expoGoConfig_debuggerHost)]
  distinct (raw.filterMap (fun host =>
    match host with
    | some h => if h = "" then none else some h
    | none => none))

def envBaseUrl (rt : Runtime) : String :=
  trim (match rt.EXPO_PUBLIC_API_URL with
    | some v => v
    | none => "")

def autoDetectedBaseUrl (rt : Runtime) : Option String := resolveDeviceBaseUrl rt

def resolvedBaseUrl (rt : Runtime) : String :=
  if envBaseUrl rt != "" then envBaseUrl rt
  else if truthy (autoDetectedBaseUrl rt) then (autoDetectedBaseUrl rt).getD ""
  else "http://localhost:" ++ rt.API_PORT ++ API_ROOT_PATH

/-- The record `baseMeta`. -/
structure BaseMeta where
  envBaseUrl : Option String
  autoDetectedBaseUrl : Option String
  resolvedBaseUrl : String
  source : String
  deriving DecidableEq, Repr

/-- The value `baseMeta` is initialised with. -/
def initialBaseMeta (rt : Runtime) : BaseMeta :=
  { envBaseUrl := orNull (some (envBaseUrl rt))
    autoDetectedBaseUrl := orNull (autoDetectedBaseUrl rt)
    resolvedBaseUrl := stripTrailingSlash (resolvedBaseUrl rt)
    source :=
      if envBaseUrl rt != "" then "env"
      else if truthy (autoDetectedBaseUrl rt) then "auto"
      else "fallback" }

/-- The pending promise `probeState.promise`: the host whose health check is
awaited (`none` when there was no host to try and the function is about to
resume), the hosts the loop has still to try, and the callers that hold the
promise. -/
structure Sweep where
  awaiting : Option String
  rest : List String
  waiters : List Nat
  deriving DecidableEq, Repr

/-- The state behind `ensureApiBaseUrl`: `baseMeta`, `api.defaults.baseURL`,
`probeState.promise`, the URLs handed to `fetch` so far, and what the promises
returned to the callers have resolved with. -/
structure BaseState where
  baseMeta : BaseMeta
  baseURL : String
  promise : Option Sweep
  fetched : List String
  returned : List (Nat × BaseMeta)
  deriving DecidableEq, Repr

/-- The state right after the module has been loaded. -/
def initialBase (rt : Runtime) : BaseState :=
  { baseMeta := initialBaseMeta rt
    baseURL := (initialBaseMeta rt).resolvedBaseUrl ++ "/"
    promise := none
    fetched := []
    returned := [] }

def setApiBaseUrl (s : BaseState) (nextBaseUrl : String) (source : String) : BaseState :=
  let normalized := stripTrailingSlash nextBaseUrl
  { s with
    baseURL := normalized ++ "/"
    baseMeta :=
      { s.baseMeta with
        resolvedBaseUrl := normalized
        autoDetectedBaseUrl :=
          if source = "auto-probe" then some normalized else s.baseMeta.autoDetectedBaseUrl
        source := source } }

def getApiBaseMeta (s : BaseState) : BaseMeta :=
  { envBaseUrl := s.baseMeta.envBaseUrl
    autoDetectedBaseUrl := s.baseMeta.autoDetectedBaseUrl
    resolvedBaseUrl := s.baseMeta.resolvedBaseUrl
    source := s.baseMeta.source }

/-- The URL `probeHost` hands to `fetch`. -/
def healthUrl (rt : Runtime) (host : String) : String :=
  "http://" ++ host ++ ":" ++ rt.API_PORT ++ HEALTH_PATH

/-- The result of `probeHost(host)` once its `fetch` has settled; `ok` says
that it resolved with a response whose `ok` is true (not so when the response
is not ok, the request fails or the timeout aborts it). -/
def probeHost (rt : Runtime) (host : String) (ok : Bool) : Option String :=
  if ok then some (buildBaseUrlForHost rt host) else none

/-- The `finally` block and the `return` of the function behind
`probeState.promise`: the promise is dropped, and everyone who holds it gets
the metadata. -/
def finishProbe (s : BaseState) (waiters : List Nat) : BaseState :=
  { s with
    promise := none
    returned := s.returned ++ waiters.map (fun caller => (caller, getApiBaseMeta s)) }

/-- A call of `ensureApiBaseUrl()` by `caller`, up to the first `await`. -/
def ensureApiBaseUrl (rt : Runtime) (s : BaseState) (caller : Nat) : BaseState :=
  if s.baseMeta.source != "fallback" then
    { s with returned := s.returned ++ [(caller, getApiBaseMeta s)] }
  else
    match s.promise with
    | some sweep => { s with promise := some { sweep with waiters := sweep.waiters ++ [caller] } }
    | none =>
      match collectHostCandidates rt with
      | [] => { s with promise := some { awaiting := none, rest := [], waiters := [caller] } }
      | host :: rest =>
        { s with
          fetched := s.fetched ++ [healthUrl rt host]
          promise := some { awaiting := some host, rest := rest, waiters := [caller] } }

/-- The function behind `probeState.promise` resumes after the health check it
awaited: the rest of `probeHost`, of the loop of `probeForReachableBaseUrl` up
to the next `fetch`, and of the `try` block when the loop has ended. -/
def probeAnswered (rt : Runtime) (s : BaseState) (ok : Bool) : BaseState :=
  match s.promise with
  | none => s
  | some sweep =>
    match sweep.awaiting with
    | none => s
    | some host =>
      match probeHost rt host ok with
      | some reachable => finishProbe (setApiBaseUrl s reachable "auto-probe") sweep.waiters
      | none =>
        match sweep.rest with
        | [] => finishProbe s sweep.waiters
        | next :: rest =>
          { s with
            fetched := s.fetched ++ [healthUrl rt next]
            promise := some { awaiting := some next, rest := rest, waiters := sweep.waiters } }

/-- The function behind `probeState.promise` resumes when there was no host to try. -/
def probeSettled (s : BaseState) : BaseState :=
  match s.promise with
  | none => s
  | some sweep =>
    match sweep.awaiting with
    | none => finishProbe s sweep.waiters
    | some _ => s

/-- What can happen to the base URL after loading: a call of
`ensureApiBaseUrl`, the answer to the health check that is out, the resumption
of a sweep that had nothing to try. -/
inductive BaseEvent where
  | ensure (caller : Nat)
  | answer (ok : Bool)
  | settle
  deriving DecidableEq, Repr

def stepBase (rt : Runtime) (s : BaseState) : BaseEvent → BaseState
  | .ensure caller => ensureApiBaseUrl rt s caller
  | .answer ok => probeAnswered rt s ok
  | .settle => probeSettled s

def runBase (rt : Runtime) (s : BaseState) (events : List BaseEvent) : BaseState :=
  events.foldl (stepBase rt) s

/-! ## Concrete runtimes -/

/-- The labels of a host name: the runs of characters between its dots. -/
def labelsOf : List Char → List (List Char)
  | [] => [[]]
  | '.' :: rest => [] :: labelsOf rest
  | c :: rest =>
    match labelsOf rest with
    | label :: labels => (c :: label) :: labels
    | [] => [[c]]

/-- A decimal number up to 255 without leading zeros. -/
def isOctet (label : List Char) : Bool :=
  label != [] && label.all Char.isDigit && label.length ≤ 3 &&
    (label = ['0'] || label.head? != some '0') &&
    label.foldl (fun n c => 10 * n + (c.toNat - 48)) 0 ≤ 255

/-- The `hostname` of `new URL(value)` on a platform with a WHATWG parser, for
`value` of the form `http://host[:port]` followed by nothing or by a path,
query or fragment, where the host is a domain made of letters, digits, `-`
and `.` whose last label is not a number, or four decimal numbers up to 255
without leading zeros joined by dots: the host in lower case.  Other shapes
are outside this model. -/
def whatwgHostname (value : String) : Option String :=
  match value.data with
  | 'h' :: 't' :: 't' :: 'p' :: ':' :: '/' :: '/' :: rest =>
    let authority := rest.takeWhile (fun c => !(c = '/' || c = '?' || c = '#' || c = Char.ofNat 92))
    let host := authority.takeWhile (fun c => c != ':')
    let port := (authority.dropWhile (fun c => c != ':')).drop 1
    let labels := labelsOf host
    let last := labels.getLastD []
    let shaped :=
      host != [] && host.all (fun c => c.isAlphanum || c = '-' || c = '.') &&
        port.all Char.isDigit && port.length ≤ 5 &&
        (if last != [] && last.all Char.isDigit then labels.length = 4 && labels.all isOctet
          else last != [] && !(['0', 'x'].isPrefixOf (last.map Char.toLower)))
    if shaped then some (String.mk (host.map Char.toLower)) else none
  | _ => none

/-- A physical iPhone that knows nothing about the development server, on a
platform without a usable `URL`. -/
def bareRuntime : Runtime :=
  { OS := "ios"
    isDevice := true
    EXPO_PUBLIC_API_URL := none
    API_PORT := "8000"
    scriptURL := none
    expoGoConfig_debuggerHost := none
    expoGoConfig_hostUri := none
    expoConfig_hostUri := none
    manifest_debuggerHost := none
    manifest_hostUri := none
    manifest2_host := none
    hostname := fun _ => none }

/-- A browser tab served by a development server that reports two debugger
hosts; on web no host is inferred at startup. -/
def webRuntime : Runtime :=
  { bareRuntime with
    OS := "web"
    manifest_debuggerHost := some "192.168.0.7:8081"
    expoGoConfig_debuggerHost := some "10.0.0.3:8081" }

/-- At most one handler is suspended at `await api.post(...)`, and only while the flag is set. -/
def SingleFlight (s : ClientState) : Prop :=
  suspendedHandlers s ≤ 1 ∧ (0 < suspendedHandlers s → s.isRefreshing = true)

/-! # Lemmas -/

/-! ## What each function leaves alone -/

theorem applyAuthorizationHeader_eq (s : ClientState) (token : Option String) :
    applyAuthorizationHeader s token =
      { s with authorization := (applyAuthorizationHeader s token).authorization } := by
  unfold applyAuthorizationHeader
  split
  · split <;> rfl
  · rfl

@[simp] theorem applyAuthorizationHeader_none (s : ClientState) :
    applyAuthorizationHeader s none = { s with authorization := none } := rfl

theorem setAuthTokens_eq (s : ClientState) (a r : JsVal) :
    setAuthTokens s a r =
      { s with authTokens := (setAuthTokens s a r).authTokens
               authorization := (setAuthTokens s a r).authorization
               storage := (setAuthTokens s a r).storage } := by
  unfold setAuthTokens
  simp only
  split <;> (rw [applyAuthorizationHeader_eq])

theorem callListener_eq (s : ClientState) (l : Listener) :
    callListener s l =
      { s with authTokens := (callListener s l).authTokens
               authorization := (callListener s l).authorization
               storage := (callListener s l).storage
               log := s.log ++ notifyLog [l] } := by
  unfold callListener notifyLog notifyLog
  cases l.clears <;> cases l.throws <;> simp [clearAuthTokens]

@[simp] theorem applyAuthorizationHeader_authTokens (s : ClientState) (token : Option String) :
    (applyAuthorizationHeader s token).authTokens = s.authTokens := by
  rw [applyAuthorizationHeader_eq]

@[simp] theorem applyAuthorizationHeader_baseURL (s : ClientState) (token : Option String) :
    (applyAuthorizationHeader s token).baseURL = s.baseURL := by
  rw [applyAuthorizationHeader_eq]

@[simp] theorem applyAuthorizationHeader_storage (s : ClientState) (token : Option String) :
    (applyAuthorizationHeader s token).storage = s.storage := by
  rw [applyAuthorizationHeader_eq]

@[simp] theorem applyAuthorizationHeader_isRefreshing (s : ClientState) (token : Option String) :
    (applyAuthorizationHeader s token).isRefreshing = s.isRefreshing := by
  rw [applyAuthorizationHeader_eq]

@[simp] theorem applyAuthorizationHeader_failedQueue (s : ClientState) (token : Option String) :
    (applyAuthorizationHeader s token).failedQueue = s.failedQueue := by
  rw [applyAuthorizationHeader_eq]

@[simp] theorem applyAuthorizationHeader_unauthorizedListeners (s : ClientState) (token : Option String) :
    (applyAuthorizationHeader s token).unauthorizedListeners = s.unauthorizedListeners := by
  rw [applyAuthorizationHeader_eq]

@[simp] theorem applyAuthorizationHeader_inFlight (s : ClientState) (token : Option String) :
    (applyAuthorizationHeader s token).inFlight = s.inFlight := by
  rw [applyAuthorizationHeader_eq]

@[simp] theorem applyAuthorizationHeader_ready (s : ClientState) (token : Option String) :
    (applyAuthorizationHeader s token).ready = s.ready := by
  rw [applyAuthorizationHeader_eq]

@[simp] theorem applyAuthorizationHeader_log (s : ClientState) (token : Option String) :
    (applyAuthorizationHeader s token).log = s.log := by
  rw [applyAuthorizationHeader_eq]

@[simp] theorem setAuthTokens_baseURL (s : ClientState) (a r : JsVal) :
    (setAuthTokens s a r).baseURL = s.baseURL := by
  rw [setAuthTokens_eq]

@[simp] theorem setAuthTokens_isRefreshing (s : ClientState) (a r : JsVal) :
    (setAuthTokens s a r).isRefreshing = s.isRefreshing := by
  rw [setAuthTokens_eq]

@[simp] theorem setAuthTokens_failedQueue (s : ClientState) (a r : JsVal) :
    (setAuthTokens s a r).failedQueue = s.failedQueue := by
  rw [setAuthTokens_eq]

@[simp] theorem setAuthTokens_unauthorizedListeners (s : ClientState) (a r : JsVal) :
    (setAuthTokens s a r).unauthorizedListeners = s.unauthorizedListeners := by
  rw [setAuthTokens_eq]

@[simp] theorem setAuthTokens_inFlight (s : ClientState) (a r : JsVal) :
    (setAuthTokens s a r).inFlight = s.inFlight := by
  rw [setAuthTokens_eq]

@[simp] theorem setAuthTokens_ready (s : ClientState) (a r : JsVal) :
    (setAuthTokens s a r).ready = s.ready := by
  rw [setAuthTokens_eq]

@[simp] theorem setAuthTokens_log (s : ClientState) (a r : JsVal) :
    (setAuthTokens s a r).log = s.log := by
  rw [setAuthTokens_eq]

@[simp] theorem clearAuthTokens_baseURL (s : ClientState) :
    (clearAuthTokens s).baseURL = s.baseURL := by
  rfl

@[simp] theorem clearAuthTokens_isRefreshing (s : ClientState) :
    (clearAuthTokens s).isRefreshing = s.isRefreshing := by
  rfl

@[simp] theorem clearAuthTokens_failedQueue (s : ClientState) :
    (clearAuthTokens s).failedQueue = s.failedQueue := by
  rfl

@[simp] theorem clearAuthTokens_unauthorizedListeners (s : ClientState) :
    (clearAuthTokens s).unauthorizedListeners = s.unauthorizedListeners := by
  rfl

@[simp] theorem clearAuthTokens_inFlight (s : ClientState) :
    (clearAuthTokens s).inFlight = s.inFlight := by
  rfl

@[simp] theorem clearAuthTokens_ready (s : ClientState) :
    (clearAuthTokens s).ready = s.ready := by
  rfl

@[simp] theorem clearAuthTokens_log (s : ClientState) :
    (clearAuthTokens s).log = s.log := by
  rfl

@[simp] theorem callListener_baseURL (s : ClientState) (l : Listener) :
    (callListener s l).baseURL = s.baseURL := by
  rw [callListener_eq]

@[simp] theorem callListener_isRefreshing (s : ClientState) (l : Listener) :
    (callListener s l).isRefreshing = s.isRefreshing := by
  rw [callListener_eq]

@[simp] theorem callListener_failedQueue (s : ClientState) (l : Listener) :
    (callListener s l).failedQueue = s.failedQueue := by
  rw [callListener_eq]

@[simp] theorem callListener_unauthorizedListeners (s : ClientState) (l : Listener) :
    (callListener s l).unauthorizedListeners = s.unauthorizedListeners := by
  rw [callListener_eq]

@[simp] theorem callListener_inFlight (s : ClientState) (l : Listener) :
    (callListener s l).inFlight = s.inFlight := by
  rw [callListener_eq]

@[simp] theorem callListener_ready (s : ClientState) (l : Listener) :
    (callListener s l).ready = s.ready := by
  rw [callListener_eq]

@[simp] theorem dispatch_authTokens (s : ClientState) (config : Request) (k : Kont) :
    (dispatch s config k).authTokens = s.authTokens := by
  rfl

@[simp] theorem dispatch_authorization (s : ClientState) (config : Request) (k : Kont) :
    (dispatch s config k).authorization = s.authorization := by
  rfl

@[simp] theorem dispatch_baseURL (s : ClientState) (config : Request) (k : Kont) :
    (dispatch s config k).baseURL = s.baseURL := by
  rfl

@[simp] theorem dispatch_storage (s : ClientState) (config : Request) (k : Kont) :
    (dispatch s config k).storage = s.storage := by
  rfl

@[simp] theorem dispatch_isRefreshing (s : ClientState) (config : Request) (k : Kont) :
    (dispatch s config k).isRefreshing = s.isRefreshing := by
  rfl

@[simp] theorem dispatch_failedQueue (s : ClientState) (config : Request) (k : Kont) :
    (dispatch s config k).failedQueue = s.failedQueue := by
  rfl

@[simp] theorem dispatch_unauthorizedListeners (s : ClientState) (config : Request) (k : Kont) :
    (dispatch s config k).unauthorizedListeners = s.unauthorizedListeners := by
  rfl

@[simp] theorem dispatch_ready (s : ClientState) (config : Request) (k : Kont) :
    (dispatch s config k).ready = s.ready := by
  rfl

@[simp] theorem rejectEntry_authTokens (s : ClientState) (entry : Flight) (e : Err) :
    (rejectEntry s entry e).authTokens = s.authTokens := by
  unfold rejectEntry; split <;> rfl

@[simp] theorem rejectEntry_authorization (s : ClientState) (entry : Flight) (e : Err) :
    (rejectEntry s entry e).authorization = s.authorization := by
  unfold rejectEntry; split <;> rfl

@[simp] theorem rejectEntry_baseURL (s : ClientState) (entry : Flight) (e : Err) :
    (rejectEntry s entry e).baseURL = s.baseURL := by
  unfold rejectEntry; split <;> rfl

@[simp] theorem rejectEntry_storage (s : ClientState) (entry : Flight) (e : Err) :
    (rejectEntry s entry e).storage = s.storage := by
  unfold rejectEntry; split <;> rfl

@[simp] theorem rejectEntry_isRefreshing (s : ClientState) (entry : Flight) (e : Err) :
    (rejectEntry s entry e).isRefreshing = s.isRefreshing := by
  unfold rejectEntry; split <;> rfl

@[simp] theorem rejectEntry_failedQueue (s : ClientState) (entry : Flight) (e : Err) :
    (rejectEntry s entry e).failedQueue = s.failedQueue := by
  unfold rejectEntry; split <;> rfl

@[simp] theorem rejectEntry_unauthorizedListeners (s : ClientState) (entry : Flight) (e : Err) :
    (rejectEntry s entry e).unauthorizedListeners = s.unauthorizedListeners := by
  unfold rejectEntry; split <;> rfl

@[simp] theorem rejectEntry_inFlight (s : ClientState) (entry : Flight) (e : Err) :
    (rejectEntry s entry e).inFlight = s.inFlight := by
  unfold rejectEntry; split <;> rfl

@[simp] theorem clearAuthTokens_authTokens (s : ClientState) :
    (clearAuthTokens s).authTokens = { accessToken := none, refreshToken := none } := rfl

@[simp] theorem clearAuthTokens_authorization (s : ClientState) :
    (clearAuthTokens s).authorization = none := rfl

@[simp] theorem callListener_log (s : ClientState) (l : Listener) :
    (callListener s l).log = s.log ++ notifyLog [l] := by
  rw [callListener_eq]

theorem callListener_cleared (s : ClientState) (l : Listener)
    (h : s.authTokens = { accessToken := none, refreshToken := none } ∧ s.authorization = none) :
    (callListener s l).authTokens = { accessToken := none, refreshToken := none } ∧
      (callListener s l).authorization = none := by
  unfold callListener
  cases l.clears <;> cases l.throws <;> simp [h, clearAuthTokens]

@[simp] theorem dispatch_inFlight (s : ClientState) (config : Request) (k : Kont) :
    (dispatch s config k).inFlight =
      s.inFlight ++ [{ config := requestInterceptor s.authTokens config, kont := k }] := rfl

@[simp] theorem dispatch_log (s : ClientState) (config : Request) (k : Kont) :
    (dispatch s config k).log =
      s.log ++ [.sent { config := requestInterceptor s.authTokens config, kont := k }] := rfl

theorem notifyLog_append (xs ys : List Listener) :
    notifyLog (xs ++ ys) = notifyLog xs ++ notifyLog ys := by
  induction xs with
  | nil => rfl
  | cons l rest ih =>
    simp only [List.cons_append, notifyLog]
    split <;> simp [ih]

/-- The loop of `notifyUnauthorized`, from any state whose tokens are cleared. -/
theorem listeners_loop (ls : List Listener) (s : ClientState)
    (h : s.authTokens = { accessToken := none, refreshToken := none } ∧ s.authorization = none) :
    let s' := ls.foldl callListener s
    s'.authTokens = { accessToken := none, refreshToken := none } ∧ s'.authorization = none ∧
      s'.baseURL = s.baseURL ∧ s'.isRefreshing = s.isRefreshing ∧
      s'.failedQueue = s.failedQueue ∧ s'.unauthorizedListeners = s.unauthorizedListeners ∧
      s'.inFlight = s.inFlight ∧ s'.ready = s.ready ∧ s'.log = s.log ++ notifyLog ls := by
  induction ls generalizing s with
  | nil => simp [h, notifyLog]
  | cons l rest ih =>
    have h1 := callListener_cleared s l h
    have h2 := ih (callListener s l) h1
    simp only [List.foldl_cons]
    simp only [callListener_baseURL, callListener_isRefreshing, callListener_failedQueue,
      callListener_unauthorizedListeners, callListener_inFlight, callListener_ready,
      callListener_log] at h2
    refine ⟨h2.1, h2.2.1, h2.2.2.1, h2.2.2.2.1, h2.2.2.2.2.1, h2.2.2.2.2.2.1, h2.2.2.2.2.2.2.1,
      h2.2.2.2.2.2.2.2.1, ?_⟩
    rw [h2.2.2.2.2.2.2.2.2, List.append_assoc, ← notifyLog_append]
    rfl

theorem notifyUnauthorized_spec (s : ClientState) :
    let s' := notifyUnauthorized s
    s'.authTokens = { accessToken := none, refreshToken := none } ∧ s'.authorization = none ∧
      s'.baseURL = s.baseURL ∧ s'.isRefreshing = s.isRefreshing ∧
      s'.failedQueue = s.failedQueue ∧ s'.unauthorizedListeners = s.unauthorizedListeners ∧
      s'.inFlight = s.inFlight ∧ s'.ready = s.ready ∧
      s'.log = s.log ++ notifyLog s.unauthorizedListeners :=
  listeners_loop s.unauthorizedListeners (clearAuthTokens s) ⟨rfl, rfl⟩

@[simp] theorem notifyUnauthorized_authTokens (s : ClientState) :
    (notifyUnauthorized s).authTokens = { accessToken := none, refreshToken := none } :=
  (notifyUnauthorized_spec s).1

@[simp] theorem notifyUnauthorized_authorization (s : ClientState) :
    (notifyUnauthorized s).authorization = none :=
  (notifyUnauthorized_spec s).2.1

@[simp] theorem notifyUnauthorized_baseURL (s : ClientState) :
    (notifyUnauthorized s).baseURL = s.baseURL :=
  (notifyUnauthorized_spec s).2.2.1

@[simp] theorem notifyUnauthorized_isRefreshing (s : ClientState) :
    (notifyUnauthorized s).isRefreshing = s.isRefreshing :=
  (notifyUnauthorized_spec s).2.2.2.1

@[simp] theorem notifyUnauthorized_failedQueue (s : ClientState) :
    (notifyUnauthorized s).failedQueue = s.failedQueue :=
  (notifyUnauthorized_spec s).2.2.2.2.1

@[simp] theorem notifyUnauthorized_unauthorizedListeners (s : ClientState) :
    (notifyUnauthorized s).unauthorizedListeners = s.unauthorizedListeners :=
  (notifyUnauthorized_spec s).2.2.2.2.2.1

@[simp] theorem notifyUnauthorized_inFlight (s : ClientState) :
    (notifyUnauthorized s).inFlight = s.inFlight :=
  (notifyUnauthorized_spec s).2.2.2.2.2.2.1

@[simp] theorem notifyUnauthorized_ready (s : ClientState) :
    (notifyUnauthorized s).ready = s.ready :=
  (notifyUnauthorized_spec s).2.2.2.2.2.2.2.1

@[simp] theorem notifyUnauthorized_log (s : ClientState) :
    (notifyUnauthorized s).log = s.log ++ notifyLog s.unauthorizedListeners :=
  (notifyUnauthorized_spec s).2.2.2.2.2.2.2.2

/-! ## Releasing the wait queue -/

theorem resend_loop (q : List Flight) (s : ClientState) :
    let s' := q.foldl (fun acc entry => dispatch acc entry.config entry.kont) s
    s'.authTokens = s.authTokens ∧ s'.authorization = s.authorization ∧
      s'.baseURL = s.baseURL ∧ s'.storage = s.storage ∧ s'.isRefreshing = s.isRefreshing ∧
      s'.failedQueue = s.failedQueue ∧ s'.unauthorizedListeners = s.unauthorizedListeners ∧
      s'.ready = s.ready ∧ s'.inFlight = s.inFlight ++ q.map (Flight.stamped s.authTokens) ∧
      s'.log = s.log ++ (q.map (Flight.stamped s.authTokens)).map Effect.sent := by
  induction q generalizing s with
  | nil => simp
  | cons f rest ih =>
    have h := ih (dispatch s f.config f.kont)
    simp only [List.foldl_cons]
    simp only [dispatch_authTokens, dispatch_authorization, dispatch_baseURL, dispatch_storage,
      dispatch_isRefreshing, dispatch_failedQueue, dispatch_unauthorizedListeners, dispatch_ready,
      dispatch_inFlight, dispatch_log] at h
    refine ⟨h.1, h.2.1, h.2.2.1, h.2.2.2.1, h.2.2.2.2.1, h.2.2.2.2.2.1, h.2.2.2.2.2.2.1,
      h.2.2.2.2.2.2.2.1, ?_, ?_⟩
    · rw [h.2.2.2.2.2.2.2.2.1]; simp [Flight.stamped]
    · rw [h.2.2.2.2.2.2.2.2.2]; simp [Flight.stamped]

@[simp] theorem onRefreshed_authTokens (s : ClientState) :
    (onRefreshed s).authTokens = s.authTokens := (resend_loop s.failedQueue s).1

@[simp] theorem onRefreshed_authorization (s : ClientState) :
    (onRefreshed s).authorization = s.authorization := (resend_loop s.failedQueue s).2.1

@[simp] theorem onRefreshed_baseURL (s : ClientState) :
    (onRefreshed s).baseURL = s.baseURL := (resend_loop s.failedQueue s).2.2.1

@[simp] theorem onRefreshed_storage (s : ClientState) :
    (onRefreshed s).storage = s.storage := (resend_loop s.failedQueue s).2.2.2.1

@[simp] theorem onRefreshed_isRefreshing (s : ClientState) :
    (onRefreshed s).isRefreshing = s.isRefreshing := (resend_loop s.failedQueue s).2.2.2.2.1

@[simp] theorem onRefreshed_failedQueue (s : ClientState) :
    (onRefreshed s).failedQueue = [] := rfl

@[simp] theorem onRefreshed_unauthorizedListeners (s : ClientState) :
    (onRefreshed s).unauthorizedListeners = s.unauthorizedListeners :=
  (resend_loop s.failedQueue s).2.2.2.2.2.2.1

@[simp] theorem onRefreshed_ready (s : ClientState) :
    (onRefreshed s).ready = s.ready := (resend_loop s.failedQueue s).2.2.2.2.2.2.2.1

@[simp] theorem onRefreshed_inFlight (s : ClientState) :
    (onRefreshed s).inFlight = s.inFlight ++ s.failedQueue.map (Flight.stamped s.authTokens) :=
  (resend_loop s.failedQueue s).2.2.2.2.2.2.2.2.1

@[simp] theorem onRefreshed_log (s : ClientState) :
    (onRefreshed s).log =
      s.log ++ (s.failedQueue.map (Flight.stamped s.authTokens)).map Effect.sent :=
  (resend_loop s.failedQueue s).2.2.2.2.2.2.2.2.2

theorem reject_loop (q : List Flight) (e : Err) (s : ClientState) :
    let s' := q.foldl (fun acc entry => rejectEntry acc entry e) s
    s'.authTokens = s.authTokens ∧ s'.authorization = s.authorization ∧
      s'.baseURL = s.baseURL ∧ s'.storage = s.storage ∧ s'.isRefreshing = s.isRefreshing ∧
      s'.failedQueue = s.failedQueue ∧ s'.unauthorizedListeners = s.unauthorizedListeners ∧
      s'.inFlight = s.inFlight ∧
      s'.ready = s.ready ++ (handlerEntries q).map (fun f => (f, e)) ∧
      s'.log = s.log ++ (callerEntries q).map (fun f => Effect.rejected f.config e) := by
  induction q generalizing s with
  | nil => simp [handlerEntries, callerEntries]
  | cons f rest ih =>
    have h := ih (rejectEntry s f e)
    simp only [List.foldl_cons]
    simp only [rejectEntry_authTokens, rejectEntry_authorization, rejectEntry_baseURL,
      rejectEntry_storage, rejectEntry_isRefreshing, rejectEntry_failedQueue,
      rejectEntry_unauthorizedListeners, rejectEntry_inFlight] at h
    refine ⟨h.1, h.2.1, h.2.2.1, h.2.2.2.1, h.2.2.2.2.1, h.2.2.2.2.2.1, h.2.2.2.2.2.2.1,
      h.2.2.2.2.2.2.2.1, ?_, ?_⟩
    · rw [h.2.2.2.2.2.2.2.2.1]
      unfold rejectEntry handlerEntries
      cases hk : f.kont <;> simp [hk, Kont.isCaller, List.filter_cons]
    · rw [h.2.2.2.2.2.2.2.2.2]
      unfold rejectEntry callerEntries
      cases hk : f.kont <;> simp [hk, Kont.isCaller, List.filter_cons]

@[simp] theorem onRefreshFailed_authTokens (s : ClientState) (e : Err) :
    (onRefreshFailed s e).authTokens = s.authTokens := (reject_loop s.failedQueue e s).1

@[simp] theorem onRefreshFailed_authorization (s : ClientState) (e : Err) :
    (onRefreshFailed s e).authorization = s.authorization := (reject_loop s.failedQueue e s).2.1

@[simp] theorem onRefreshFailed_baseURL (s : ClientState) (e : Err) :
    (onRefreshFailed s e).baseURL = s.baseURL := (reject_loop s.failedQueue e s).2.2.1

@[simp] theorem onRefreshFailed_storage (s : ClientState) (e : Err) :
    (onRefreshFailed s e).storage = s.storage := (reject_loop s.failedQueue e s).2.2.2.1

@[simp] theorem onRefreshFailed_isRefreshing (s : ClientState) (e : Err) :
    (onRefreshFailed s e).isRefreshing = s.isRefreshing :=
  (reject_loop s.failedQueue e s).2.2.2.2.1

@[simp] theorem onRefreshFailed_failedQueue (s : ClientState) (e : Err) :
    (onRefreshFailed s e).failedQueue = [] := rfl

@[simp] theorem onRefreshFailed_unauthorizedListeners (s : ClientState) (e : Err) :
    (onRefreshFailed s e).unauthorizedListeners = s.unauthorizedListeners :=
  (reject_loop s.failedQueue e s).2.2.2.2.2.2.1

@[simp] theorem onRefreshFailed_inFlight (s : ClientState) (e : Err) :
    (onRefreshFailed s e).inFlight = s.inFlight := (reject_loop s.failedQueue e s).2.2.2.2.2.2.2.1

@[simp] theorem onRefreshFailed_ready (s : ClientState) (e : Err) :
    (onRefreshFailed s e).ready = s.ready ++ (handlerEntries s.failedQueue).map (fun f => (f, e)) :=
  (reject_loop s.failedQueue e s).2.2.2.2.2.2.2.2.1

@[simp] theorem onRefreshFailed_log (s : ClientState) (e : Err) :
    (onRefreshFailed s e).log =
      s.log ++ (callerEntries s.failedQueue).map (fun f => Effect.rejected f.config e) :=
  (reject_loop s.failedQueue e s).2.2.2.2.2.2.2.2.2

/-! ## The catch and finally blocks -/

@[simp] theorem refreshCatch_authTokens (s : ClientState) (e : Err) :
    (refreshCatch s e).authTokens = { accessToken := none, refreshToken := none } := by
  simp [refreshCatch]

@[simp] theorem refreshCatch_authorization (s : ClientState) (e : Err) :
    (refreshCatch s e).authorization = none := by
  simp [refreshCatch]

@[simp] theorem refreshCatch_baseURL (s : ClientState) (e : Err) :
    (refreshCatch s e).baseURL = s.baseURL := by
  simp [refreshCatch]

@[simp] theorem refreshCatch_isRefreshing (s : ClientState) (e : Err) :
    (refreshCatch s e).isRefreshing = false := rfl

@[simp] theorem refreshCatch_failedQueue (s : ClientState) (e : Err) :
    (refreshCatch s e).failedQueue = [] := by
  simp [refreshCatch]

@[simp] theorem refreshCatch_unauthorizedListeners (s : ClientState) (e : Err) :
    (refreshCatch s e).unauthorizedListeners = s.unauthorizedListeners := by
  simp [refreshCatch]

@[simp] theorem refreshCatch_inFlight (s : ClientState) (e : Err) :
    (refreshCatch s e).inFlight = s.inFlight := by
  simp [refreshCatch]

@[simp] theorem refreshCatch_ready (s : ClientState) (e : Err) :
    (refreshCatch s e).ready = s.ready ++ (handlerEntries s.failedQueue).map (fun f => (f, e)) := by
  simp [refreshCatch]

@[simp] theorem refreshCatch_log (s : ClientState) (e : Err) :
    (refreshCatch s e).log =
      s.log ++ (callerEntries s.failedQueue).map (fun f => Effect.rejected f.config e) ++
        notifyLog s.unauthorizedListeners := by
  simp [refreshCatch]

/-! ## Settling a promise -/

@[simp] theorem settleRejected_caller (s : ClientState) (req : Request) (e : Err) :
    settleRejected s req e .caller = { s with log := s.log ++ [.rejected req e] } := rfl

@[simp] theorem settleRejected_driver (s : ClientState) (req o : Request) (e : Err)
    (c : Option String) (n : Kont) :
    settleRejected s req e (.driver o c n) = settleRejected (refreshCatch s e) o e n := rfl

@[simp] theorem sends_append (xs ys : List Effect) : sends (xs ++ ys) = sends xs ++ sends ys := by
  induction xs with
  | nil => rfl
  | cons x rest ih => cases x <;> simp [sends, ih]

@[simp] theorem sends_notifyLog (ls : List Listener) : sends (notifyLog ls) = [] := by
  induction ls with
  | nil => rfl
  | cons l rest ih =>
    unfold notifyLog
    split <;> simp [sends, ih]

@[simp] theorem sends_rejected (q : List Flight) (e : Err) :
    sends (q.map (fun f => Effect.rejected f.config e)) = [] := by
  induction q with
  | nil => rfl
  | cons f rest ih => simp [sends, ih]

@[simp] theorem sends_sent (q : List Flight) : sends (q.map Effect.sent) = q := by
  induction q with
  | nil => rfl
  | cons f rest ih => simp [sends, ih]

@[simp] theorem sends_single_sent (f : Flight) : sends [Effect.sent f] = [f] := rfl

@[simp] theorem sends_single_rejected (req : Request) (e : Err) :
    sends [Effect.rejected req e] = [] := rfl

@[simp] theorem sends_single_resolved (req : Request) (d : Option ResponseData) :
    sends [Effect.resolved req d] = [] := rfl

theorem framesOf_append (xs ys : List Flight) :
    framesOf (xs ++ ys) = framesOf xs + framesOf ys := by
  induction xs with
  | nil => simp [framesOf]
  | cons x rest ih => simp [framesOf, ih, Nat.add_assoc]

@[simp] theorem isCaller_caller : Kont.caller.isCaller = true := rfl

@[simp] theorem isCaller_driver (o : Request) (c : Option String) (n : Kont) :
    (Kont.driver o c n).isCaller = false := rfl

theorem framesOf_handlerEntries (q : List Flight) : framesOf (handlerEntries q) = framesOf q := by
  induction q with
  | nil => rfl
  | cons f rest ih =>
    unfold handlerEntries at ih ⊢
    cases hk : f.kont <;> simp [List.filter_cons, hk, framesOf, Kont.frames, ih]

theorem framesOf_stamped (tokens : AuthTokens) (q : List Flight) :
    framesOf (q.map (Flight.stamped tokens)) = framesOf q := by
  induction q with
  | nil => rfl
  | cons f rest ih => simp [framesOf, ih, Flight.stamped]

theorem framesOf_ready (q : List Flight) (e : Err) :
    framesOf ((q.map (fun f => (f, e))).map Prod.fst) = framesOf q := by
  simp [List.map_map, Function.comp_def]

@[simp] theorem refreshCatch_suspended (s : ClientState) (e : Err) :
    suspendedHandlers (refreshCatch s e) = suspendedHandlers s := by
  unfold suspendedHandlers
  rw [refreshCatch_inFlight, refreshCatch_failedQueue, refreshCatch_ready, List.map_append,
    framesOf_append, framesOf_ready, framesOf_handlerEntries]
  simp [framesOf]
  omega

theorem settleRejected_spec (k : Kont) (s : ClientState) (req : Request) (e : Err) :
    let s' := settleRejected s req e k
    s'.inFlight = s.inFlight ∧ s'.baseURL = s.baseURL ∧
      s'.unauthorizedListeners = s.unauthorizedListeners ∧ sends s'.log = sends s.log ∧
      s'.isRefreshing = (if k.isCaller then s.isRefreshing else false) ∧
      s'.failedQueue = (if k.isCaller then s.failedQueue else []) ∧
      suspendedHandlers s' = suspendedHandlers s := by
  induction k generalizing s req with
  | caller => simp [suspendedHandlers]
  | driver o c n ih =>
    have h := ih (refreshCatch s e) o
    simp only [settleRejected_driver]
    simp only [refreshCatch_inFlight, refreshCatch_baseURL, refreshCatch_unauthorizedListeners,
      refreshCatch_log, refreshCatch_isRefreshing, refreshCatch_failedQueue, sends_append,
      sends_rejected, sends_notifyLog, List.append_nil, ite_self] at h
    refine ⟨h.1, h.2.1, h.2.2.1, h.2.2.2.1, ?_, ?_, ?_⟩
    · simpa using h.2.2.2.2.1
    · simpa using h.2.2.2.2.2.1
    · rw [h.2.2.2.2.2.2, refreshCatch_suspended]

@[simp] theorem settleRejected_inFlight (k : Kont) (s : ClientState) (req : Request) (e : Err) :
    (settleRejected s req e k).inFlight = s.inFlight := (settleRejected_spec k s req e).1

@[simp] theorem settleRejected_baseURL (k : Kont) (s : ClientState) (req : Request) (e : Err) :
    (settleRejected s req e k).baseURL = s.baseURL := (settleRejected_spec k s req e).2.1

@[simp] theorem settleRejected_unauthorizedListeners (k : Kont) (s : ClientState) (req : Request)
    (e : Err) : (settleRejected s req e k).unauthorizedListeners = s.unauthorizedListeners :=
  (settleRejected_spec k s req e).2.2.1

@[simp] theorem settleRejected_sends (k : Kont) (s : ClientState) (req : Request) (e : Err) :
    sends (settleRejected s req e k).log = sends s.log := (settleRejected_spec k s req e).2.2.2.1

theorem settleRejected_isRefreshing (k : Kont) (s : ClientState) (req : Request) (e : Err) :
    (settleRejected s req e k).isRefreshing = (if k.isCaller then s.isRefreshing else false) :=
  (settleRejected_spec k s req e).2.2.2.2.1

theorem settleRejected_failedQueue (k : Kont) (s : ClientState) (req : Request) (e : Err) :
    (settleRejected s req e k).failedQueue = (if k.isCaller then s.failedQueue else []) :=
  (settleRejected_spec k s req e).2.2.2.2.2.1

@[simp] theorem settleRejected_suspended (k : Kont) (s : ClientState) (req : Request) (e : Err) :
    suspendedHandlers (settleRejected s req e k) = suspendedHandlers s :=
  (settleRejected_spec k s req e).2.2.2.2.2.2

/-- Both fail-fast branches of the response handler: notify, then reject with the error itself. -/
theorem fail_fast (URL : String → String → Option String) (s : ClientState) (error : Err)
    (k : Kont) (h401 : statusOf error = some 401)
    (h : (originalRequestOf error).retry = true ∨
      isAuthCriticalPath (normalizePath URL s.baseURL (originalRequestOf error).url) = true) :
    responseErrorHandler URL s error k =
      settleRejected (notifyUnauthorized s) (originalRequestOf error) error k := by
  unfold responseErrorHandler
  simp only [h401, bne_self_eq_false, Bool.false_eq_true, ↓reduceIte]
  rcases h with h | h
  · simp [h]
  · by_cases hr : (originalRequestOf error).retry = true
    · simp [hr]
    · simp [hr, h]

@[simp] theorem settleResolved_caller (s : ClientState) (req : Request)
    (data : Option ResponseData) :
    settleResolved s req data .caller = { s with log := s.log ++ [.resolved req data] } := rfl

/-- The rest of the `try` block when the response carries an access token. -/
theorem settleResolved_success (s : ClientState) (req o : Request) (data : Option ResponseData)
    (c : Option String) (n : Kont) (a : String) (h : data.bind (fun d => d.access) = some a)
    (ha : a ≠ "") :
    settleResolved s req data (.driver o c n) =
      { dispatch (onRefreshed (setAuthTokens s (.str a)
          (match data.bind (fun d => d.refresh) with
            | some r => .str r
            | none => JsVal.ofOption c))) o n with isRefreshing := false } := by
  have hb : (a != "") = true := by simpa using ha
  simp only [settleResolved, h, hb, if_true]
  try rfl

/-- The rest of the `try` block when the response carries no access token. -/
theorem settleResolved_noAccess (s : ClientState) (req o : Request) (data : Option ResponseData)
    (c : Option String) (n : Kont) (h : truthy (data.bind (fun d => d.access)) = false) :
    settleResolved s req data (.driver o c n) =
      settleRejected (refreshCatch s .accessTokenMissing) o .accessTokenMissing n := by
  unfold settleResolved
  cases hd : data.bind (fun d => d.access) with
  | none => rfl
  | some a =>
    rw [hd] at h
    have ha : a = "" := by simpa [truthy] using h
    simp [ha]

/-! ## The fail-fast branches -/

theorem fail_fast_caller (URL : String → String → Option String) (s : ClientState) (error : Err)
    (h401 : statusOf error = some 401)
    (h : (originalRequestOf error).retry = true ∨
      isAuthCriticalPath (normalizePath URL s.baseURL (originalRequestOf error).url) = true) :
    let s' := responseErrorHandler URL s error .caller
    s'.log = s.log ++ notifyLog s.unauthorizedListeners ++
        [.rejected (originalRequestOf error) error] ∧
      s'.authTokens = { accessToken := none, refreshToken := none } ∧ s'.authorization = none ∧
      s'.inFlight = s.inFlight ∧ s'.failedQueue = s.failedQueue ∧
      s'.isRefreshing = s.isRefreshing := by
  simp [fail_fast URL s error .caller h401 h]

theorem fail_fast_any (URL : String → String → Option String) (s : ClientState) (error : Err)
    (k : Kont) (h401 : statusOf error = some 401)
    (h : (originalRequestOf error).retry = true ∨
      isAuthCriticalPath (normalizePath URL s.baseURL (originalRequestOf error).url) = true) :
    let s' := responseErrorHandler URL s error k
    sends s'.log = sends s.log ∧ s'.inFlight = s.inFlight ∧
      (s'.failedQueue = s.failedQueue ∨ s'.failedQueue = []) := by
  simp only [fail_fast URL s error k h401 h, settleRejected_sends, settleRejected_inFlight,
    settleRejected_failedQueue, notifyUnauthorized_log, sends_append, sends_notifyLog,
    List.append_nil, notifyUnauthorized_inFlight, notifyUnauthorized_failedQueue, true_and]
  cases k.isCaller <;> simp

/-! ## The refresh branch -/

/-- The refresh branch with a refresh token: mark, set the flag, call the refresh endpoint. -/
theorem drive_refresh (URL : String → String → Option String) (s : ClientState) (error : Err)
    (k : Kont) (h401 : statusOf error = some 401)
    (hfresh : (originalRequestOf error).retry = false)
    (hpath : isAuthCriticalPath (normalizePath URL s.baseURL (originalRequestOf error).url) = false)
    (hidle : s.isRefreshing = false) (htoken : truthy s.authTokens.refreshToken = true) :
    responseErrorHandler URL s error k =
      dispatch { s with isRefreshing := true } (refreshRequest s.authTokens.refreshToken)
        (.driver { originalRequestOf error with retry := true } s.authTokens.refreshToken k) := by
  unfold responseErrorHandler
  simp [h401, hfresh, hpath, hidle, htoken]

/-- The refresh branch without a refresh token: the `throw` lands in the `catch` block. -/
theorem drive_without_token (URL : String → String → Option String) (s : ClientState)
    (error : Err) (k : Kont) (h401 : statusOf error = some 401)
    (hfresh : (originalRequestOf error).retry = false)
    (hpath : isAuthCriticalPath (normalizePath URL s.baseURL (originalRequestOf error).url) = false)
    (hidle : s.isRefreshing = false) (htoken : truthy s.authTokens.refreshToken = false) :
    responseErrorHandler URL s error k =
      settleRejected (refreshCatch { s with isRefreshing := true } .refreshTokenMissing)
        { originalRequestOf error with retry := true } .refreshTokenMissing k := by
  unfold responseErrorHandler
  simp [h401, hfresh, hpath, hidle, htoken]

/-- The wait-queue branch. -/
theorem join_queue (URL : String → String → Option String) (s : ClientState) (error : Err)
    (k : Kont) (h401 : statusOf error = some 401)
    (hfresh : (originalRequestOf error).retry = false)
    (hpath : isAuthCriticalPath (normalizePath URL s.baseURL (originalRequestOf error).url) = false)
    (hbusy : s.isRefreshing = true) :
    responseErrorHandler URL s error k =
      { s with failedQueue := s.failedQueue ++ [{ config := originalRequestOf error, kont := k }] } := by
  unfold responseErrorHandler
  simp [h401, hfresh, hpath, hbusy]

/-- The pass-through branch. -/
theorem pass_through (URL : String → String → Option String) (s : ClientState) (error : Err)
    (k : Kont) (h : statusOf error ≠ some 401) :
    responseErrorHandler URL s error k = settleRejected s (originalRequestOf error) error k := by
  unfold responseErrorHandler
  simp [h]

/-- Where the handler that drives a refresh is resumed, it leaves the flag
false and the wait queue empty: when its refresh call is answered, with an
access token or without one; when its refresh call fails with anything but a
401, or with a 401 on a path recognised as an auth endpoint; and when it had no
refresh token to begin with.  From a state with the flag false and the queue
empty a new 401 is not queued: with a refresh token at hand its handler sets
the flag again and calls the refresh endpoint. -/
theorem driver_ends_idle (URL : String → String → Option String) (s : ClientState)
    (cfg o : Request) (c : Option String) (n : Kont) :
    (∀ data : Option ResponseData,
        (step URL s (.response { config := cfg, kont := .driver o c n } (.ok data))).isRefreshing =
            false ∧
          (step URL s (.response { config := cfg, kont := .driver o c n } (.ok data))).failedQueue =
            []) ∧
      (∀ status : Option Nat,
        status ≠ some 401 ∨ isAuthCriticalPath (normalizePath URL s.baseURL cfg.url) = true →
        (step URL s
            (.response { config := cfg, kont := .driver o c n } (.fail status))).isRefreshing =
            false ∧
          (step URL s
            (.response { config := cfg, kont := .driver o c n } (.fail status))).failedQueue =
            []) ∧
      (∀ (error : Err) (k : Kont), statusOf error = some 401 →
        (originalRequestOf error).retry = false →
        isAuthCriticalPath (normalizePath URL s.baseURL (originalRequestOf error).url) = false →
        s.isRefreshing = false → truthy s.authTokens.refreshToken = false →
        (responseErrorHandler URL s error k).isRefreshing = false ∧
          (responseErrorHandler URL s error k).failedQueue = []) ∧
      (∀ (error : Err) (k : Kont), statusOf error = some 401 →
        (originalRequestOf error).retry = false →
        isAuthCriticalPath (normalizePath URL s.baseURL (originalRequestOf error).url) = false →
        s.isRefreshing = false → s.failedQueue = [] → truthy s.authTokens.refreshToken = true →
        (responseErrorHandler URL s error k).isRefreshing = true ∧
          (responseErrorHandler URL s error k).failedQueue = [] ∧
          refreshCalls (responseErrorHandler URL s error k).log = refreshCalls s.log + 1) := by
  have hrej : ∀ (s : ClientState) (req : Request) (e : Err),
      (settleRejected s req e (.driver o c n)).isRefreshing = false ∧
        (settleRejected s req e (.driver o c n)).failedQueue = [] := by
    intro s req e
    rw [settleRejected_isRefreshing, settleRejected_failedQueue]
    simp
  refine ⟨?_, ?_, ?_, ?_⟩
  · intro data
    simp only [step]
    cases hd : data.bind (fun d => d.access) with
    | none =>
      rw [settleResolved_noAccess _ cfg o data c n (by rw [hd]; rfl)]
      simpa using hrej _ cfg .accessTokenMissing
    | some a =>
      by_cases ha : a = ""
      · rw [settleResolved_noAccess _ cfg o data c n (by rw [hd, ha]; rfl)]
        simpa using hrej _ cfg .accessTokenMissing
      · rw [settleResolved_success _ cfg o data c n a hd ha]
        simp
  · intro status hsettles
    simp only [step]
    by_cases h401 : status = some 401
    · have hcrit : isAuthCriticalPath (normalizePath URL s.baseURL cfg.url) = true := by
        rcases hsettles with h | h
        · exact absurd h401 h
        · exact h
      rw [fail_fast URL
        ({ s with inFlight := s.inFlight.erase { config := cfg, kont := .driver o c n } })
        (.axios (some cfg) status) _
        (by simpa [statusOf] using h401) (Or.inr (by simpa [originalRequestOf] using hcrit))]
      exact hrej _ _ _
    · rw [pass_through URL
        ({ s with inFlight := s.inFlight.erase { config := cfg, kont := .driver o c n } })
        (.axios (some cfg) status) _ (by simpa [statusOf] using h401)]
      exact hrej _ _ _
  · intro error k h401 hfresh hpath hidle htoken
    rw [drive_without_token URL s error k h401 hfresh hpath hidle htoken,
      settleRejected_isRefreshing, settleRejected_failedQueue]
    simp
  · intro error k h401 hfresh hpath hidle hqueue htoken
    rw [drive_refresh URL s error k h401 hfresh hpath hidle htoken]
    simp [hqueue, refreshCalls]

/-! ## A successful refresh -/

theorem setAuthTokens_tokens (s : ClientState) (a : String) (rt : JsVal) (ha : a ≠ "") :
    (setAuthTokens s (.str a) rt).authTokens.accessToken = some a ∧
      (setAuthTokens s (.str a) rt).authorization = some ("Bearer " ++ a) ∧
      (setAuthTokens s (.str a) rt).authTokens.refreshToken =
        (match rt with
          | .undefined => s.authTokens.refreshToken
          | v => v.orNull) ∧
      (setAuthTokens s (.str a) rt).storage =
        persistTokens s.storage (.str a)
          (JsVal.ofOption (setAuthTokens s (.str a) rt).authTokens.refreshToken) := by
  have hb : (a != "") = true := by simpa using ha
  unfold setAuthTokens
  simp only [JsVal.orNull, hb, if_true, truthy, Bool.true_or]
  refine ⟨?_, ?_, ?_, ?_⟩
  · simp
  · simp [applyAuthorizationHeader, ha]
  · cases rt <;> simp
  · simp [JsVal.ofOption]

/-! ## A failed refresh -/

theorem count_called_notifyLog (l : Listener) (ls : List Listener) :
    (notifyLog ls).count (.listenerCalled l) = ls.count l := by
  induction ls with
  | nil => rfl
  | cons x rest ih =>
    unfold notifyLog
    by_cases hx : x = l
    · subst hx
      split <;> simp [ih]
    · have hne : (Effect.listenerCalled x == Effect.listenerCalled l) = false := by
        simpa using hx
      have hne2 : (x == l) = false := by simpa using hx
      split <;> simp [List.count_cons, ih, hne, hne2]

theorem count_called_rejected (l : Listener) (q : List Flight) (e : Err) :
    (q.map (fun f => Effect.rejected f.config e)).count (.listenerCalled l) = 0 := by
  induction q with
  | nil => rfl
  | cons f rest ih => simp [List.count_cons, ih]

/-! ## Requests that waited in the queue -/

/-- While the flag is set, no rejection is pending and every request in
flight belongs to a caller, no turn releases the wait queue. -/
theorem parked_step (URL : String → String → Option String) (s : ClientState) (ev : Event)
    (hbusy : s.isRefreshing = true) (hready : s.ready = [])
    (hcallers : ∀ f ∈ s.inFlight, f.kont = .caller) (hen : ev.enabled s = true) :
    (step URL s ev).isRefreshing = true ∧ (step URL s ev).ready = [] ∧
      (∀ f ∈ (step URL s ev).inFlight, f.kont = .caller) ∧
      s.failedQueue <+: (step URL s ev).failedQueue := by
  cases ev with
  | request config =>
    refine ⟨hbusy, hready, ?_, List.prefix_refl _⟩
    intro f hf
    simp only [step, dispatch_inFlight, List.mem_append, List.mem_singleton] at hf
    rcases hf with hf | hf
    · exact hcallers f hf
    · rw [hf]
  | response f r =>
    have hf : f ∈ s.inFlight := by simpa [Event.enabled] using hen
    have hk : f.kont = .caller := hcallers f hf
    have herase : ∀ g ∈ s.inFlight.erase f, g.kont = .caller :=
      fun g hg => hcallers g (List.mem_of_mem_erase hg)
    cases r with
    | ok data =>
      simp only [step, hk, settleResolved_caller]
      exact ⟨hbusy, hready, herase, List.prefix_refl _⟩
    | fail status =>
      simp only [step, hk]
      by_cases h401 : status = some 401
      · by_cases hfast : f.config.retry = true ∨
            isAuthCriticalPath (normalizePath URL s.baseURL f.config.url) = true
        · rw [fail_fast URL ({ s with inFlight := s.inFlight.erase f })
            (.axios (some f.config) status) .caller
            (by simpa [statusOf] using h401) (by simpa [originalRequestOf] using hfast)]
          simp only [settleRejected_caller, notifyUnauthorized_isRefreshing,
            notifyUnauthorized_ready, notifyUnauthorized_inFlight, notifyUnauthorized_failedQueue]
          exact ⟨hbusy, hready, herase, List.prefix_refl _⟩
        · have hfast' := not_or.mp hfast
          rw [join_queue URL ({ s with inFlight := s.inFlight.erase f })
            (.axios (some f.config) status) .caller
            (by simpa [statusOf] using h401) (by simpa [originalRequestOf] using hfast'.1)
            (by simpa [originalRequestOf] using hfast'.2) hbusy]
          exact ⟨hbusy, hready, herase, List.prefix_append _ _⟩
      · rw [pass_through URL ({ s with inFlight := s.inFlight.erase f })
          (.axios (some f.config) status) .caller (by simpa [statusOf] using h401)]
        simp only [settleRejected_caller]
        exact ⟨hbusy, hready, herase, List.prefix_refl _⟩
  | tick =>
    have htick : step URL s .tick = s := by simp [step, hready]
    rw [htick]
    exact ⟨hbusy, hready, hcallers, List.prefix_refl _⟩
  | setAuthTokens a r =>
    simp only [step, setAuthTokens_isRefreshing, setAuthTokens_ready, setAuthTokens_inFlight,
      setAuthTokens_failedQueue]
    exact ⟨hbusy, hready, hcallers, List.prefix_refl _⟩
  | clearAuthTokens => exact ⟨hbusy, hready, hcallers, List.prefix_refl _⟩
  | subscribe l =>
    simp only [step, subscribeUnauthorized]
    split <;> exact ⟨hbusy, hready, hcallers, List.prefix_refl _⟩
  | unsubscribe l => exact ⟨hbusy, hready, hcallers, List.prefix_refl _⟩

/-- From such a state no run of enabled turns releases the wait queue. -/
theorem parked_run (URL : String → String → Option String) (events : List Event)
    (s : ClientState) (hbusy : s.isRefreshing = true) (hready : s.ready = [])
    (hcallers : ∀ f ∈ s.inFlight, f.kont = .caller) (hvalid : validRun URL s events = true) :
    (run URL s events).isRefreshing = true ∧ s.failedQueue <+: (run URL s events).failedQueue := by
  induction events generalizing s with
  | nil => exact ⟨hbusy, List.prefix_refl _⟩
  | cons ev rest ih =>
    simp only [validRun, Bool.and_eq_true] at hvalid
    have h := parked_step URL s ev hbusy hready hcallers hvalid.1
    have h2 := ih (step URL s ev) h.1 h.2.1 h.2.2.1 hvalid.2
    exact ⟨h2.1, h.2.2.2.trans h2.2⟩

/-! ## One refresh for many 401s -/

theorem run_append (URL : String → String → Option String) (s : ClientState)
    (xs ys : List Event) : run URL s (xs ++ ys) = run URL (run URL s xs) ys := by
  simp [run, List.foldl_append]

theorem requestInterceptor_stamp (tokens : AuthTokens) (config : Request) (a : String)
    (h : tokens.accessToken = some a) (ha : a ≠ "") :
    requestInterceptor tokens config = { config with authorization := some ("Bearer " ++ a) } := by
  simp [requestInterceptor, h, ha]

theorem requestInterceptor_setAuthTokens (s : ClientState) (a : String) (rt : JsVal)
    (config : Request) (ha : a ≠ "") :
    requestInterceptor (setAuthTokens s (.str a) rt).authTokens config =
      { config with authorization := some ("Bearer " ++ a) } :=
  requestInterceptor_stamp _ config a (setAuthTokens_tokens s a rt ha).1 ha

theorem sends_map_sent {α : Type} (F : α → Flight) (l : List α) :
    sends (l.map (fun q => Effect.sent (F q))) = l.map F := by
  induction l with
  | nil => rfl
  | cons x rest ih => simp [sends, ih]

/-- Every 401 that arrives while the flag is set joins the wait queue, and nothing else changes
but the requests in flight. -/
theorem queue_run (URL : String → String → Option String) (rest : List Request)
    (s : ClientState) (hbusy : s.isRefreshing = true)
    (hfresh : ∀ q ∈ rest,
      q.retry = false ∧ isAuthCriticalPath (normalizePath URL s.baseURL q.url) = false) :
    let s' := run URL s
      (rest.map (fun q => Event.response { config := q, kont := .caller } (.fail (some 401))))
    s'.isRefreshing = true ∧
      s'.failedQueue = s.failedQueue ++ rest.map (fun q => { config := q, kont := .caller }) ∧
      s'.log = s.log ∧ s'.authTokens = s.authTokens ∧ s'.baseURL = s.baseURL := by
  induction rest generalizing s with
  | nil => simp [run, hbusy]
  | cons q rest ih =>
    have hq := hfresh q (List.mem_cons_self _ _)
    have hstep : step URL s (.response { config := q, kont := .caller } (.fail (some 401))) =
        { s with inFlight := s.inFlight.erase { config := q, kont := .caller }
                 failedQueue := s.failedQueue ++ [{ config := q, kont := .caller }] } := by
      simp only [step]
      rw [join_queue URL ({ s with inFlight := s.inFlight.erase { config := q, kont := .caller } })
        (.axios (some q) (some 401)) .caller rfl hq.1 hq.2 hbusy]
      rfl
    have h := ih (step URL s (.response { config := q, kont := .caller } (.fail (some 401))))
      (by rw [hstep]; exact hbusy)
      (by rw [hstep]; exact fun x hx => hfresh x (List.mem_cons_of_mem _ hx))
    simp only [List.map_cons, run, List.foldl_cons] at h ⊢
    rw [hstep] at h ⊢
    simpa using h

/-! ## The single-flight invariant -/

theorem frames_zero (k : Kont) (h : k.frames = 0) : k = .caller := by
  cases k with
  | caller => rfl
  | driver o c n => simp [Kont.frames] at h

theorem frames_pos (k : Kont) (h : k.isCaller = false) : 0 < k.frames := by
  cases k with
  | caller => simp at h
  | driver o c n => simp [Kont.frames]

theorem framesOf_erase (l : List Flight) (f : Flight) (hf : f ∈ l) :
    framesOf (l.erase f) + f.kont.frames = framesOf l := by
  induction l with
  | nil => simp at hf
  | cons x rest ih =>
    by_cases hx : x = f
    · subst hx
      simp [framesOf]
      omega
    · have hmem : f ∈ rest := by
        rcases List.mem_cons.mp hf with h | h
        · exact absurd h.symm hx
        · exact h
      have hne : (x == f) = false := by simpa using hx
      have := ih hmem
      simp only [List.erase_cons, hne, framesOf, Bool.false_eq_true, if_false]
      omega

theorem framesOf_zero (l : List Flight) (h : framesOf l = 0) : ∀ f ∈ l, f.kont = .caller := by
  induction l with
  | nil => simp
  | cons x rest ih =>
    simp only [framesOf] at h
    intro f hf
    rcases List.mem_cons.mp hf with hfx | hfr
    · rw [hfx]
      exact frames_zero _ (by omega)
    · exact ih (by omega) f hfr

theorem outstanding_le (l : List Flight) :
    (l.filter (fun f => !f.kont.isCaller)).length ≤ framesOf l := by
  induction l with
  | nil => simp [framesOf]
  | cons x rest ih =>
    simp only [List.filter_cons, framesOf]
    cases hx : x.kont.isCaller
    · have := frames_pos _ hx
      simp
      omega
    · simp
      omega

theorem no_handlers (l : List Flight) (h : ∀ f ∈ l, f.kont = .caller) :
    l.filter (fun f => !f.kont.isCaller) = [] := by
  rw [List.filter_eq_nil_iff]
  intro f hf
  simp [h f hf]

@[simp] theorem notifyUnauthorized_suspended (s : ClientState) :
    suspendedHandlers (notifyUnauthorized s) = suspendedHandlers s := by
  simp [suspendedHandlers]

theorem suspended_push (s : ClientState) (g : Flight) :
    suspendedHandlers { s with failedQueue := s.failedQueue ++ [g] } =
      suspendedHandlers s + g.kont.frames := by
  simp only [suspendedHandlers, framesOf_append, framesOf]
  omega

theorem suspended_dispatch (s : ClientState) (cfg : Request) (k : Kont) :
    suspendedHandlers (dispatch s cfg k) = suspendedHandlers s + k.frames := by
  simp only [suspendedHandlers, dispatch_inFlight, dispatch_failedQueue, dispatch_ready,
    framesOf_append, framesOf]
  omega

theorem suspended_success (s : ClientState) (a rt : JsVal) (o : Request) (n : Kont) :
    suspendedHandlers { dispatch (onRefreshed (setAuthTokens s a rt)) o n with
      isRefreshing := false } = suspendedHandlers s + n.frames := by
  simp only [suspendedHandlers, dispatch_inFlight, onRefreshed_inFlight,
    setAuthTokens_inFlight, dispatch_failedQueue, onRefreshed_failedQueue, dispatch_ready,
    onRefreshed_ready, setAuthTokens_ready, setAuthTokens_failedQueue, framesOf_append,
    framesOf_stamped, framesOf]
  omega

/-- What the response handler can do, branch by branch. -/
theorem handler_cases (URL : String → String → Option String) (s : ClientState) (error : Err)
    (k : Kont) :
    (∃ s0 req e, responseErrorHandler URL s error k = settleRejected s0 req e k ∧
        suspendedHandlers s0 = suspendedHandlers s ∧ sends s0.log = sends s.log ∧
        (s0.isRefreshing = s.isRefreshing ∨ s.isRefreshing = false)) ∨
      (s.isRefreshing = true ∧ ∃ req, responseErrorHandler URL s error k =
        { s with failedQueue := s.failedQueue ++ [{ config := req, kont := k }] }) ∨
      (s.isRefreshing = false ∧ ∃ cfg o c, responseErrorHandler URL s error k =
        dispatch { s with isRefreshing := true } cfg (.driver o c k)) := by
  by_cases h401 : statusOf error = some 401
  · by_cases hfast : (originalRequestOf error).retry = true ∨
        isAuthCriticalPath (normalizePath URL s.baseURL (originalRequestOf error).url) = true
    · left
      exact ⟨notifyUnauthorized s, _, _, fail_fast URL s error k h401 hfast, by simp, by simp,
        Or.inl (by simp)⟩
    · have hfast' := not_or.mp hfast
      have hfresh : (originalRequestOf error).retry = false := by simpa using hfast'.1
      have hpath : isAuthCriticalPath
          (normalizePath URL s.baseURL (originalRequestOf error).url) = false := by
        simpa using hfast'.2
      by_cases hbusy : s.isRefreshing = true
      · right; left
        exact ⟨hbusy, _, join_queue URL s error k h401 hfresh hpath hbusy⟩
      · have hidle : s.isRefreshing = false := by simpa using hbusy
        by_cases htoken : truthy s.authTokens.refreshToken = true
        · right; right
          exact ⟨hidle, _, _, _, drive_refresh URL s error k h401 hfresh hpath hidle htoken⟩
        · left
          have htoken' : truthy s.authTokens.refreshToken = false := by simpa using htoken
          refine ⟨refreshCatch { s with isRefreshing := true } .refreshTokenMissing, _, _,
            drive_without_token URL s error k h401 hfresh hpath hidle htoken', ?_, ?_,
            Or.inr hidle⟩
          · rw [refreshCatch_suspended]
            rfl
          · simp
  · left
    exact ⟨s, _, _, pass_through URL s error k h401, rfl, rfl, Or.inl rfl⟩

theorem refreshCalls_append (xs ys : List Effect) :
    refreshCalls (xs ++ ys) = refreshCalls xs + refreshCalls ys := by
  simp [refreshCalls]

theorem refreshCalls_eq_of_sends (xs ys : List Effect) (h : sends xs = sends ys) :
    refreshCalls xs = refreshCalls ys := by
  simp [refreshCalls, h]

/-- One enabled turn keeps the invariant, and adds a refresh call only in the
refresh branch: the flag was cleared before and is set after. -/
theorem singleFlight_step (URL : String → String → Option String) (s : ClientState) (ev : Event)
    (hinv : SingleFlight s) (hen : ev.enabled s = true) :
    SingleFlight (step URL s ev) ∧
      (refreshCalls (step URL s ev).log ≠ refreshCalls s.log →
        s.isRefreshing = false ∧ (step URL s ev).isRefreshing = true ∧
          refreshCalls (step URL s ev).log = refreshCalls s.log + 1) := by
  obtain ⟨hle, hflag⟩ := hinv
  -- a settled rejection along a chain of waiters
  have hrej : ∀ (s0 : ClientState) (req : Request) (e : Err) (k : Kont),
      suspendedHandlers s0 + k.frames ≤ 1 →
      (0 < suspendedHandlers s0 + k.frames → s.isRefreshing = true) →
      (s0.isRefreshing = s.isRefreshing ∨ suspendedHandlers s0 + k.frames = 0) →
      SingleFlight (settleRejected s0 req e k) := by
    intro s0 req e k h1 h2 h3
    refine ⟨by rw [settleRejected_suspended]; omega, ?_⟩
    rw [settleRejected_suspended, settleRejected_isRefreshing]
    intro hpos
    cases hk : k.isCaller
    · have := frames_pos k hk
      omega
    · rcases h3 with h3 | h3
      · simp only [if_true, h3]
        exact h2 (by omega)
      · omega
  cases ev with
  | request config =>
    refine ⟨⟨?_, ?_⟩, ?_⟩
    · simpa [step, suspendedHandlers, framesOf_append, framesOf, Kont.frames] using hle
    · simpa [step, suspendedHandlers, framesOf_append, framesOf, Kont.frames] using hflag
    · intro hne
      exfalso
      apply hne
      simp [step, refreshCalls]
  | response f r =>
    have hf : f ∈ s.inFlight := by simpa [Event.enabled] using hen
    have herase := framesOf_erase s.inFlight f hf
    have hs1 : suspendedHandlers ({ s with inFlight := s.inFlight.erase f }) + f.kont.frames =
        suspendedHandlers s := by
      simp only [suspendedHandlers]
      omega
    generalize hs1def : ({ s with inFlight := s.inFlight.erase f } : ClientState) = s1 at hs1
    have hs1flag : s1.isRefreshing = s.isRefreshing := by rw [← hs1def]
    have hs1log : s1.log = s.log := by rw [← hs1def]
    cases r with
    | ok data =>
      simp only [step, hs1def]
      cases hk : f.kont with
      | caller =>
        rw [hk] at hs1
        simp only [Kont.frames, Nat.add_zero] at hs1
        simp only [settleResolved_caller]
        have hsame : suspendedHandlers { s1 with log := s1.log ++ [.resolved f.config data] } =
            suspendedHandlers s1 := rfl
        refine ⟨⟨?_, ?_⟩, ?_⟩
        · rw [hsame]
          omega
        · intro hpos
          rw [hsame] at hpos
          exact hs1flag.trans (hflag (by omega))
        · intro hne
          exfalso
          apply hne
          simp [refreshCalls, hs1log]
      | driver o c n =>
        rw [hk] at hs1
        simp only [Kont.frames] at hs1
        have hn : n.frames = 0 := by omega
        have hzero : suspendedHandlers s1 = 0 := by omega
        have hncaller : n = .caller := frames_zero n hn
        have hqueue : ∀ g ∈ s1.failedQueue, g.kont = .caller := by
          apply framesOf_zero
          simp only [suspendedHandlers] at hzero
          omega
        by_cases hacc : truthy (data.bind (fun d => d.access)) = true
        · obtain ⟨a, hda, ha⟩ : ∃ a, data.bind (fun d => d.access) = some a ∧ a ≠ "" := by
            cases hd : data.bind (fun d => d.access) with
            | none => simp [hd, truthy] at hacc
            | some a => exact ⟨a, rfl, by simpa [hd, truthy] using hacc⟩
          rw [settleResolved_success s1 f.config o data c n a hda ha]
          refine ⟨⟨?_, ?_⟩, ?_⟩
          · rw [suspended_success]
            omega
          · intro hpos
            rw [suspended_success] at hpos
            omega
          · intro hne
            exfalso
            apply hne
            have hstamped : ∀ (T : AuthTokens), ∀ g ∈ s1.failedQueue.map (Flight.stamped T),
                g.kont = .caller := by
              intro T g hg
              obtain ⟨g0, hg0, rfl⟩ := List.mem_map.mp hg
              exact hqueue g0 hg0
            simp only [dispatch_log, onRefreshed_log, setAuthTokens_log, setAuthTokens_failedQueue,
              onRefreshed_authTokens, refreshCalls, sends_append, sends_sent, sends_single_sent,
              List.filter_append, no_handlers _ (hstamped _), hncaller, hs1log]
            simp
        · have hacc' : truthy (data.bind (fun d => d.access)) = false := by simpa using hacc
          rw [settleResolved_noAccess s1 f.config o data c n hacc']
          refine ⟨hrej _ _ _ _ (by rw [refreshCatch_suspended]; omega)
            (fun _ => hflag (by omega)) (Or.inr (by rw [refreshCatch_suspended]; omega)), ?_⟩
          intro hne
          exfalso
          apply hne
          apply refreshCalls_eq_of_sends
          simp [hs1log]
    | fail status =>
      simp only [step, hs1def]
      rcases handler_cases URL s1 (.axios (some f.config) status) f.kont with
        ⟨s0, req, e, heq, hsus, hsends, hfl⟩ | ⟨hbusy, req, heq⟩ | ⟨hidle, cfg, o, c, heq⟩
      · rw [heq]
        refine ⟨hrej s0 req e f.kont (by omega) (fun _ => hflag (by omega)) ?_, ?_⟩
        · rcases hfl with hfl | hfl
          · exact Or.inl (hfl.trans hs1flag)
          · right
            have : ¬ 0 < suspendedHandlers s := by
              intro hpos
              have := hflag hpos
              rw [← hs1flag, hfl] at this
              exact Bool.false_ne_true this
            omega
        · intro hne
          exfalso
          apply hne
          apply refreshCalls_eq_of_sends
          rw [settleRejected_sends, hsends, hs1log]
      · rw [heq]
        refine ⟨⟨?_, ?_⟩, ?_⟩
        · rw [suspended_push]
          simp only
          omega
        · intro _
          exact hbusy
        · intro hne
          exfalso
          apply hne
          simp [hs1log]
      · rw [heq]
        have hnone : suspendedHandlers s = 0 := by
          by_contra hpos
          have := hflag (by omega)
          rw [← hs1flag, hidle] at this
          exact Bool.false_ne_true this
        refine ⟨⟨?_, ?_⟩, ?_⟩
        · rw [suspended_dispatch]
          have hflagstate : suspendedHandlers { s1 with isRefreshing := true } =
              suspendedHandlers s1 := rfl
          rw [hflagstate]
          simp only [Kont.frames]
          omega
        · intro _
          rfl
        · intro _
          refine ⟨by rw [← hs1flag, hidle], rfl, ?_⟩
          simp [refreshCalls, hs1log]
  | tick =>
    cases hready : s.ready with
    | nil =>
      have htick : step URL s .tick = s := by simp [step, hready]
      rw [htick]
      exact ⟨⟨hle, hflag⟩, fun hne => absurd rfl hne⟩
    | cons x rest =>
      obtain ⟨f, e⟩ := x
      have htick : step URL s .tick = settleRejected { s with ready := rest } f.config e f.kont := by
        simp [step, hready]
      rw [htick]
      have hsus : suspendedHandlers ({ s with ready := rest }) + f.kont.frames =
          suspendedHandlers s := by
        simp only [suspendedHandlers, hready, List.map_cons, framesOf]
        omega
      refine ⟨hrej _ _ _ _ (by omega) (fun _ => hflag (by omega)) (Or.inl rfl), ?_⟩
      intro hne
      exfalso
      apply hne
      apply refreshCalls_eq_of_sends
      rw [settleRejected_sends]
  | setAuthTokens a r =>
    refine ⟨⟨?_, ?_⟩, ?_⟩
    · simpa [step, suspendedHandlers] using hle
    · simpa [step, suspendedHandlers] using hflag
    · intro hne
      exfalso
      apply hne
      simp [step]
  | clearAuthTokens => exact ⟨⟨hle, hflag⟩, fun hne => absurd rfl hne⟩
  | subscribe l =>
    have hsub : ∀ t : ClientState, t = step URL s (.subscribe l) →
        suspendedHandlers t = suspendedHandlers s ∧ t.isRefreshing = s.isRefreshing ∧
          t.log = s.log := by
      intro t ht
      simp only [step, subscribeUnauthorized] at ht
      split at ht <;> (subst ht; exact ⟨rfl, rfl, rfl⟩)
    obtain ⟨h1, h2, h3⟩ := hsub _ rfl
    refine ⟨⟨by rw [h1]; exact hle, by rw [h1, h2]; exact hflag⟩, ?_⟩
    intro hne
    exact absurd (by rw [h3]) hne
  | unsubscribe l => exact ⟨⟨hle, hflag⟩, fun hne => absurd rfl hne⟩

theorem singleFlight_initial (storage : TokenStorage) (baseURL : String) :
    SingleFlight (initialState storage baseURL) := by
  have h : suspendedHandlers (initialState storage baseURL) = 0 := by
    simp only [initialState, hydrateStoredTokens]
    split <;> simp [suspendedHandlers, framesOf]
  exact ⟨by omega, fun hpos => by omega⟩

theorem singleFlight_reachable (URL : String → String → Option String) (s : ClientState)
    (h : Reachable URL s) : SingleFlight s := by
  induction h with
  | init storage baseURL => exact singleFlight_initial storage baseURL
  | step ev _ hen ih => exact (singleFlight_step URL _ ev ih hen).1

theorem reachable_run (URL : String → String → Option String) (events : List Event)
    (s : ClientState) (h : Reachable URL s) (hvalid : validRun URL s events = true) :
    Reachable URL (run URL s events) := by
  induction events generalizing s with
  | nil => exact h
  | cons ev rest ih =>
    simp only [validRun, Bool.and_eq_true] at hvalid
    exact ih (step URL s ev) (Reachable.step ev h hvalid.1) hvalid.2

/-- The session `midRefresh` is the state the client is in after
`sessionUntilRefresh`, up to the log of what was sent on the way. -/
theorem midRefresh_arises (URL : String → String → Option String)
    (hURL : URL = whatwgPathname ∨ URL = noURL) :
    validRun URL (initialState emptyStorage localBase) sessionUntilRefresh = true ∧
      run URL (initialState emptyStorage localBase) sessionUntilRefresh =
        { midRefresh localBase with
          log := [.sent { config := listTasks, kont := .caller },
                  .sent { config := addTask, kont := .caller },
                  .sent (refreshCallFor listTasks)] } := by
  rcases hURL with h | h <;> subst h <;> decide

/-! ## Two more invariants: the listeners form a set, an idle pipeline has no waiters -/

theorem settleRejected_tidy (s : ClientState) (req : Request) (e : Err) (k : Kont)
    (h : s.isRefreshing = false → s.failedQueue = []) :
    (settleRejected s req e k).isRefreshing = false → (settleRejected s req e k).failedQueue = [] := by
  rw [settleRejected_isRefreshing, settleRejected_failedQueue]
  cases k.isCaller
  · simp
  · simpa using h

theorem handler_tidy (URL : String → String → Option String) (s : ClientState) (error : Err)
    (k : Kont) (h : s.isRefreshing = false → s.failedQueue = []) :
    (responseErrorHandler URL s error k).unauthorizedListeners = s.unauthorizedListeners ∧
      ((responseErrorHandler URL s error k).isRefreshing = false →
        (responseErrorHandler URL s error k).failedQueue = []) := by
  by_cases h401 : statusOf error = some 401
  · by_cases hfast : (originalRequestOf error).retry = true ∨
        isAuthCriticalPath (normalizePath URL s.baseURL (originalRequestOf error).url) = true
    · rw [fail_fast URL s error k h401 hfast]
      exact ⟨by simp, settleRejected_tidy _ _ _ _ (by simpa using h)⟩
    · have hfast' := not_or.mp hfast
      have hfresh : (originalRequestOf error).retry = false := by simpa using hfast'.1
      have hpath : isAuthCriticalPath
          (normalizePath URL s.baseURL (originalRequestOf error).url) = false := by
        simpa using hfast'.2
      by_cases hbusy : s.isRefreshing = true
      · rw [join_queue URL s error k h401 hfresh hpath hbusy]
        exact ⟨rfl, fun hidle => absurd (hbusy.symm.trans hidle) (by decide)⟩
      · have hidle : s.isRefreshing = false := by simpa using hbusy
        by_cases htoken : truthy s.authTokens.refreshToken = true
        · rw [drive_refresh URL s error k h401 hfresh hpath hidle htoken]
          exact ⟨rfl, fun hf => absurd hf (by simp)⟩
        · have htoken' : truthy s.authTokens.refreshToken = false := by simpa using htoken
          rw [drive_without_token URL s error k h401 hfresh hpath hidle htoken']
          exact ⟨by simp, settleRejected_tidy _ _ _ _ (by simp)⟩
  · rw [pass_through URL s error k h401]
    exact ⟨by simp, settleRejected_tidy _ _ _ _ h⟩

theorem resolved_tidy (s : ClientState) (req : Request) (data : Option ResponseData) (k : Kont)
    (h : s.isRefreshing = false → s.failedQueue = []) :
    (settleResolved s req data k).unauthorizedListeners = s.unauthorizedListeners ∧
      ((settleResolved s req data k).isRefreshing = false →
        (settleResolved s req data k).failedQueue = []) := by
  cases k with
  | caller => exact ⟨rfl, h⟩
  | driver o c n =>
    by_cases hacc : truthy (data.bind (fun d => d.access)) = true
    · obtain ⟨a, hda, ha⟩ : ∃ a, data.bind (fun d => d.access) = some a ∧ a ≠ "" := by
        cases hd : data.bind (fun d => d.access) with
        | none => simp [hd, truthy] at hacc
        | some a => exact ⟨a, rfl, by simpa [hd, truthy] using hacc⟩
      rw [settleResolved_success s req o data c n a hda ha]
      exact ⟨by simp, fun _ => by simp⟩
    · have hacc' : truthy (data.bind (fun d => d.access)) = false := by simpa using hacc
      rw [settleResolved_noAccess s req o data c n hacc']
      exact ⟨by simp, settleRejected_tidy _ _ _ _ (by simp)⟩

/-- In every reachable state the registered listeners are pairwise distinct,
and the wait queue is empty whenever the flag is cleared. -/
theorem reachable_tidy (URL : String → String → Option String) (s : ClientState)
    (h : Reachable URL s) :
    s.unauthorizedListeners.Nodup ∧ (s.isRefreshing = false → s.failedQueue = []) := by
  induction h with
  | init storage baseURL =>
    have hl : (initialState storage baseURL).unauthorizedListeners = [] ∧
        (initialState storage baseURL).failedQueue = [] := by
      simp only [initialState, hydrateStoredTokens]
      split <;> simp
    exact ⟨by rw [hl.1]; exact List.nodup_nil, fun _ => hl.2⟩
  | @step s ev _ _ ih =>
    obtain ⟨hnodup, hidle⟩ := ih
    cases ev with
    | request config => exact ⟨hnodup, hidle⟩
    | response f r =>
      cases r with
      | ok data =>
        have := resolved_tidy ({ s with inFlight := s.inFlight.erase f }) f.config data f.kont hidle
        refine ⟨?_, by simpa [step] using this.2⟩
        simp only [step]
        rw [this.1]
        exact hnodup
      | fail status =>
        have := handler_tidy URL ({ s with inFlight := s.inFlight.erase f })
          (.axios (some f.config) status) f.kont hidle
        refine ⟨?_, by simpa [step] using this.2⟩
        simp only [step]
        rw [this.1]
        exact hnodup
    | tick =>
      cases hready : s.ready with
      | nil =>
        have htick : step URL s .tick = s := by simp [step, hready]
        rw [htick]
        exact ⟨hnodup, hidle⟩
      | cons x rest =>
        have htick : step URL s .tick =
            settleRejected { s with ready := rest } x.1.config x.2 x.1.kont := by
          simp [step, hready]
        rw [htick]
        exact ⟨by simpa using hnodup, settleRejected_tidy _ _ _ _ hidle⟩
    | setAuthTokens a r => exact ⟨by simpa [step] using hnodup, by simpa [step] using hidle⟩
    | clearAuthTokens => exact ⟨hnodup, hidle⟩
    | subscribe l =>
      simp only [step, subscribeUnauthorized]
      split
      · exact ⟨hnodup, hidle⟩
      · rename_i hl
        exact ⟨List.Nodup.append hnodup (List.nodup_singleton l) (by simpa using hl), hidle⟩
    | unsubscribe l => exact ⟨hnodup.erase l, hidle⟩

/-! ## The token store -/

theorem lookup_setKey_self (kvs : List (String × String)) (key value : String) :
    (setKey kvs key value).lookup key = some value := by
  induction kvs with
  | nil => simp [setKey, List.lookup]
  | cons kv rest ih =>
    obtain ⟨k, v⟩ := kv
    unfold setKey
    by_cases h : k = key
    · simp [h, List.lookup]
    · have h2 : (key == k) = false := by simpa using fun e => h e.symm
      simp [h, List.lookup, h2, ih]

theorem lookup_setKey_other (kvs : List (String × String)) (key value other : String)
    (hne : other ≠ key) : (setKey kvs key value).lookup other = kvs.lookup other := by
  induction kvs with
  | nil =>
    have h2 : (other == key) = false := by simpa using hne
    simp [setKey, List.lookup, h2]
  | cons kv rest ih =>
    obtain ⟨k, v⟩ := kv
    unfold setKey
    by_cases h : k = key
    · subst h
      have h2 : (other == k) = false := by simpa using hne
      simp [List.lookup, h2]
    · simp only [h, if_false, List.lookup]
      cases other == k <;> simp [ih]

theorem deleteKey_cons_self (rest : List (String × String)) (key v : String) :
    deleteKey ((key, v) :: rest) key = deleteKey rest key := by
  simp [deleteKey, List.filter]

theorem deleteKey_cons_other (rest : List (String × String)) (key k v : String) (h : k ≠ key) :
    deleteKey ((k, v) :: rest) key = (k, v) :: deleteKey rest key := by
  have h2 : (k != key) = true := by simpa using h
  simp [deleteKey, List.filter, h2]

theorem lookup_deleteKey_self (kvs : List (String × String)) (key : String) :
    (deleteKey kvs key).lookup key = none := by
  induction kvs with
  | nil => simp [deleteKey]
  | cons kv rest ih =>
    obtain ⟨k, v⟩ := kv
    by_cases h : k = key
    · subst h
      rw [deleteKey_cons_self, ih]
    · have h2 : (key == k) = false := by simpa using fun e => h e.symm
      rw [deleteKey_cons_other _ _ _ _ h]
      simp [List.lookup, h2, ih]

theorem lookup_deleteKey_other (kvs : List (String × String)) (key other : String)
    (hne : other ≠ key) : (deleteKey kvs key).lookup other = kvs.lookup other := by
  induction kvs with
  | nil => simp [deleteKey]
  | cons kv rest ih =>
    obtain ⟨k, v⟩ := kv
    by_cases h : k = key
    · subst h
      have h2 : (other == k) = false := by simpa using hne
      rw [deleteKey_cons_self, ih]
      simp [List.lookup, h2]
    · rw [deleteKey_cons_other _ _ _ _ h]
      simp only [List.lookup]
      cases other == k <;> simp [ih]

theorem quiet_faults (faults : List Bool) (h : faults.all (fun throws => !throws) = true) :
    faults.headD false = false ∧ faults.tail.all (fun throws => !throws) = true := by
  cases faults with
  | nil => simp
  | cons b rest =>
    simp only [List.all_cons, Bool.and_eq_true] at h
    refine ⟨by simpa using h.1, h.2⟩

theorem writeStorage_working (st : TokenStorage) (key : String) (value : Option String)
    (hw : st.working = true) :
    (writeStorage st key value).working = true ∧
      (writeStorage st key value).holds key = value ∧
      ∀ other, other ≠ key → (writeStorage st key value).holds other = st.holds other := by
  obtain ⟨ls, fb, w⟩ := st
  cases ls with
  | none =>
    cases value with
    | none =>
      simp [writeStorage, writeFallback, TokenStorage.working, TokenStorage.holds,
        lookup_deleteKey_self]
      intro other hne
      exact lookup_deleteKey_other _ _ _ hne
    | some v =>
      simp [writeStorage, writeFallback, TokenStorage.working, TokenStorage.holds,
        lookup_setKey_self]
      intro other hne
      exact lookup_setKey_other _ _ _ _ hne
  | some ls =>
    have hq := quiet_faults ls.faults (by simpa [TokenStorage.working] using hw)
    have hnext : ls.throwsNext = false := hq.1
    cases value with
    | none =>
      simp [writeStorage, LocalStorage.removeItem, hnext, LocalStorage.afterCall,
        TokenStorage.working, TokenStorage.holds, lookup_deleteKey_self]
      refine ⟨by simpa using hq.2, ?_⟩
      intro other hne
      exact lookup_deleteKey_other _ _ _ hne
    | some v =>
      simp [writeStorage, LocalStorage.setItem, hnext, LocalStorage.afterCall,
        TokenStorage.working, TokenStorage.holds, lookup_setKey_self]
      refine ⟨by simpa using hq.2, ?_⟩
      intro other hne
      exact lookup_setKey_other _ _ _ _ hne

theorem readStorage_working (st : TokenStorage) (key : String) (hw : st.working = true) :
    (readStorage st key).1 = st.holds key ∧
      (readStorage st key).2.working = true ∧
      ∀ other, (readStorage st key).2.holds other = st.holds other := by
  obtain ⟨ls, fb, w⟩ := st
  cases ls with
  | none => simp [readStorage, readFallback, TokenStorage.working, TokenStorage.holds]
  | some ls =>
    have hq := quiet_faults ls.faults (by simpa [TokenStorage.working] using hw)
    have hnext : ls.throwsNext = false := hq.1
    simp [readStorage, LocalStorage.getItem, hnext, LocalStorage.afterCall,
      TokenStorage.working, TokenStorage.holds]
    simpa using hq.2

theorem keys_differ : REFRESH_KEY ≠ ACCESS_KEY := by decide

theorem getStoredTokens_working (st : TokenStorage) (hw : st.working = true) :
    (getStoredTokens st).1 =
        (if !truthy (st.holds ACCESS_KEY) && !truthy (st.holds REFRESH_KEY) then none
          else some { accessToken := st.holds ACCESS_KEY, refreshToken := st.holds REFRESH_KEY }) ∧
      (getStoredTokens st).2.working = true ∧
      ∀ key, (getStoredTokens st).2.holds key = st.holds key := by
  obtain ⟨ha, hwa, hka⟩ := readStorage_working st ACCESS_KEY hw
  obtain ⟨hr, hwr, hkr⟩ := readStorage_working (readStorage st ACCESS_KEY).2 REFRESH_KEY hwa
  unfold getStoredTokens
  simp only [ha, hr, hka]
  refine ⟨?_, ?_, ?_⟩
  · split <;> rfl
  · split <;> exact hwr
  · intro key
    split <;> exact (hkr key).trans (hka key)

theorem persistTokens_working (st : TokenStorage) (a r : JsVal) (hw : st.working = true) :
    (persistTokens st a r).working = true ∧
      (persistTokens st a r).holds ACCESS_KEY = a.orNull ∧
      (persistTokens st a r).holds REFRESH_KEY = r.orNull ∧
      ∀ other, other ≠ ACCESS_KEY → other ≠ REFRESH_KEY →
        (persistTokens st a r).holds other = st.holds other := by
  obtain ⟨h1, h2, h3⟩ := writeStorage_working st ACCESS_KEY a.orNull hw
  obtain ⟨h4, h5, h6⟩ := writeStorage_working (writeStorage st ACCESS_KEY a.orNull) REFRESH_KEY
    r.orNull h1
  unfold persistTokens
  refine ⟨h4, ?_, h5, ?_⟩
  · rw [h6 ACCESS_KEY (fun e => keys_differ e.symm), h2]
  · intro other ha hr
    rw [h6 other hr, h3 other ha]

theorem clearStoredTokens_working (st : TokenStorage) (hw : st.working = true) :
    (clearStoredTokens st).working = true ∧
      (clearStoredTokens st).holds ACCESS_KEY = none ∧
      (clearStoredTokens st).holds REFRESH_KEY = none ∧
      ∀ other, other ≠ ACCESS_KEY → other ≠ REFRESH_KEY →
        (clearStoredTokens st).holds other = st.holds other :=
  persistTokens_working st .null .null hw

/-! ## The tokens in memory -/

theorem orNull_wellFormed (v : JsVal) : v.orNull ≠ some "" := by
  cases v with
  | undefined => simp [JsVal.orNull]
  | null => simp [JsVal.orNull]
  | str t =>
    unfold JsVal.orNull
    by_cases h : t = ""
    · simp [h]
    · simp [h]

theorem orNull_ofOption (v : Option String) (h : v ≠ some "") : (JsVal.ofOption v).orNull = v := by
  cases v with
  | none => rfl
  | some t =>
    have ht : t ≠ "" := fun e => h (by rw [e])
    simp [JsVal.ofOption, JsVal.orNull, ht]

theorem truthy_iff (v : Option String) (h : v ≠ some "") : truthy v = true ↔ v ≠ none := by
  cases v with
  | none => simp [truthy]
  | some t =>
    have ht : t ≠ "" := fun e => h (by rw [e])
    simp [truthy, ht]

theorem setAuthTokens_access (s : ClientState) (a r : JsVal) :
    (setAuthTokens s a r).authTokens.accessToken =
      (match a with
        | .undefined => s.authTokens.accessToken
        | v => v.orNull) := by
  unfold setAuthTokens
  simp only
  split <;> exact congrArg _ (applyAuthorizationHeader_authTokens _ _)

theorem setAuthTokens_refresh (s : ClientState) (a r : JsVal) :
    (setAuthTokens s a r).authTokens.refreshToken =
      (match r with
        | .undefined => s.authTokens.refreshToken
        | v => v.orNull) := by
  unfold setAuthTokens
  simp only
  split <;> exact congrArg _ (applyAuthorizationHeader_authTokens _ _)

theorem setAuthTokens_wellFormed (s : ClientState) (a r : JsVal)
    (h : s.authTokens.wellFormed) : (setAuthTokens s a r).authTokens.wellFormed := by
  constructor
  · rw [setAuthTokens_access]
    cases a with
    | undefined => exact h.1
    | null => exact orNull_wellFormed _
    | str t => exact orNull_wellFormed _
  · rw [setAuthTokens_refresh]
    cases r with
    | undefined => exact h.2
    | null => exact orNull_wellFormed _
    | str t => exact orNull_wellFormed _

theorem applyAuthorizationHeader_header (s : ClientState) (token : Option String) :
    (applyAuthorizationHeader s token).authorization =
      (if truthy token then bearerOf token else none) := by
  cases token with
  | none => rfl
  | some t =>
    unfold applyAuthorizationHeader truthy bearerOf
    by_cases h : t = ""
    · simp [h]
    · simp [h]

/-- The header and the store after `setAuthTokens`, in terms of the tokens it leaves. -/
theorem setAuthTokens_effects (s : ClientState) (a r : JsVal) :
    (setAuthTokens s a r).authorization =
        (if truthy (setAuthTokens s a r).authTokens.accessToken then
          bearerOf (setAuthTokens s a r).authTokens.accessToken else none) ∧
      (setAuthTokens s a r).storage =
        (if truthy (setAuthTokens s a r).authTokens.accessToken ||
            truthy (setAuthTokens s a r).authTokens.refreshToken then
          persistTokens s.storage (JsVal.ofOption (setAuthTokens s a r).authTokens.accessToken)
            (JsVal.ofOption (setAuthTokens s a r).authTokens.refreshToken)
        else clearStoredTokens s.storage) := by
  unfold setAuthTokens
  simp only
  split
  · next h =>
    simp only [applyAuthorizationHeader_authTokens, applyAuthorizationHeader_storage,
      applyAuthorizationHeader_header, h, if_true, and_self]
  · next h =>
    simp only [applyAuthorizationHeader_authTokens, applyAuthorizationHeader_storage,
      applyAuthorizationHeader_header, h, if_false, and_self]
    try simp

theorem wellFormed_header (t : AuthTokens) (h : t.wellFormed) :
    (if truthy t.accessToken then bearerOf t.accessToken else none) = bearerOf t.accessToken := by
  cases ha : t.accessToken with
  | none => rfl
  | some a =>
    have hne : a ≠ "" := fun e => h.1 (by rw [ha, e])
    simp [truthy, hne]

theorem clearAuthTokens_storage (s : ClientState) :
    (clearAuthTokens s).storage = clearStoredTokens s.storage := by
  simp [clearAuthTokens]

theorem hydrateStoredTokens_fields (s : ClientState) :
    (hydrateStoredTokens s).authTokens =
        (match (getStoredTokens s.storage).1 with
          | none => { accessToken := none, refreshToken := none }
          | some stored =>
            { accessToken := orNull stored.accessToken, refreshToken := orNull stored.refreshToken }) ∧
      (hydrateStoredTokens s).authorization =
        (match (getStoredTokens s.storage).1 with
          | none => none
          | some stored =>
            if truthy (orNull stored.accessToken) then bearerOf (orNull stored.accessToken)
            else none) := by
  unfold hydrateStoredTokens
  cases h : (getStoredTokens s.storage).1 with
  | none => simp [h]
  | some stored => simp [h, applyAuthorizationHeader_header]

/-! ## The tokens in memory are well formed -/

theorem orNull_ne (v : Option String) : orNull v ≠ some "" := by
  cases v with
  | none => simp [orNull, truthy]
  | some t =>
    unfold orNull truthy
    by_cases h : t = ""
    · simp [h]
    · simp [h]

theorem null_wellFormed : AuthTokens.wellFormed { accessToken := none, refreshToken := none } :=
  ⟨by simp, by simp⟩

theorem hydrateStoredTokens_wellFormed (s : ClientState) :
    (hydrateStoredTokens s).authTokens.wellFormed := by
  rw [(hydrateStoredTokens_fields s).1]
  cases (getStoredTokens s.storage).1 with
  | none => exact null_wellFormed
  | some stored => exact ⟨orNull_ne _, orNull_ne _⟩

theorem settleRejected_wellFormed (k : Kont) (s : ClientState) (req : Request) (e : Err)
    (h : s.authTokens.wellFormed) : (settleRejected s req e k).authTokens.wellFormed := by
  induction k generalizing s req with
  | caller => exact h
  | driver o c n ih =>
    rw [settleRejected_driver]
    exact ih _ _ (by rw [refreshCatch_authTokens]; exact null_wellFormed)

theorem settleResolved_wellFormed (k : Kont) (s : ClientState) (req : Request)
    (data : Option ResponseData) (h : s.authTokens.wellFormed) :
    (settleResolved s req data k).authTokens.wellFormed := by
  cases k with
  | caller => exact h
  | driver o c n =>
    by_cases hacc : truthy (data.bind (fun d => d.access)) = true
    · obtain ⟨a, hda, ha⟩ : ∃ a, data.bind (fun d => d.access) = some a ∧ a ≠ "" := by
        cases hd : data.bind (fun d => d.access) with
        | none => simp [hd, truthy] at hacc
        | some a => exact ⟨a, rfl, by simpa [hd, truthy] using hacc⟩
      rw [settleResolved_success s req o data c n a hda ha]
      simp only [dispatch_authTokens, onRefreshed_authTokens]
      exact setAuthTokens_wellFormed _ _ _ h
    · rw [settleResolved_noAccess s req o data c n (by simpa using hacc)]
      exact settleRejected_wellFormed _ _ _ _ (by rw [refreshCatch_authTokens]; exact null_wellFormed)

theorem handler_wellFormed (URL : String → String → Option String) (s : ClientState) (error : Err)
    (k : Kont) (h : s.authTokens.wellFormed) :
    (responseErrorHandler URL s error k).authTokens.wellFormed := by
  by_cases h401 : statusOf error = some 401
  · by_cases hfast : (originalRequestOf error).retry = true ∨
        isAuthCriticalPath (normalizePath URL s.baseURL (originalRequestOf error).url) = true
    · rw [fail_fast URL s error k h401 hfast]
      exact settleRejected_wellFormed _ _ _ _
        (by rw [notifyUnauthorized_authTokens]; exact null_wellFormed)
    · have hfast' := not_or.mp hfast
      have hfresh : (originalRequestOf error).retry = false := by simpa using hfast'.1
      have hpath : isAuthCriticalPath
          (normalizePath URL s.baseURL (originalRequestOf error).url) = false := by
        simpa using hfast'.2
      by_cases hbusy : s.isRefreshing = true
      · rw [join_queue URL s error k h401 hfresh hpath hbusy]
        exact h
      · have hidle : s.isRefreshing = false := by simpa using hbusy
        by_cases htoken : truthy s.authTokens.refreshToken = true
        · rw [drive_refresh URL s error k h401 hfresh hpath hidle htoken]
          simpa using h
        · rw [drive_without_token URL s error k h401 hfresh hpath hidle (by simpa using htoken)]
          exact settleRejected_wellFormed _ _ _ _
            (by rw [refreshCatch_authTokens]; exact null_wellFormed)
  · rw [pass_through URL s error k h401]
    exact settleRejected_wellFormed _ _ _ _ h

theorem step_wellFormed (URL : String → String → Option String) (s : ClientState) (ev : Event)
    (h : s.authTokens.wellFormed) : (step URL s ev).authTokens.wellFormed := by
  cases ev with
  | request config => simpa [step] using h
  | response f r =>
    cases r with
    | ok data => exact settleResolved_wellFormed _ _ _ _ h
    | fail status => exact handler_wellFormed URL _ _ _ h
  | tick =>
    cases hr : s.ready with
    | nil => simpa [step, hr] using h
    | cons p rest =>
      simp only [step, hr]
      exact settleRejected_wellFormed _ _ _ _ h
  | setAuthTokens a r => exact setAuthTokens_wellFormed s a r h
  | clearAuthTokens =>
    show (clearAuthTokens s).authTokens.wellFormed
    rw [clearAuthTokens_authTokens]
    exact null_wellFormed
  | subscribe l =>
    simp only [step, subscribeUnauthorized]
    split <;> exact h
  | unsubscribe l => exact h

theorem reachable_wellFormed (URL : String → String → Option String) (s : ClientState)
    (h : Reachable URL s) : s.authTokens.wellFormed := by
  induction h with
  | init storage baseURL => exact hydrateStoredTokens_wellFormed _
  | step ev _ _ ih => exact step_wellFormed URL _ ev ih

/-! ## Deferred rejections -/

theorem handlerEntries_nil (q : List Flight) (h : framesOf q = 0) : handlerEntries q = [] :=
  no_handlers q (framesOf_zero q h)

theorem callerEntries_all (q : List Flight) (h : framesOf q = 0) : callerEntries q = q := by
  unfold callerEntries
  rw [List.filter_eq_self]
  intro f hf
  rw [framesOf_zero q h f hf]
  rfl

theorem settleRejected_ready (k : Kont) (s : ClientState) (req : Request) (e : Err) :
    (settleRejected s req e k).ready =
      s.ready ++ (if k.isCaller then []
        else (handlerEntries s.failedQueue).map (fun f => (f, e))) := by
  induction k generalizing s req with
  | caller => simp
  | driver o c n ih =>
    rw [settleRejected_driver, ih, refreshCatch_ready, refreshCatch_failedQueue]
    cases n.isCaller <;> simp [handlerEntries]

theorem settleRejected_log (k : Kont) (s : ClientState) (req : Request) (e : Err)
    (hk : k.frames ≤ 1) :
    (settleRejected s req e k).log =
      (match k with
        | .caller => s.log ++ [.rejected req e]
        | .driver o _ _ =>
          s.log ++ (callerEntries s.failedQueue).map (fun f => Effect.rejected f.config e) ++
            notifyLog s.unauthorizedListeners ++ [.rejected o e]) := by
  cases k with
  | caller => rfl
  | driver o c n =>
    have hn : n = .caller := frames_zero n (by simp only [Kont.frames] at hk; omega)
    subst hn
    simp

/-- In a state the client can be in no rejection is waiting to be delivered. -/
theorem ready_step (URL : String → String → Option String) (s : ClientState) (ev : Event)
    (hsf : SingleFlight s) (htidy : s.isRefreshing = false → s.failedQueue = [])
    (hready : s.ready = []) (hen : ev.enabled s = true) : (step URL s ev).ready = [] := by
  cases ev with
  | request config => simpa [step] using hready
  | response f r =>
    have hf : f ∈ s.inFlight := by simpa [Event.enabled] using hen
    have hframes := framesOf_erase s.inFlight f hf
    have hle := hsf.1
    simp only [suspendedHandlers] at hle
    have hK : f.kont.isCaller = false → handlerEntries s.failedQueue = [] := by
      intro hk
      have := frames_pos _ hk
      exact handlerEntries_nil _ (by omega)
    have hrej : ∀ (s0 : ClientState) (req : Request) (e : Err), s0.ready = [] →
        s0.failedQueue = s.failedQueue → (settleRejected s0 req e f.kont).ready = [] := by
      intro s0 req e h0 hq
      rw [settleRejected_ready, h0, hq]
      cases hk : f.kont.isCaller
      · simp [hK hk]
      · simp
    cases r with
    | ok data =>
      show (settleResolved _ f.config data f.kont).ready = []
      cases hk : f.kont with
      | caller => simpa using hready
      | driver o c n =>
        have hq : handlerEntries s.failedQueue = [] := hK (by rw [hk]; rfl)
        by_cases hacc : truthy (data.bind (fun d => d.access)) = true
        · obtain ⟨a, hda, ha⟩ : ∃ a, data.bind (fun d => d.access) = some a ∧ a ≠ "" := by
            cases hd : data.bind (fun d => d.access) with
            | none => simp [hd, truthy] at hacc
            | some a => exact ⟨a, rfl, by simpa [hd, truthy] using hacc⟩
          rw [settleResolved_success _ f.config o data c n a hda ha]
          simpa using hready
        · rw [settleResolved_noAccess _ f.config o data c n (by simpa using hacc),
            settleRejected_ready, refreshCatch_ready, refreshCatch_failedQueue]
          simp only [hready, hq]
          cases n.isCaller <;> simp [handlerEntries]
    | fail status =>
      show (responseErrorHandler URL _ (.axios (some f.config) status) f.kont).ready = []
      generalize hs1 : ({ s with inFlight := s.inFlight.erase f } : ClientState) = s1
      have h1r : s1.ready = [] := by rw [← hs1]; exact hready
      have h1q : s1.failedQueue = s.failedQueue := by rw [← hs1]
      have h1i : s1.isRefreshing = s.isRefreshing := by rw [← hs1]
      generalize (Err.axios (some f.config) status) = error
      by_cases h401 : statusOf error = some 401
      · by_cases hfast : (originalRequestOf error).retry = true ∨
            isAuthCriticalPath (normalizePath URL s1.baseURL (originalRequestOf error).url) = true
        · rw [fail_fast URL s1 error f.kont h401 hfast]
          exact hrej _ _ _ (by simpa using h1r) (by simpa using h1q)
        · have hfast' := not_or.mp hfast
          have hfresh : (originalRequestOf error).retry = false := by simpa using hfast'.1
          have hpath : isAuthCriticalPath
              (normalizePath URL s1.baseURL (originalRequestOf error).url) = false := by
            simpa using hfast'.2
          by_cases hbusy : s1.isRefreshing = true
          · rw [join_queue URL s1 error f.kont h401 hfresh hpath hbusy]
            exact h1r
          · have hidle : s1.isRefreshing = false := by simpa using hbusy
            by_cases htoken : truthy s1.authTokens.refreshToken = true
            · rw [drive_refresh URL s1 error f.kont h401 hfresh hpath hidle htoken]
              simpa using h1r
            · rw [drive_without_token URL s1 error f.kont h401 hfresh hpath hidle
                (by simpa using htoken), settleRejected_ready, refreshCatch_ready,
                refreshCatch_failedQueue]
              have hq0 : s1.failedQueue = [] := by
                rw [h1q]
                exact htidy (by rw [← h1i]; exact hidle)
              simp only [h1r, hq0]
              cases f.kont.isCaller <;> simp [handlerEntries]
      · rw [pass_through URL s1 error f.kont h401]
        exact hrej _ _ _ h1r h1q
  | tick =>
    have htick : step URL s .tick = s := by simp [step, hready]
    rw [htick]
    exact hready
  | setAuthTokens a r => simpa [step] using hready
  | clearAuthTokens => simpa [step] using hready
  | subscribe l =>
    simp only [step, subscribeUnauthorized]
    split <;> exact hready
  | unsubscribe l => exact hready

theorem reachable_ready (URL : String → String → Option String) (s : ClientState)
    (h : Reachable URL s) : s.ready = [] := by
  induction h with
  | init storage baseURL =>
    simp only [initialState, hydrateStoredTokens]
    split <;> simp
  | @step s ev hprev hen ih =>
    exact ready_step URL s ev (singleFlight_reachable URL s hprev) (reachable_tidy URL s hprev).2
      ih hen

/-! ## The order of the wait queue -/

@[simp] theorem rejections_append (xs ys : List Effect) :
    rejections (xs ++ ys) = rejections xs ++ rejections ys := by
  induction xs with
  | nil => rfl
  | cons x rest ih => cases x <;> simp [rejections, ih]

@[simp] theorem rejections_notifyLog (ls : List Listener) : rejections (notifyLog ls) = [] := by
  induction ls with
  | nil => rfl
  | cons l rest ih =>
    unfold notifyLog
    split <;> simp [rejections, ih]

theorem rejections_map_rejected (q : List Flight) (e : Err) :
    rejections (q.map (fun f => Effect.rejected f.config e)) = q.map (fun f => (f.config, e)) := by
  induction q with
  | nil => rfl
  | cons x rest ih => simp [rejections, ih]

/-- A turn that is not the answer to a call made by a suspended handler lets
nobody out of the wait queue. -/
theorem waiting_step (URL : String → String → Option String) (s : ClientState) (ev : Event)
    (htidy : s.isRefreshing = false → s.failedQueue = []) (hready : s.ready = [])
    (hcaller : ∀ f r, ev = .response f r → f.kont = .caller) :
    s.failedQueue <+: (step URL s ev).failedQueue := by
  cases ev with
  | request config => simp [step]
  | response f r =>
    have hk : f.kont = .caller := hcaller f r rfl
    cases r with
    | ok data =>
      show _ <+: (settleResolved _ f.config data f.kont).failedQueue
      rw [hk]
      simp
    | fail status =>
      show _ <+: (responseErrorHandler URL _ (.axios (some f.config) status) f.kont).failedQueue
      rw [hk]
      generalize hs1 : ({ s with inFlight := s.inFlight.erase f } : ClientState) = s1
      have h1q : s1.failedQueue = s.failedQueue := by rw [← hs1]
      have h1i : s1.isRefreshing = s.isRefreshing := by rw [← hs1]
      rw [← h1q]
      generalize (Err.axios (some f.config) status) = error
      by_cases h401 : statusOf error = some 401
      · by_cases hfast : (originalRequestOf error).retry = true ∨
            isAuthCriticalPath (normalizePath URL s1.baseURL (originalRequestOf error).url) = true
        · rw [fail_fast URL s1 error .caller h401 hfast]
          simp
        · have hfast' := not_or.mp hfast
          have hfresh : (originalRequestOf error).retry = false := by simpa using hfast'.1
          have hpath : isAuthCriticalPath
              (normalizePath URL s1.baseURL (originalRequestOf error).url) = false := by
            simpa using hfast'.2
          by_cases hbusy : s1.isRefreshing = true
          · rw [join_queue URL s1 error .caller h401 hfresh hpath hbusy]
            exact List.prefix_append _ _
          · have hidle : s1.isRefreshing = false := by simpa using hbusy
            have hq0 : s1.failedQueue = [] := by
              rw [h1q]
              exact htidy (by rw [← h1i]; exact hidle)
            rw [hq0]
            exact List.nil_prefix
      · rw [pass_through URL s1 error .caller h401]
        simp
  | tick =>
    have htick : step URL s .tick = s := by simp [step, hready]
    rw [htick]
  | setAuthTokens a r => simp [step]
  | clearAuthTokens => simp [step]
  | subscribe l =>
    simp only [step, subscribeUnauthorized]
    split <;> exact List.prefix_refl _
  | unsubscribe l => exact List.prefix_refl _

/-! ## The unauthorized notification -/

theorem calls_notifyLog (ls : List Listener) : calls (notifyLog ls) = ls := by
  induction ls with
  | nil => rfl
  | cons l rest ih =>
    unfold notifyLog
    split <;> simp [calls, ih]

theorem warned_of_throws (ls : List Listener) (l : Listener) (hl : l ∈ ls)
    (ht : l.throws = true) : Effect.listenerWarned l ∈ notifyLog ls := by
  induction ls with
  | nil => simp at hl
  | cons x rest ih =>
    unfold notifyLog
    rcases List.mem_cons.mp hl with hx | hr
    · subst hx
      simp [ht]
    · split <;> simp [ih hr]

/-- A store that has been cleared stays cleared through the listeners. -/
theorem listeners_keep_store_cleared (ls : List Listener) (s : ClientState)
    (h : s.storage.working = true ∧ s.storage.holds ACCESS_KEY = none ∧
      s.storage.holds REFRESH_KEY = none) :
    (ls.foldl callListener s).storage.working = true ∧
      (ls.foldl callListener s).storage.holds ACCESS_KEY = none ∧
      (ls.foldl callListener s).storage.holds REFRESH_KEY = none := by
  induction ls generalizing s with
  | nil => exact h
  | cons l rest ih =>
    apply ih
    have hc := clearStoredTokens_working s.storage h.1
    unfold callListener
    cases l.clears <;> cases l.throws <;>
      simp [clearAuthTokens, h, hc.1, hc.2.1, hc.2.2.1]

/-! ## The store behind the session -/

/-- What `getStoredTokens` returns on a working store that holds the tokens `t`. -/
theorem stored_tokens_of_holds (st : TokenStorage) (t : AuthTokens) (hw : st.working = true)
    (ha : st.holds ACCESS_KEY = t.accessToken)
    (hr : st.holds REFRESH_KEY = t.refreshToken) :
    (getStoredTokens st).1 =
      (if truthy t.accessToken || truthy t.refreshToken then some t else none) := by
  rw [(getStoredTokens_working st hw).1, ha, hr]
  cases truthy t.accessToken <;> cases truthy t.refreshToken <;> simp

/-- On a working store `setAuthTokens` leaves the store holding the tokens it leaves in memory. -/
theorem setAuthTokens_store (s : ClientState) (a r : JsVal) (hwf : s.authTokens.wellFormed)
    (hw : s.storage.working = true) :
    (setAuthTokens s a r).storage.working = true ∧
      (setAuthTokens s a r).storage.holds ACCESS_KEY = (setAuthTokens s a r).authTokens.accessToken ∧
      (setAuthTokens s a r).storage.holds REFRESH_KEY =
        (setAuthTokens s a r).authTokens.refreshToken := by
  have hwf' := setAuthTokens_wellFormed s a r hwf
  rw [(setAuthTokens_effects s a r).2]
  by_cases hc : (truthy (setAuthTokens s a r).authTokens.accessToken ||
      truthy (setAuthTokens s a r).authTokens.refreshToken) = true
  · rw [if_pos hc]
    obtain ⟨h1, h2, h3, _⟩ := persistTokens_working s.storage
      (JsVal.ofOption (setAuthTokens s a r).authTokens.accessToken)
      (JsVal.ofOption (setAuthTokens s a r).authTokens.refreshToken) hw
    exact ⟨h1, h2.trans (orNull_ofOption _ hwf'.1), h3.trans (orNull_ofOption _ hwf'.2)⟩
  · rw [if_neg hc]
    obtain ⟨h1, h2, h3, _⟩ := clearStoredTokens_working s.storage hw
    have hc' := Bool.or_eq_false_iff.mp (by simpa using hc)
    have hna : (setAuthTokens s a r).authTokens.accessToken = none := by
      by_contra hne
      have := (truthy_iff _ hwf'.1).mpr hne
      rw [hc'.1] at this
      exact Bool.noConfusion this
    have hnr : (setAuthTokens s a r).authTokens.refreshToken = none := by
      by_contra hne
      have := (truthy_iff _ hwf'.2).mpr hne
      rw [hc'.2] at this
      exact Bool.noConfusion this
    exact ⟨h1, h2.trans hna.symm, h3.trans hnr.symm⟩

theorem truthy_or_iff (t : AuthTokens) (hwf : t.wellFormed) :
    (truthy t.accessToken || truthy t.refreshToken) = true ↔
      (t.accessToken ≠ none ∨ t.refreshToken ≠ none) := by
  rw [Bool.or_eq_true, truthy_iff _ hwf.1, truthy_iff _ hwf.2]

/-- Hydration from a working store that holds the well-formed tokens `t`. -/
theorem hydrate_of_holds (s : ClientState) (t : AuthTokens) (hw : s.storage.working = true)
    (hwf : t.wellFormed) (ha : s.storage.holds ACCESS_KEY = t.accessToken)
    (hr : s.storage.holds REFRESH_KEY = t.refreshToken) :
    (hydrateStoredTokens s).authTokens = t ∧
      (hydrateStoredTokens s).authorization = bearerOf t.accessToken := by
  obtain ⟨hf1, hf2⟩ := hydrateStoredTokens_fields s
  rw [hf1, hf2, stored_tokens_of_holds _ t hw ha hr]
  obtain ⟨x, y⟩ := t
  obtain ⟨hx, hy⟩ := hwf
  simp only at hx hy
  cases x with
  | none =>
    cases y with
    | none => simp [truthy, bearerOf]
    | some y' =>
      have : y' ≠ "" := fun e => hy (by rw [e])
      simp [truthy, bearerOf, orNull, this]
  | some x' =>
    have hx' : x' ≠ "" := fun e => hx (by rw [e])
    cases y with
    | none => simp [truthy, bearerOf, orNull, hx']
    | some y' =>
      have : y' ≠ "" := fun e => hy (by rw [e])
      simp [truthy, bearerOf, orNull, hx', this]

/-- A write does not make a durable store appear or go away. -/
theorem writeStorage_durable (st : TokenStorage) (key : String) (value : Option String) :
    (writeStorage st key value).localStorage.isSome = st.localStorage.isSome := by
  obtain ⟨ls, fb, w⟩ := st
  cases ls with
  | none => cases value <;> rfl
  | some l =>
    simp only [writeStorage]
    split <;> cases value <;> rfl

theorem persistTokens_durable (st : TokenStorage) (a r : JsVal) :
    (persistTokens st a r).localStorage.isSome = st.localStorage.isSome := by
  unfold persistTokens
  rw [writeStorage_durable, writeStorage_durable]

theorem setAuthTokens_durable (s : ClientState) (a r : JsVal) :
    (setAuthTokens s a r).storage.localStorage.isSome = s.storage.localStorage.isSome := by
  rw [(setAuthTokens_effects s a r).2]
  split
  · exact persistTokens_durable _ _ _
  · exact persistTokens_durable s.storage .null .null

/-- A process that starts on a durable store finds what the store holds. -/
theorem fresh_store (st : TokenStorage) (h : st.localStorage.isSome = true) :
    ({ localStorage := st.localStorage, fallbackStore := [], warnings := 0 } :
        TokenStorage).working = st.working ∧
      ∀ key,
        ({ localStorage := st.localStorage, fallbackStore := [], warnings := 0 } :
          TokenStorage).holds key = st.holds key := by
  obtain ⟨ls, fb, w⟩ := st
  cases ls with
  | none => simp at h
  | some l => exact ⟨rfl, fun _ => rfl⟩

/-- A process that starts on a working durable store holding the well-formed
tokens `t` has them in memory and on the header, and nothing in flight. -/
theorem initialState_of_holds (st : TokenStorage) (baseURL : String) (t : AuthTokens)
    (hd : st.localStorage.isSome = true) (hw : st.working = true) (hwf : t.wellFormed)
    (ha : st.holds ACCESS_KEY = t.accessToken) (hr : st.holds REFRESH_KEY = t.refreshToken) :
    (initialState st baseURL).authTokens = t ∧
      (initialState st baseURL).authorization = bearerOf t.accessToken ∧
      (initialState st baseURL).inFlight = [] := by
  obtain ⟨fw, fh⟩ := fresh_store st hd
  obtain ⟨i1, i2⟩ := hydrate_of_holds
    { authTokens := { accessToken := none, refreshToken := none }
      authorization := none
      baseURL := baseURL
      storage := { localStorage := st.localStorage, fallbackStore := [], warnings := 0 }
      isRefreshing := false
      failedQueue := []
      unauthorizedListeners := []
      inFlight := []
      ready := []
      log := [] } t (fw.trans hw) hwf ((fh _).trans ha) ((fh _).trans hr)
  refine ⟨i1, i2, ?_⟩
  simp only [initialState, hydrateStoredTokens]
  split <;> simp

/-- A process that starts without a durable store starts signed out: the
fallback object of the process before is gone. -/
theorem initialState_without_durable (st : TokenStorage) (baseURL : String)
    (h : st.localStorage = none) :
    (initialState st baseURL).authTokens = { accessToken := none, refreshToken := none } ∧
      (initialState st baseURL).authorization = none := by
  obtain ⟨ls, fb, w⟩ := st
  simp only at h
  subst h
  exact ⟨rfl, rfl⟩

/-! ## The token store when the durable store fails -/

theorem writeFallback_spec (st : TokenStorage) (key : String) (value : Option String) :
    (writeFallback st key value).fallbackStore.lookup key = value ∧
      (∀ other, other ≠ key →
        (writeFallback st key value).fallbackStore.lookup other = st.fallbackStore.lookup other) ∧
      (writeFallback st key value).localStorage = st.localStorage ∧
      (writeFallback st key value).warnings = st.warnings := by
  cases value with
  | none =>
    refine ⟨lookup_deleteKey_self _ _, fun other h => lookup_deleteKey_other _ _ _ h, rfl, rfl⟩
  | some v =>
    refine ⟨lookup_setKey_self _ _ _, fun other h => lookup_setKey_other _ _ _ _ h, rfl, rfl⟩

theorem writeStorage_missing (st : TokenStorage) (key : String) (value : Option String)
    (h : st.localStorage = none) : writeStorage st key value = writeFallback st key value := by
  unfold writeStorage
  rw [h]

theorem writeStorage_throws (st : TokenStorage) (ls : LocalStorage) (key : String)
    (value : Option String) (h : st.localStorage = some ls) (ht : ls.throwsNext = true) :
    writeStorage st key value =
      writeFallback { st with localStorage := some ls.afterCall, warnings := st.warnings + 1 }
        key value := by
  unfold writeStorage
  rw [h]
  cases value <;> simp [LocalStorage.removeItem, LocalStorage.setItem, ht]

theorem writeStorage_succeeds (st : TokenStorage) (ls : LocalStorage) (key : String)
    (value : Option String) (h : st.localStorage = some ls) (ht : ls.throwsNext = false) :
    (writeStorage st key value).fallbackStore = st.fallbackStore ∧
      (writeStorage st key value).warnings = st.warnings ∧
      ∃ ls', (writeStorage st key value).localStorage = some ls' ∧ ls'.faults = ls.faults.tail ∧
        ls'.items.lookup key = value ∧
        ∀ other, other ≠ key → ls'.items.lookup other = ls.items.lookup other := by
  unfold writeStorage
  rw [h]
  cases value with
  | none =>
    have hr : ls.removeItem key =
        (true, { ls.afterCall with items := deleteKey ls.items key }) := by
      simp [LocalStorage.removeItem, ht]
    simp only [hr]
    refine ⟨?_, ?_, ?_⟩ <;> try trivial
    exact ⟨_, rfl, rfl, lookup_deleteKey_self _ _,
      fun other hne => lookup_deleteKey_other _ _ _ hne⟩
  | some v =>
    have hr : ls.setItem key v =
        (true, { ls.afterCall with items := setKey ls.items key v }) := by
      simp [LocalStorage.setItem, ht]
    simp only [hr]
    refine ⟨?_, ?_, ?_⟩ <;> try trivial
    exact ⟨_, rfl, rfl, lookup_setKey_self _ _ _,
      fun other hne => lookup_setKey_other _ _ _ _ hne⟩

/-- Every write makes its call on the durable store, if there is one, and
leaves the other keys of the fallback object alone. -/
theorem writeStorage_frame (st : TokenStorage) (key : String) (value : Option String) :
    (writeStorage st key value).localStorage.map (fun ls => ls.faults) =
        st.localStorage.map (fun ls => ls.faults.tail) ∧
      ∀ other, other ≠ key →
        (writeStorage st key value).fallbackStore.lookup other = st.fallbackStore.lookup other := by
  cases hl : st.localStorage with
  | none =>
    rw [writeStorage_missing st key value hl]
    have h := writeFallback_spec st key value
    exact ⟨by rw [h.2.2.1, hl]; rfl, h.2.1⟩
  | some ls =>
    cases ht : ls.throwsNext
    · obtain ⟨h1, _, ls', h3, h4, _, _⟩ := writeStorage_succeeds st ls key value hl ht
      refine ⟨by rw [h3]; simp [h4], fun other _ => by rw [h1]⟩
    · rw [writeStorage_throws st ls key value hl ht]
      have h := writeFallback_spec
        { st with localStorage := some ls.afterCall, warnings := st.warnings + 1 } key value
      exact ⟨by rw [h.2.2.1]; rfl, h.2.1⟩

theorem readStorage_cases (st : TokenStorage) (key : String) :
    (st.localStorage = none → readStorage st key = (st.fallbackStore.lookup key, st)) ∧
      (∀ ls, st.localStorage = some ls → ls.throwsNext = true →
        readStorage st key =
          (st.fallbackStore.lookup key,
            { st with localStorage := some ls.afterCall, warnings := st.warnings + 1 })) ∧
      (∀ ls, st.localStorage = some ls → ls.throwsNext = false →
        readStorage st key = (ls.items.lookup key, { st with localStorage := some ls.afterCall })) := by
  refine ⟨fun h => ?_, fun ls h ht => ?_, fun ls h ht => ?_⟩
  · unfold readStorage
    rw [h]
    rfl
  · unfold readStorage
    rw [h]
    simp [LocalStorage.getItem, ht, readFallback]
  · unfold readStorage
    rw [h]
    simp [LocalStorage.getItem, ht]

/-! ## Strings -/

theorem endsWith_iff (value suffix : String) :
    endsWith value suffix = true ↔ ∃ t, value.data = t ++ suffix.data := by
  unfold endsWith
  rw [List.isSuffixOf_iff_suffix]
  constructor
  · rintro ⟨t, ht⟩
    exact ⟨t, ht.symm⟩
  · rintro ⟨t, ht⟩
    exact ⟨t, ht.symm⟩

theorem stripTrailingSlash_slash (value : String) (t : List Char)
    (h : value.data = t ++ ['/']) : stripTrailingSlash value = String.mk t := by
  have he : endsWith value "/" = true := (endsWith_iff value "/").mpr ⟨t, h⟩
  unfold stripTrailingSlash
  rw [if_pos he, h]
  simp

theorem stripTrailingSlash_other (value : String) (h : endsWith value "/" = false) :
    stripTrailingSlash value = value := by
  unfold stripTrailingSlash
  simp [h]

/-- After `stripTrailingSlash` a value ends with a slash only if it ended with two. -/
theorem stripTrailingSlash_ends (value : String) (h : endsWith value "//" = false) :
    endsWith (stripTrailingSlash value) "/" = false := by
  cases he : endsWith value "/" with
  | false => rw [stripTrailingSlash_other value he]; exact he
  | true =>
    obtain ⟨t, ht⟩ := (endsWith_iff value "/").mp he
    rw [stripTrailingSlash_slash value t ht]
    by_contra hcon
    have hcon' : endsWith (String.mk t) "/" = true := by simpa using hcon
    obtain ⟨t', ht'⟩ := (endsWith_iff _ "/").mp hcon'
    have : endsWith value "//" = true := by
      rw [endsWith_iff]
      refine ⟨t', ?_⟩
      rw [ht]
      simp only at ht'
      rw [ht']
      simp
    rw [h] at this
    exact Bool.noConfusion this

theorem buildBaseUrlForHost_data (rt : Runtime) (host : String) :
    (buildBaseUrlForHost rt host).data =
      "http://".data ++ host.data ++ [':'] ++ rt.API_PORT.data ++ ['/', 'a', 'p', 'i'] := by
  simp [buildBaseUrlForHost, API_ROOT_PATH]

theorem ends_with_api (value : String) (t : List Char) (h : value.data = t ++ ['/', 'a', 'p', 'i']) :
    endsWith value "/" = false := by
  by_contra hcon
  have hcon' : endsWith value "/" = true := by simpa using hcon
  obtain ⟨u, hu⟩ := (endsWith_iff _ "/").mp hcon'
  rw [h] at hu
  have := congrArg List.getLast? hu
  simp at this

theorem buildBaseUrlForHost_kept (rt : Runtime) (host : String) :
    endsWith (buildBaseUrlForHost rt host) "/" = false ∧
      stripTrailingSlash (buildBaseUrlForHost rt host) = buildBaseUrlForHost rt host ∧
      buildBaseUrlForHost rt host ≠ "" := by
  have hd := buildBaseUrlForHost_data rt host
  have he := ends_with_api _ _ hd
  refine ⟨he, stripTrailingSlash_other _ he, ?_⟩
  intro hempty
  rw [hempty] at hd
  simp at hd

theorem trim_empty : trim "" = "" := by decide

/-! ## Host inference -/

theorem sanitizeHost_some (rt : Runtime) (host : Option String) (h : String)
    (hs : sanitizeHost rt host = some h) : h ≠ "" := by
  unfold sanitizeHost at hs
  cases host with
  | none => simp at hs
  | some x =>
    simp only at hs
    split at hs
    · simp at hs
    · split at hs
      · simp at hs
      · next hclean =>
        split at hs
        · split at hs
          · split at hs
            · simp at hs
            · have : h = "10.0.2.2" := by simpa using hs.symm
              rw [this]; decide
          · split at hs
            · simp at hs
            · have : h = "localhost" := by simpa using hs.symm
              rw [this]; decide
        · have : h = trim x := by simpa using hs.symm
          rw [this]; exact hclean

theorem parseHostCandidate_some (rt : Runtime) (candidate : Option String) (h : String)
    (hs : parseHostCandidate rt candidate = some h) : h ≠ "" := by
  unfold parseHostCandidate at hs
  cases candidate with
  | none => simp at hs
  | some c =>
    simp only at hs
    split at hs
    · simp at hs
    · split at hs
      · simp at hs
      · split at hs
        · exact sanitizeHost_some rt _ h hs
        · exact sanitizeHost_some rt _ h hs

/-- What the loop of `resolveExpoHost` returns is a host that is not on a tunnel domain. -/
theorem firstHost_some (rt : Runtime) (candidates : List (Option String)) (h : String)
    (hs : firstHost rt candidates = some h) : h ≠ "" ∧ isExpoTunnelHost (some h) = false := by
  induction candidates with
  | nil => simp [firstHost] at hs
  | cons c rest ih =>
    unfold firstHost at hs
    split at hs
    · next host hhost =>
      split at hs
      · next hcond =>
        have hh : host = h := by simpa using hs
        subst hh
        simp only [Bool.and_eq_true, bne_iff_ne, ne_eq, Bool.not_eq_true'] at hcond
        exact hcond
      · exact ih hs
    · exact ih hs

theorem resolveMetroHost_some (rt : Runtime) (h : String) (hs : resolveMetroHost rt = some h) :
    h ≠ "" ∧ isExpoTunnelHost (some h) = false := by
  unfold resolveMetroHost at hs
  simp only at hs
  split at hs
  · simp at hs
  · next hcond =>
    rw [hs] at hcond
    exact ⟨parseHostCandidate_some rt _ h hs, by simpa using hcond⟩

/-! ## Resolution at startup -/

theorem initialBaseMeta_env (rt : Runtime) (h : envBaseUrl rt ≠ "") :
    (initialBaseMeta rt).source = "env" ∧
      (initialBaseMeta rt).resolvedBaseUrl = stripTrailingSlash (envBaseUrl rt) ∧
      (initialBaseMeta rt).envBaseUrl = some (envBaseUrl rt) := by
  have hb : (envBaseUrl rt != "") = true := by simpa using h
  simp [initialBaseMeta, resolvedBaseUrl, hb, orNull, truthy]

theorem initialBaseMeta_auto (rt : Runtime) (base : String) (h : envBaseUrl rt = "")
    (hauto : resolveDeviceBaseUrl rt = some base) (hbase : base ≠ "") :
    (initialBaseMeta rt).source = "auto" ∧
      (initialBaseMeta rt).resolvedBaseUrl = stripTrailingSlash base ∧
      (initialBaseMeta rt).autoDetectedBaseUrl = some base ∧
      (initialBaseMeta rt).envBaseUrl = none := by
  simp [initialBaseMeta, resolvedBaseUrl, autoDetectedBaseUrl, h, hauto, orNull, truthy, hbase]

theorem initialBaseMeta_fallback (rt : Runtime) (h : envBaseUrl rt = "")
    (hauto : resolveDeviceBaseUrl rt = none) :
    (initialBaseMeta rt).source = "fallback" ∧
      (initialBaseMeta rt).resolvedBaseUrl = "http://localhost:" ++ rt.API_PORT ++ "/api" ∧
      (initialBaseMeta rt).autoDetectedBaseUrl = none ∧
      (initialBaseMeta rt).envBaseUrl = none := by
  have hkeep : stripTrailingSlash ("http://localhost:" ++ rt.API_PORT ++ "/api") =
      "http://localhost:" ++ rt.API_PORT ++ "/api" :=
    stripTrailingSlash_other _ (ends_with_api _ ("http://localhost:".data ++ rt.API_PORT.data)
      (by simp))
  simp [initialBaseMeta, resolvedBaseUrl, autoDetectedBaseUrl, h, hauto, orNull, truthy,
    API_ROOT_PATH, hkeep]

theorem resolveDeviceBaseUrl_host (rt : Runtime) (h : String) (hos : rt.OS ≠ "web")
    (hhost : resolveMetroHost rt = some h ∨
      (resolveMetroHost rt = none ∧ resolveExpoHost rt = some h)) :
    resolveDeviceBaseUrl rt = some (buildBaseUrlForHost rt h) := by
  have hne : h ≠ "" := by
    rcases hhost with hm | ⟨_, he⟩
    · exact (resolveMetroHost_some rt h hm).1
    · exact (firstHost_some rt _ h he).1
  unfold resolveDeviceBaseUrl
  rcases hhost with hm | ⟨hm, he⟩
  · simp [hos, hm, hne]
  · simp [hos, hm, he, hne]

theorem resolveDeviceBaseUrl_none (rt : Runtime)
    (h : rt.OS = "web" ∨ (resolveMetroHost rt = none ∧ resolveExpoHost rt = none)) :
    resolveDeviceBaseUrl rt = none := by
  unfold resolveDeviceBaseUrl
  rcases h with hos | ⟨hm, he⟩
  · simp [hos]
  · simp [hm, he]

/-! ## The probe sweep, turn by turn -/

theorem probeAnswered_idle (rt : Runtime) (s : BaseState) (ok : Bool)
    (h : s.promise = none ∨ ∃ sweep, s.promise = some sweep ∧ sweep.awaiting = none) :
    probeAnswered rt s ok = s := by
  unfold probeAnswered
  rcases h with h | ⟨sweep, h, ha⟩
  · rw [h]
  · rw [h]
    simp only [ha]

theorem probeAnswered_success (rt : Runtime) (s : BaseState) (sweep : Sweep) (host : String)
    (h : s.promise = some sweep) (ha : sweep.awaiting = some host) :
    probeAnswered rt s true =
      finishProbe (setApiBaseUrl s (buildBaseUrlForHost rt host) "auto-probe") sweep.waiters := by
  unfold probeAnswered
  rw [h]
  simp only [ha, probeHost, if_true]

theorem probeAnswered_next (rt : Runtime) (s : BaseState) (sweep : Sweep) (host next : String)
    (rest : List String) (h : s.promise = some sweep) (ha : sweep.awaiting = some host)
    (hr : sweep.rest = next :: rest) :
    probeAnswered rt s false =
      { s with
        fetched := s.fetched ++ [healthUrl rt next]
        promise := some { awaiting := some next, rest := rest, waiters := sweep.waiters } } := by
  unfold probeAnswered
  rw [h]
  simp only [ha, probeHost, hr, Bool.false_eq_true, if_false]

theorem probeAnswered_last (rt : Runtime) (s : BaseState) (sweep : Sweep) (host : String)
    (h : s.promise = some sweep) (ha : sweep.awaiting = some host) (hr : sweep.rest = []) :
    probeAnswered rt s false = finishProbe s sweep.waiters := by
  unfold probeAnswered
  rw [h]
  simp only [ha, probeHost, hr, Bool.false_eq_true, if_false]

theorem ensureApiBaseUrl_resolved (rt : Runtime) (s : BaseState) (caller : Nat)
    (h : s.baseMeta.source ≠ "fallback") :
    ensureApiBaseUrl rt s caller =
      { s with returned := s.returned ++ [(caller, getApiBaseMeta s)] } := by
  have hb : (s.baseMeta.source != "fallback") = true := by simpa using h
  unfold ensureApiBaseUrl
  rw [if_pos hb]

theorem ensureApiBaseUrl_joins (rt : Runtime) (s : BaseState) (caller : Nat) (sweep : Sweep)
    (h : s.baseMeta.source = "fallback") (hp : s.promise = some sweep) :
    ensureApiBaseUrl rt s caller =
      { s with promise := some { sweep with waiters := sweep.waiters ++ [caller] } } := by
  unfold ensureApiBaseUrl
  simp only [h, bne_self_eq_false, Bool.false_eq_true, if_false, hp]

theorem ensureApiBaseUrl_starts (rt : Runtime) (s : BaseState) (caller : Nat) (host : String)
    (rest : List String) (h : s.baseMeta.source = "fallback") (hp : s.promise = none)
    (hc : collectHostCandidates rt = host :: rest) :
    ensureApiBaseUrl rt s caller =
      { s with
        fetched := s.fetched ++ [healthUrl rt host]
        promise := some { awaiting := some host, rest := rest, waiters := [caller] } } := by
  unfold ensureApiBaseUrl
  simp only [h, bne_self_eq_false, Bool.false_eq_true, if_false, hp, hc]

theorem ensureApiBaseUrl_nothing (rt : Runtime) (s : BaseState) (caller : Nat)
    (h : s.baseMeta.source = "fallback") (hp : s.promise = none)
    (hc : collectHostCandidates rt = []) :
    ensureApiBaseUrl rt s caller =
      { s with promise := some { awaiting := none, rest := [], waiters := [caller] } } := by
  unfold ensureApiBaseUrl
  simp only [h, bne_self_eq_false, Bool.false_eq_true, if_false, hp, hc]

/-- Every turn leaves the metadata as they are or ends a sweep with success. -/
theorem stepBase_cases (rt : Runtime) (s : BaseState) (ev : BaseEvent) :
    ((stepBase rt s ev).baseMeta = s.baseMeta ∧ (stepBase rt s ev).baseURL = s.baseURL) ∨
      ∃ sweep host, s.promise = some sweep ∧ sweep.awaiting = some host ∧ ev = .answer true ∧
        stepBase rt s ev =
          finishProbe (setApiBaseUrl s (buildBaseUrlForHost rt host) "auto-probe")
            sweep.waiters := by
  cases ev with
  | ensure caller =>
    left
    show (ensureApiBaseUrl rt s caller).baseMeta = _ ∧ (ensureApiBaseUrl rt s caller).baseURL = _
    by_cases h : s.baseMeta.source = "fallback"
    · cases hp : s.promise with
      | some sweep => rw [ensureApiBaseUrl_joins rt s caller sweep h hp]; exact ⟨rfl, rfl⟩
      | none =>
        cases hc : collectHostCandidates rt with
        | nil => rw [ensureApiBaseUrl_nothing rt s caller h hp hc]; exact ⟨rfl, rfl⟩
        | cons host rest => rw [ensureApiBaseUrl_starts rt s caller host rest h hp hc]; exact ⟨rfl, rfl⟩
    · rw [ensureApiBaseUrl_resolved rt s caller h]; exact ⟨rfl, rfl⟩
  | answer ok =>
    show ((probeAnswered rt s ok).baseMeta = _ ∧ (probeAnswered rt s ok).baseURL = _) ∨ _
    cases hp : s.promise with
    | none => left; rw [probeAnswered_idle rt s ok (Or.inl hp)]; exact ⟨rfl, rfl⟩
    | some sweep =>
      cases ha : sweep.awaiting with
      | none => left; rw [probeAnswered_idle rt s ok (Or.inr ⟨sweep, hp, ha⟩)]; exact ⟨rfl, rfl⟩
      | some host =>
        cases ok with
        | true => right; exact ⟨sweep, host, rfl, ha, rfl, probeAnswered_success rt s sweep host hp ha⟩
        | false =>
          left
          cases hr : sweep.rest with
          | nil => rw [probeAnswered_last rt s sweep host hp ha hr]; exact ⟨rfl, rfl⟩
          | cons next rest =>
            rw [probeAnswered_next rt s sweep host next rest hp ha hr]; exact ⟨rfl, rfl⟩
  | settle =>
    left
    show (probeSettled s).baseMeta = _ ∧ (probeSettled s).baseURL = _
    unfold probeSettled
    split
    · exact ⟨rfl, rfl⟩
    · split <;> exact ⟨rfl, rfl⟩

/-! ## The resolved base URL over time -/

theorem setApiBaseUrl_resolved (s : BaseState) (next source : String) :
    (setApiBaseUrl s next source).baseMeta.resolvedBaseUrl = stripTrailingSlash next ∧
      (setApiBaseUrl s next source).baseURL = stripTrailingSlash next ++ "/" ∧
      (setApiBaseUrl s next source).baseMeta.source = source := ⟨rfl, rfl, rfl⟩

/-- The resolved base URL after a turn is the one before, or one built for a host. -/
theorem stepBase_resolved (rt : Runtime) (s : BaseState) (ev : BaseEvent) :
    (stepBase rt s ev).baseMeta.resolvedBaseUrl = s.baseMeta.resolvedBaseUrl ∨
      ∃ host, (stepBase rt s ev).baseMeta.resolvedBaseUrl = buildBaseUrlForHost rt host := by
  rcases stepBase_cases rt s ev with hsame | ⟨sweep, host, _, _, _, hstep⟩
  · left
    rw [hsame.1]
  · right
    refine ⟨host, ?_⟩
    rw [hstep]
    exact (buildBaseUrlForHost_kept rt host).2.1

theorem runBase_resolved (rt : Runtime) (events : List BaseEvent) (s : BaseState)
    (h : endsWith s.baseMeta.resolvedBaseUrl "/" = false) :
    endsWith (runBase rt s events).baseMeta.resolvedBaseUrl "/" = false := by
  induction events generalizing s with
  | nil => exact h
  | cons ev rest ih =>
    apply ih
    rcases stepBase_resolved rt s ev with hsame | ⟨host, hhost⟩
    · rw [hsame]; exact h
    · rw [hhost]; exact (buildBaseUrlForHost_kept rt host).1

theorem initialBaseMeta_resolved (rt : Runtime) :
    (initialBaseMeta rt).resolvedBaseUrl = stripTrailingSlash (envBaseUrl rt) ∨
      endsWith (initialBaseMeta rt).resolvedBaseUrl "/" = false := by
  by_cases henv : envBaseUrl rt = ""
  · right
    cases hauto : resolveDeviceBaseUrl rt with
    | none =>
      rw [(initialBaseMeta_fallback rt henv hauto).2.1]
      exact ends_with_api _ ("http://localhost:".data ++ rt.API_PORT.data) (by simp)
    | some base =>
      have hbase : base = "" ∨ ∃ h, base = buildBaseUrlForHost rt h := by
        unfold resolveDeviceBaseUrl at hauto
        split at hauto
        · simp at hauto
        · simp only at hauto
          split at hauto
          · simp at hauto
          · next h _ =>
            split at hauto
            · simp at hauto
            · exact Or.inr ⟨h, by simpa using hauto.symm⟩
      rcases hbase with hb | ⟨h, hb⟩
      · subst hb
        have : (initialBaseMeta rt).resolvedBaseUrl =
            stripTrailingSlash ("http://localhost:" ++ rt.API_PORT ++ API_ROOT_PATH) := by
          simp [initialBaseMeta, resolvedBaseUrl, autoDetectedBaseUrl, henv, hauto, truthy]
        rw [this]
        have he := ends_with_api ("http://localhost:" ++ rt.API_PORT ++ API_ROOT_PATH)
          ("http://localhost:".data ++ rt.API_PORT.data) (by simp [API_ROOT_PATH])
        rw [stripTrailingSlash_other _ he]
        exact he
      · have hk := buildBaseUrlForHost_kept rt h
        rw [(initialBaseMeta_auto rt base henv hauto (by rw [hb]; exact hk.2.2)).2.1, hb, hk.2.1]
        exact hk.1
  · left
    exact (initialBaseMeta_env rt henv).2.1

/-! ## Loopback names -/

theorem lowered_empty : toLowerCase "" = "" := by decide

theorem sanitizeHost_loopback (rt : Runtime) (host : String)
    (hloop : toLowerCase (trim host) = "localhost" ∨ toLowerCase (trim host) = "127.0.0.1") :
    sanitizeHost rt (some host) =
      (if rt.OS = "android" then (if rt.isDevice then none else some "10.0.2.2")
        else (if rt.isDevice then none else some "localhost")) := by
  have h1 : trim host ≠ "" := by
    intro he
    rw [he, lowered_empty] at hloop
    rcases hloop with h | h <;> exact absurd h (by decide)
  have h0 : host ≠ "" := by
    intro he
    rw [he] at h1
    exact h1 trim_empty
  simp only [sanitizeHost, h0, h1, if_false, hloop, if_true]

theorem sanitizeHost_plain (rt : Runtime) (host : String)
    (hplain : ¬ (toLowerCase (trim host) = "localhost" ∨ toLowerCase (trim host) = "127.0.0.1"))
    (hblank : trim host ≠ "") : sanitizeHost rt (some host) = some (trim host) := by
  have h0 : host ≠ "" := by
    intro he
    rw [he] at hblank
    exact hblank trim_empty
  simp only [sanitizeHost, h0, hblank, if_false, hplain]

/-- On a physical device `sanitizeHost` never returns a loopback name. -/
theorem sanitizeHost_device (rt : Runtime) (host : Option String) (h : String)
    (hdev : rt.isDevice = true) (hs : sanitizeHost rt host = some h) :
    toLowerCase h ≠ "localhost" ∧ toLowerCase h ≠ "127.0.0.1" := by
  cases host with
  | none => simp [sanitizeHost] at hs
  | some x =>
    by_cases hloop : toLowerCase (trim x) = "localhost" ∨ toLowerCase (trim x) = "127.0.0.1"
    · rw [sanitizeHost_loopback rt x hloop] at hs
      simp [hdev] at hs
    · by_cases hblank : trim x = ""
      · unfold sanitizeHost at hs
        simp only [hblank, if_true] at hs
        split at hs <;> simp at hs
      · rw [sanitizeHost_plain rt x hloop hblank] at hs
        have hh : trim x = h := by simpa using hs
        rw [← hh]
        exact not_or.mp hloop

theorem parseHostCandidate_device (rt : Runtime) (candidate : Option String) (h : String)
    (hdev : rt.isDevice = true) (hs : parseHostCandidate rt candidate = some h) :
    toLowerCase h ≠ "localhost" ∧ toLowerCase h ≠ "127.0.0.1" := by
  unfold parseHostCandidate at hs
  cases candidate with
  | none => simp at hs
  | some c =>
    simp only at hs
    split at hs
    · simp at hs
    · split at hs
      · simp at hs
      · split at hs
        · exact sanitizeHost_device rt _ h hdev hs
        · exact sanitizeHost_device rt _ h hdev hs

theorem firstHost_skip (rt : Runtime) (candidate : Option String) (rest : List (Option String))
    (h : parseHostCandidate rt candidate = none) :
    firstHost rt (candidate :: rest) = firstHost rt rest := by
  rw [firstHost, h]

theorem resolveMetroHost_none (rt : Runtime) (h : parseHostCandidate rt rt.scriptURL = none) :
    resolveMetroHost rt = none := by
  simp [resolveMetroHost, h]

/-! ## Letter case -/

/-- What `toLower` does to a character: nothing, or it maps a capital letter to a small one. -/
theorem toLower_cases (c : Char) :
    c.toLower = c ∨
      (65 ≤ c.toNat ∧ c.toNat ≤ 90 ∧ 97 ≤ c.toLower.toNat ∧ c.toLower.toNat ≤ 122) := by
  by_cases h : 65 ≤ c.toNat ∧ c.toNat ≤ 90
  · right
    have hc : c = Char.ofNat c.toNat := (Char.ofNat_toNat c).symm
    obtain ⟨h1, h2⟩ := h
    generalize c.toNat = n at hc h1 h2
    subst hc
    interval_cases n <;> decide
  · left
    unfold Char.toLower
    simp only [ge_iff_le]
    rw [if_neg h]

theorem toLower_idem (c : Char) : c.toLower.toLower = c.toLower := by
  rcases toLower_cases c with h | ⟨_, _, h3, h4⟩
  · rw [h, h]
  · rcases toLower_cases c.toLower with h | ⟨h5, h6, _, _⟩
    · exact h
    · omega

theorem isWhiteSpace_letter (c : Char) (h1 : 65 ≤ c.toNat) (h2 : c.toNat ≤ 122) :
    isWhiteSpace c = false := by
  simp only [isWhiteSpace, List.contains_eq_any_beq, List.any_cons, List.any_nil, Bool.or_false,
    Bool.or_eq_false_iff, beq_eq_false_iff_ne, ne_eq]
  omega

theorem isWhiteSpace_toLower (c : Char) : isWhiteSpace c.toLower = isWhiteSpace c := by
  rcases toLower_cases c with h | ⟨h1, h2, h3, h4⟩
  · rw [h]
  · rw [isWhiteSpace_letter c h1 (by omega), isWhiteSpace_letter c.toLower (by omega) h4]

theorem dropWhile_map_toLower (l : List Char) :
    (l.map Char.toLower).dropWhile isWhiteSpace = (l.dropWhile isWhiteSpace).map Char.toLower := by
  induction l with
  | nil => rfl
  | cons c rest ih =>
    simp only [List.map_cons, List.dropWhile_cons, isWhiteSpace_toLower]
    split
    · exact ih
    · rfl

theorem trim_toLowerCase (value : String) : trim (toLowerCase value) = toLowerCase (trim value) := by
  simp only [trim, toLowerCase]
  rw [dropWhile_map_toLower, ← List.map_reverse, dropWhile_map_toLower, List.map_reverse]

theorem toLowerCase_idem (value : String) : toLowerCase (toLowerCase value) = toLowerCase value := by
  simp only [toLowerCase, List.map_map]
  congr 1
  apply List.map_congr_left
  intro c _
  exact toLower_idem c

theorem toLowerCase_empty_iff (value : String) : toLowerCase value = "" ↔ value = "" := by
  constructor
  · intro h
    have hd : (toLowerCase value).data = [] := congrArg String.data h
    simp only [toLowerCase, List.map_eq_nil_iff] at hd
    apply String.ext
    rw [hd]
  · intro h
    rw [h]
    decide

/-- The loopback test of `sanitizeHost` and its test for a blank host do not
depend on the case of the letters, so `sanitizeHost` of a host in lower case
is `sanitizeHost` of the host, in lower case. -/
theorem sanitizeHost_toLowerCase (rt : Runtime) (host : String) :
    sanitizeHost rt (some (toLowerCase host)) = (sanitizeHost rt (some host)).map toLowerCase := by
  by_cases hblank : trim host = ""
  · have hb' : trim (toLowerCase host) = "" := by
      rw [trim_toLowerCase, hblank]
      decide
    simp [sanitizeHost, hblank, hb']
  · have hb' : trim (toLowerCase host) ≠ "" := by
      rw [trim_toLowerCase]
      exact fun h => hblank ((toLowerCase_empty_iff _).1 h)
    by_cases hloop : toLowerCase (trim host) = "localhost" ∨ toLowerCase (trim host) = "127.0.0.1"
    · have hloop' : toLowerCase (trim (toLowerCase host)) = "localhost" ∨
          toLowerCase (trim (toLowerCase host)) = "127.0.0.1" := by
        rw [trim_toLowerCase, toLowerCase_idem]
        exact hloop
      rw [sanitizeHost_loopback rt _ hloop', sanitizeHost_loopback rt _ hloop]
      by_cases h1 : rt.OS = "android" <;> cases rt.isDevice <;> simp [h1] <;> decide
    · have hloop' : ¬ (toLowerCase (trim (toLowerCase host)) = "localhost" ∨
          toLowerCase (trim (toLowerCase host)) = "127.0.0.1") := by
        rw [trim_toLowerCase, toLowerCase_idem]
        exact hloop
      rw [sanitizeHost_plain rt _ hloop' hb', sanitizeHost_plain rt _ hloop hblank,
        trim_toLowerCase]
      rfl

/-! ## Parsing a host candidate -/

theorem isSchemeChar_colon : isSchemeChar ':' = false := by decide

theorem isHostChar_scheme (c : Char) (h : isHostChar c = false) (hc : c ≠ ':') :
    isSchemeChar c = false := by
  have hcases : c = '/' ∨ c = '?' ∨ c = '#' ∨ c = ':' := by
    have h' : ¬c = '/' → ¬c = '?' → ¬c = '#' → c = ':' := by
      simpa [isHostChar, or_assoc] using h
    by_cases h1 : c = '/'
    · exact Or.inl h1
    · by_cases h2 : c = '?'
      · exact Or.inr (Or.inl h2)
      · by_cases h3 : c = '#'
        · exact Or.inr (Or.inr (Or.inl h3))
        · exact Or.inr (Or.inr (Or.inr (h' h1 h2 h3)))
  rcases hcases with h1 | h1 | h1 | h1
  · subst h1; decide
  · subst h1; decide
  · subst h1; decide
  · exact absurd h1 hc

theorem stripScheme_scheme (c : Char) (cs : List Char) (tail : String) (hc : c.isAlpha = true)
    (hcs : ∀ x ∈ cs, isSchemeChar x = true) :
    stripScheme (String.mk (c :: cs) ++ "://" ++ tail) = tail := by
  have hd : (String.mk (c :: cs) ++ "://" ++ tail).data =
      c :: (cs ++ (':' :: '/' :: '/' :: tail.data)) := by
    simp
  unfold stripScheme
  rw [hd]
  simp only [hc, if_true]
  rw [List.dropWhile_append_of_pos hcs]
  simp [List.dropWhile, isSchemeChar_colon]

/-- Without a leading scheme `stripScheme` leaves `host` followed by `rest` alone. -/
theorem stripScheme_host (host rest : String) (hhost : ∀ c ∈ host.data, isHostChar c = true)
    (hne : host.data ≠ [])
    (hrest : rest.data = [] ∨ ∃ c tail, rest.data = c :: tail ∧ isHostChar c = false)
    (hnot : startsWith rest "://" = false) : stripScheme (host ++ rest) = host ++ rest := by
  obtain ⟨c, cs, hcs⟩ : ∃ c cs, host.data = c :: cs := by
    cases hh : host.data with
    | nil => exact absurd hh hne
    | cons c cs => exact ⟨c, cs, rfl⟩
  have hd : (host ++ rest).data = c :: (cs ++ rest.data) := by simp [hcs]
  unfold stripScheme
  rw [hd]
  simp only
  split
  · -- the run of scheme characters ends inside the host or at its end
    have hrun : ∀ (l : List Char), (∀ x ∈ l, isHostChar x = true) →
        ∀ tail, (l ++ rest.data).dropWhile isSchemeChar ≠ ':' :: '/' :: '/' :: tail := by
      intro l
      induction l with
      | nil =>
        intro _ tail
        simp only [List.nil_append]
        rcases hrest with hr | ⟨x, xs, hr, hx⟩
        · rw [hr]; simp
        · rw [hr]
          by_cases hxc : x = ':'
          · subst hxc
            simp only [List.dropWhile, isSchemeChar_colon]
            intro hcon
            have hxs : xs = '/' :: '/' :: tail := by simpa using hcon
            have : startsWith rest "://" = true := by
              unfold startsWith
              rw [hr, hxs]
              simp [List.isPrefixOf]
            rw [hnot] at this
            exact Bool.noConfusion this
          · simp only [List.dropWhile, isHostChar_scheme x hx hxc]
            intro hcon
            exact hxc (by simpa using congrArg List.head? hcon)
      | cons y ys ih =>
        intro hl tail
        have hy : isHostChar y = true := hl y (List.mem_cons_self _ _)
        have hys : ∀ x ∈ ys, isHostChar x = true := fun x hx => hl x (List.mem_cons_of_mem _ hx)
        simp only [List.cons_append, List.dropWhile]
        cases hsy : isSchemeChar y
        · simp only
          intro hcon
          have hyc : y = ':' := by simpa using congrArg List.head? hcon
          rw [hyc] at hy
          exact absurd hy (by decide)
        · exact ih hys tail
    have hcs' : ∀ x ∈ cs, isHostChar x = true := fun x hx =>
      hhost x (by rw [hcs]; exact List.mem_cons_of_mem _ hx)
    split
    · next tail heq => exact absurd heq (hrun cs hcs' tail)
    · rfl
  · rfl

/-- The rest of `parseHostCandidate` once the scheme is gone: the host the
platform reports, or else the run of host characters at the start. -/
theorem parseHostCandidate_shape (rt : Runtime) (candidate host rest : String)
    (htrim : trim candidate = candidate) (hstrip : stripScheme candidate = host ++ rest)
    (hhost : ∀ c ∈ host.data, isHostChar c = true) (hne : host.data ≠ [])
    (hrest : rest.data = [] ∨ ∃ c tail, rest.data = c :: tail ∧ isHostChar c = false) :
    parseHostCandidate rt (some candidate) =
      sanitizeHost rt (some ((rt.hostname ("http://" ++ host ++ rest)).getD host)) := by
  have hcand : candidate ≠ "" := by
    intro he
    rw [he] at hstrip
    have : (stripScheme "").data = [] := by decide
    rw [hstrip] at this
    have hh : host.data = [] := by
      have h2 : host.data ++ rest.data = [] := by simpa using this
      exact (List.append_eq_nil.mp h2).1
    exact hne hh
  obtain ⟨c, cs, hcs⟩ : ∃ c cs, host.data = c :: cs := by
    cases hh : host.data with
    | nil => exact absurd hh hne
    | cons c cs => exact ⟨c, cs, rfl⟩
  have hc : isHostChar c = true := hhost c (by rw [hcs]; exact List.mem_cons_self _ _)
  have hslash : startsWith (host ++ rest) "//" = false := by
    unfold startsWith
    have hd : (host ++ rest).data = c :: (cs ++ rest.data) := by simp [hcs]
    rw [hd]
    have hcne : c ≠ '/' := by
      intro he
      rw [he] at hc
      exact absurd hc (by decide)
    have hcne' : ¬ '/' = c := fun e => hcne e.symm
    simp [List.isPrefixOf, hcne']
  have hmatch : (host ++ rest).data.takeWhile isHostChar = host.data := by
    have hd : (host ++ rest).data = host.data ++ rest.data := by simp
    rw [hd, List.takeWhile_append_of_pos hhost]
    rcases hrest with hr | ⟨x, xs, hr, hx⟩
    · rw [hr]; simp
    · rw [hr]; simp [List.takeWhile, hx]
  unfold parseHostCandidate
  simp only [hcand, if_false, htrim, hstrip, hslash, Bool.false_eq_true, hmatch, hne]
  cases hp : rt.hostname ("http://" ++ (host ++ rest)) with
  | none =>
    have hp' : rt.hostname ("http://" ++ host ++ rest) = none := by
      rw [String.append_assoc]; exact hp
    simp [hp']
  | some parsed =>
    have hp' : rt.hostname ("http://" ++ host ++ rest) = some parsed := by
      rw [String.append_assoc]; exact hp
    simp [hp']

/-! ## A whole sweep -/

theorem runBase_append (rt : Runtime) (s : BaseState) (xs ys : List BaseEvent) :
    runBase rt s (xs ++ ys) = runBase rt (runBase rt s xs) ys := by
  simp [runBase, List.foldl_append]

theorem runBase_cons (rt : Runtime) (s : BaseState) (ev : BaseEvent) (rest : List BaseEvent) :
    runBase rt s (ev :: rest) = runBase rt (stepBase rt s ev) rest := rfl

theorem runBase_nil (rt : Runtime) (s : BaseState) : runBase rt s [] = s := rfl

/-- Calls made while a sweep is out only join those who wait for it. -/
theorem joins_run (rt : Runtime) (callers : List Nat) (m : BaseMeta) (u : String)
    (a : Option String) (r : List String) (w : List Nat) (f : List String)
    (ret : List (Nat × BaseMeta)) (h : m.source = "fallback") :
    runBase rt ⟨m, u, some ⟨a, r, w⟩, f, ret⟩ (callers.map BaseEvent.ensure) =
      ⟨m, u, some ⟨a, r, w ++ callers⟩, f, ret⟩ := by
  induction callers generalizing w with
  | nil => simp [runBase_nil]
  | cons c rest ih =>
    rw [List.map_cons, runBase_cons]
    have hstep : stepBase rt ⟨m, u, some ⟨a, r, w⟩, f, ret⟩ (.ensure c) =
        ⟨m, u, some ⟨a, r, w ++ [c]⟩, f, ret⟩ :=
      ensureApiBaseUrl_joins rt ⟨m, u, some ⟨a, r, w⟩, f, ret⟩ c ⟨a, r, w⟩ h rfl
    rw [hstep, ih (w ++ [c])]
    simp

/-- Health checks that fail one after the other, with hosts left to try. -/
theorem fails_then_awaits (rt : Runtime) (h : String) (post : List String) (pre : List String)
    (a : String) (m : BaseMeta) (u : String) (w : List Nat) (f : List String)
    (ret : List (Nat × BaseMeta)) :
    runBase rt ⟨m, u, some ⟨some a, pre ++ h :: post, w⟩, f, ret⟩
        ((a :: pre).map (fun _ => BaseEvent.answer false)) =
      ⟨m, u, some ⟨some h, post, w⟩, f ++ (pre ++ [h]).map (healthUrl rt), ret⟩ := by
  induction pre generalizing a f with
  | nil =>
    rw [List.map_cons, List.map_nil, runBase_cons, runBase_nil]
    exact probeAnswered_next rt ⟨m, u, some ⟨some a, [] ++ h :: post, w⟩, f, ret⟩
      ⟨some a, [] ++ h :: post, w⟩ a h post rfl rfl rfl
  | cons p rest ih =>
    rw [List.map_cons, runBase_cons]
    have hstep : stepBase rt ⟨m, u, some ⟨some a, (p :: rest) ++ h :: post, w⟩, f, ret⟩
        (.answer false) =
        ⟨m, u, some ⟨some p, rest ++ h :: post, w⟩, f ++ [healthUrl rt p], ret⟩ :=
      probeAnswered_next rt ⟨m, u, some ⟨some a, (p :: rest) ++ h :: post, w⟩, f, ret⟩
        ⟨some a, (p :: rest) ++ h :: post, w⟩ a p (rest ++ h :: post) rfl rfl rfl
    rw [hstep, ih p (f ++ [healthUrl rt p])]
    simp

/-- Health checks that fail down to the last host. -/
theorem fails_to_end (rt : Runtime) (tail : List String) (a : String) (m : BaseMeta)
    (u : String) (w : List Nat) (f : List String) (ret : List (Nat × BaseMeta)) :
    runBase rt ⟨m, u, some ⟨some a, tail, w⟩, f, ret⟩
        ((a :: tail).map (fun _ => BaseEvent.answer false)) =
      ⟨m, u, none, f ++ tail.map (healthUrl rt), ret ++ w.map (fun caller => (caller, m))⟩ := by
  induction tail generalizing a f with
  | nil =>
    rw [List.map_cons, List.map_nil, runBase_cons, runBase_nil]
    have hstep : stepBase rt ⟨m, u, some ⟨some a, [], w⟩, f, ret⟩ (.answer false) =
        finishProbe ⟨m, u, some ⟨some a, [], w⟩, f, ret⟩ w :=
      probeAnswered_last rt ⟨m, u, some ⟨some a, [], w⟩, f, ret⟩ ⟨some a, [], w⟩ a rfl rfl rfl
    rw [hstep]
    simp [finishProbe, getApiBaseMeta]
  | cons p rest ih =>
    rw [List.map_cons, runBase_cons]
    have hstep : stepBase rt ⟨m, u, some ⟨some a, p :: rest, w⟩, f, ret⟩ (.answer false) =
        ⟨m, u, some ⟨some p, rest, w⟩, f ++ [healthUrl rt p], ret⟩ :=
      probeAnswered_next rt ⟨m, u, some ⟨some a, p :: rest, w⟩, f, ret⟩ ⟨some a, p :: rest, w⟩
        a p rest rfl rfl rfl
    rw [hstep, ih p (f ++ [healthUrl rt p])]
    simp

/-- The state a successful answer leaves. -/
theorem success_state (rt : Runtime) (m : BaseMeta) (u : String) (r : List String)
    (w : List Nat) (f : List String) (ret : List (Nat × BaseMeta)) (h : String) :
    stepBase rt ⟨m, u, some ⟨some h, r, w⟩, f, ret⟩ (.answer true) =
      finishProbe (setApiBaseUrl ⟨m, u, none, f, ret⟩ (buildBaseUrlForHost rt h) "auto-probe")
        w := by
  have hstep : stepBase rt ⟨m, u, some ⟨some h, r, w⟩, f, ret⟩ (.answer true) =
      finishProbe (setApiBaseUrl ⟨m, u, some ⟨some h, r, w⟩, f, ret⟩
        (buildBaseUrlForHost rt h) "auto-probe") w :=
    probeAnswered_success rt ⟨m, u, some ⟨some h, r, w⟩, f, ret⟩ ⟨some h, r, w⟩ h rfl rfl
  rw [hstep]
  simp [finishProbe, setApiBaseUrl, getApiBaseMeta]

/-- A sweep that finds the host `h` after the hosts `pre` have failed, with
`callers` joining the first caller `c` while the first health check is out. -/
theorem sweep_succeeds (rt : Runtime) (s : BaseState) (c : Nat) (callers : List Nat)
    (pre post : List String) (h : String) (hfb : s.baseMeta.source = "fallback")
    (hidle : s.promise = none) (hosts : collectHostCandidates rt = pre ++ h :: post) :
    runBase rt s
        ([BaseEvent.ensure c] ++ callers.map BaseEvent.ensure ++
          pre.map (fun _ => BaseEvent.answer false) ++ [BaseEvent.answer true]) =
      finishProbe
        (setApiBaseUrl { s with fetched := s.fetched ++ (pre ++ [h]).map (healthUrl rt) }
          (buildBaseUrlForHost rt h) "auto-probe")
        (c :: callers) := by
  obtain ⟨m, u, p, f, ret⟩ := s
  simp only at hfb hidle
  subst hidle
  rw [runBase_append, runBase_append, runBase_append]
  cases pre with
  | nil =>
    simp only [List.nil_append] at hosts
    have e1 : runBase rt ⟨m, u, none, f, ret⟩ [BaseEvent.ensure c] =
        ⟨m, u, some ⟨some h, post, [c]⟩, f ++ [healthUrl rt h], ret⟩ :=
      ensureApiBaseUrl_starts rt ⟨m, u, none, f, ret⟩ c h post hfb rfl hosts
    rw [e1, joins_run rt callers m u (some h) post [c] _ ret hfb, List.map_nil, runBase_nil,
      runBase_cons, runBase_nil, success_state rt m u post ([c] ++ callers) _ ret h]
    simp
  | cons q pre' =>
    simp only [List.cons_append] at hosts
    have e1 : runBase rt ⟨m, u, none, f, ret⟩ [BaseEvent.ensure c] =
        ⟨m, u, some ⟨some q, pre' ++ h :: post, [c]⟩, f ++ [healthUrl rt q], ret⟩ :=
      ensureApiBaseUrl_starts rt ⟨m, u, none, f, ret⟩ c q (pre' ++ h :: post) hfb rfl hosts
    rw [e1, joins_run rt callers m u (some q) (pre' ++ h :: post) [c] _ ret hfb,
      fails_then_awaits rt h post pre' q m u ([c] ++ callers) _ ret, runBase_cons, runBase_nil,
      success_state rt m u post ([c] ++ callers) _ ret h]
    simp

/-- A sweep in which every health check fails. -/
theorem sweep_fails (rt : Runtime) (s : BaseState) (c : Nat) (callers : List Nat)
    (hfb : s.baseMeta.source = "fallback") (hidle : s.promise = none) :
    runBase rt s
        ([BaseEvent.ensure c] ++ callers.map BaseEvent.ensure ++
          (collectHostCandidates rt).map (fun _ => BaseEvent.answer false) ++
          [BaseEvent.settle]) =
      finishProbe
        { s with fetched := s.fetched ++ (collectHostCandidates rt).map (healthUrl rt) }
        (c :: callers) := by
  obtain ⟨m, u, p, f, ret⟩ := s
  simp only at hfb hidle
  subst hidle
  rw [runBase_append, runBase_append, runBase_append]
  cases hosts : collectHostCandidates rt with
  | nil =>
    have e1 : runBase rt ⟨m, u, none, f, ret⟩ [BaseEvent.ensure c] =
        ⟨m, u, some ⟨none, [], [c]⟩, f, ret⟩ :=
      ensureApiBaseUrl_nothing rt ⟨m, u, none, f, ret⟩ c hfb rfl hosts
    rw [e1, joins_run rt callers m u none [] [c] f ret hfb, List.map_nil, runBase_nil,
      runBase_cons, runBase_nil]
    simp [stepBase, probeSettled, finishProbe, getApiBaseMeta]
  | cons a tail =>
    have e1 : runBase rt ⟨m, u, none, f, ret⟩ [BaseEvent.ensure c] =
        ⟨m, u, some ⟨some a, tail, [c]⟩, f ++ [healthUrl rt a], ret⟩ :=
      ensureApiBaseUrl_starts rt ⟨m, u, none, f, ret⟩ c a tail hfb rfl hosts
    rw [e1, joins_run rt callers m u (some a) tail [c] _ ret hfb,
      fails_to_end rt tail a m u ([c] ++ callers) _ ret, runBase_cons, runBase_nil]
    simp [stepBase, probeSettled, finishProbe, getApiBaseMeta]

/-! ## The candidates and the sweep -/

theorem distinct_mem (l : List String) (x : String) : x ∈ distinct l → x ∈ l := by
  induction l with
  | nil => simp [distinct]
  | cons y rest ih =>
    intro hx
    simp only [distinct, List.mem_cons, List.mem_filter] at hx
    rcases hx with h | ⟨h, _⟩
    · exact h ▸ List.mem_cons_self _ _
    · exact List.mem_cons_of_mem _ (ih h)

theorem distinct_nodup (l : List String) : (distinct l).Nodup := by
  induction l with
  | nil => simp [distinct]
  | cons y rest ih =>
    simp only [distinct, List.nodup_cons, List.mem_filter, bne_self_eq_false, Bool.false_eq_true,
      and_false, not_false_eq_true, true_and]
    exact ih.filter _

theorem collectHostCandidates_spec (rt : Runtime) :
    (collectHostCandidates rt).Nodup ∧ ∀ h ∈ collectHostCandidates rt, h ≠ "" := by
  refine ⟨distinct_nodup _, fun h hh => ?_⟩
  have hm := distinct_mem _ h hh
  simp only [List.mem_filterMap] at hm
  obtain ⟨o, _, ho⟩ := hm
  cases o with
  | none => simp at ho
  | some x =>
    simp only at ho
    split at ho
    · simp at ho
    · next hx =>
      have : x = h := by simpa using ho
      rw [← this]
      exact hx

theorem healthUrl_eq (rt : Runtime) (h : String) :
    healthUrl rt h = "http://" ++ h ++ ":" ++ rt.API_PORT ++ "/api/health/" := by
  simp [healthUrl, HEALTH_PATH, API_ROOT_PATH, String.append_assoc]
  try rfl

theorem buildBaseUrlForHost_eq (rt : Runtime) (h : String) :
    buildBaseUrlForHost rt h = "http://" ++ h ++ ":" ++ rt.API_PORT ++ "/api" := rfl

/-- The fields of the state a successful sweep ends in. -/
theorem success_fields (rt : Runtime) (s : BaseState) (f : List String) (h : String)
    (w : List Nat) :
    (finishProbe (setApiBaseUrl { s with fetched := f } (buildBaseUrlForHost rt h) "auto-probe")
        w).fetched = f ∧
      (finishProbe (setApiBaseUrl { s with fetched := f } (buildBaseUrlForHost rt h) "auto-probe")
        w).baseMeta =
        { envBaseUrl := s.baseMeta.envBaseUrl
          autoDetectedBaseUrl := some (buildBaseUrlForHost rt h)
          resolvedBaseUrl := buildBaseUrlForHost rt h
          source := "auto-probe" } ∧
      (finishProbe (setApiBaseUrl { s with fetched := f } (buildBaseUrlForHost rt h) "auto-probe")
        w).baseURL = buildBaseUrlForHost rt h ++ "/" ∧
      (finishProbe (setApiBaseUrl { s with fetched := f } (buildBaseUrlForHost rt h) "auto-probe")
        w).promise = none ∧
      (finishProbe (setApiBaseUrl { s with fetched := f } (buildBaseUrlForHost rt h) "auto-probe")
        w).returned =
        s.returned ++ w.map (fun caller =>
          (caller,
            { envBaseUrl := s.baseMeta.envBaseUrl
              autoDetectedBaseUrl := some (buildBaseUrlForHost rt h)
              resolvedBaseUrl := buildBaseUrlForHost rt h
              source := "auto-probe" })) := by
  have hk := (buildBaseUrlForHost_kept rt h).2.1
  simp [finishProbe, setApiBaseUrl, getApiBaseMeta, hk]

/-! ## Once the base URL is resolved -/

/-- With a source other than "fallback" and no sweep out, a step only records
what a caller was given. -/
theorem stepBase_settled (rt : Runtime) (s : BaseState) (ev : BaseEvent)
    (h : s.baseMeta.source ≠ "fallback") (hp : s.promise = none) :
    (stepBase rt s ev).baseMeta = s.baseMeta ∧ (stepBase rt s ev).baseURL = s.baseURL ∧
      (stepBase rt s ev).fetched = s.fetched ∧ (stepBase rt s ev).promise = none := by
  cases ev with
  | ensure caller =>
    show (ensureApiBaseUrl rt s caller).baseMeta = _ ∧ (ensureApiBaseUrl rt s caller).baseURL = _ ∧
      (ensureApiBaseUrl rt s caller).fetched = _ ∧ (ensureApiBaseUrl rt s caller).promise = _
    rw [ensureApiBaseUrl_resolved rt s caller h]
    exact ⟨rfl, rfl, rfl, hp⟩
  | answer ok =>
    show (probeAnswered rt s ok).baseMeta = _ ∧ (probeAnswered rt s ok).baseURL = _ ∧
      (probeAnswered rt s ok).fetched = _ ∧ (probeAnswered rt s ok).promise = _
    rw [probeAnswered_idle rt s ok (Or.inl hp)]
    exact ⟨rfl, rfl, rfl, hp⟩
  | settle =>
    show (probeSettled s).baseMeta = _ ∧ (probeSettled s).baseURL = _ ∧
      (probeSettled s).fetched = _ ∧ (probeSettled s).promise = _
    have : probeSettled s = s := by
      unfold probeSettled
      rw [hp]
    rw [this]
    exact ⟨rfl, rfl, rfl, hp⟩

theorem runBase_settled (rt : Runtime) (events : List BaseEvent) (s : BaseState)
    (h : s.baseMeta.source ≠ "fallback") (hp : s.promise = none) :
    (runBase rt s events).baseMeta = s.baseMeta ∧ (runBase rt s events).baseURL = s.baseURL ∧
      (runBase rt s events).fetched = s.fetched ∧ (runBase rt s events).promise = none := by
  induction events generalizing s with
  | nil => exact ⟨rfl, rfl, rfl, hp⟩
  | cons ev rest ih =>
    rw [runBase_cons]
    obtain ⟨hm, hu, hf, hq⟩ := stepBase_settled rt s ev h hp
    obtain ⟨hm', hu', hf', hq'⟩ := ih (stepBase rt s ev) (by rw [hm]; exact h) hq
    exact ⟨hm'.trans hm, hu'.trans hu, hf'.trans hf, hq'⟩

/-- Calls made one after the other with a source other than "fallback". -/
theorem calls_resolved (rt : Runtime) (callers : List Nat) (s : BaseState)
    (h : s.baseMeta.source ≠ "fallback") :
    runBase rt s (callers.map BaseEvent.ensure) =
      { s with returned := s.returned ++ callers.map (fun caller => (caller, s.baseMeta)) } := by
  induction callers generalizing s with
  | nil => simp [runBase_nil]
  | cons c rest ih =>
    rw [List.map_cons, runBase_cons]
    have hstep : stepBase rt s (.ensure c) =
        { s with returned := s.returned ++ [(c, getApiBaseMeta s)] } :=
      ensureApiBaseUrl_resolved rt s c h
    rw [hstep, ih { s with returned := s.returned ++ [(c, getApiBaseMeta s)] } h]
    simp [getApiBaseMeta]

/-! # Results -/

/-- **C1**, as stated, fails.  Two requests are in flight, no refresh is, and
each of the two is answered 401; in the interleaving where the refresh call
started by the first 401 settles before the second 401 arrives, the second 401
finds the flag cleared and starts a refresh of its own: two calls of the
refresh endpoint are made.  And with one request, no call at all is made when
the session holds no refresh token, or when the request carries the retry
mark. -/
theorem late_401_starts_a_second_refresh :
    twoInFlight.isRefreshing = false ∧
      validRun whatwgPathname twoInFlight
        [.response { config := listTasks, kont := .caller } (.fail (some 401)),
          .response (refreshCallFor listTasks)
            (.ok (some { access := some "new", refresh := none })),
          .response { config := addTask, kont := .caller } (.fail (some 401))] = true ∧
      refreshCalls (run whatwgPathname twoInFlight
        [.response { config := listTasks, kont := .caller } (.fail (some 401)),
          .response (refreshCallFor listTasks)
            (.ok (some { access := some "new", refresh := none })),
          .response { config := addTask, kont := .caller } (.fail (some 401))]).log = 2 ∧
      accessOnly.isRefreshing = false ∧
      refreshCalls (responseErrorHandler whatwgPathname accessOnly (unauthorized listTasks)
        .caller).log = 0 ∧
      refreshCalls (responseErrorHandler whatwgPathname (signedIn localBase)
        (unauthorized { listTasks with retry := true }) .caller).log = 0 := by
  decide

/-- **C1** (amended).  Let N >= 1 requests, none marked as retried and none to
an auth endpoint, each be answered 401, in any order, all before the refresh
call settles, starting from a state with the flag cleared, an empty wait queue
and a refresh token `r`.  Then exactly one call of the refresh endpoint is
made, by the handler of the first 401; and when that call succeeds with the
access token `a`, each of the N requests is sent again with the header
`Bearer a`: the queued ones in the order of their 401s, then the first one,
which alone carries the retry mark. -/
theorem one_refresh_then_all_retried (URL : String → String → Option String) (s : ClientState)
    (first : Request) (rest : List Request) (r a : String) (rf : Option String)
    (hidle : s.isRefreshing = false) (hqueue : s.failedQueue = [])
    (htoken : s.authTokens.refreshToken = some r) (hr : r ≠ "") (ha : a ≠ "")
    (hfresh : ∀ q ∈ first :: rest,
      q.retry = false ∧ isAuthCriticalPath (normalizePath URL s.baseURL q.url) = false) :
    let call : Flight :=
      { config := requestInterceptor s.authTokens (refreshRequest (some r))
        kont := .driver { first with retry := true } (some r) .caller }
    let s' := run URL s
      ((first :: rest).map
          (fun q => Event.response { config := q, kont := .caller } (.fail (some 401))) ++
        [.response call (.ok (some { access := some a, refresh := rf }))])
    s'.log = s.log ++ [.sent call] ++
        rest.map (fun q => Effect.sent
          { config := { q with authorization := some ("Bearer " ++ a) }, kont := .caller }) ++
        [.sent { config := { first with retry := true, authorization := some ("Bearer " ++ a) }
                 kont := .caller }] ∧
      refreshCalls s'.log = refreshCalls s.log + 1 ∧
      s'.isRefreshing = false ∧ s'.failedQueue = [] := by
  intro call s'
  have hf := hfresh first (List.mem_cons_self _ _)
  have htruthy : truthy s.authTokens.refreshToken = true := by simp [htoken, truthy, hr]
  -- the first 401 starts the refresh
  have h1 : step URL s (.response { config := first, kont := .caller } (.fail (some 401))) =
      dispatch { s with inFlight := s.inFlight.erase { config := first, kont := .caller }
                        isRefreshing := true }
        (refreshRequest (some r)) (.driver { first with retry := true } (some r) .caller) := by
    simp only [step]
    rw [drive_refresh URL
      ({ s with inFlight := s.inFlight.erase { config := first, kont := .caller } })
      (.axios (some first) (some 401)) .caller rfl hf.1 hf.2 hidle htruthy]
    simp only [htoken, originalRequestOf]
  -- the others join the queue
  have h2 := queue_run URL rest
    (step URL s (.response { config := first, kont := .caller } (.fail (some 401))))
    (by rw [h1]; rfl)
    (by rw [h1]; exact fun q hq => hfresh q (List.mem_cons_of_mem _ hq))
  simp only at h2
  have hs' : s' = step URL
      (run URL (step URL s (.response { config := first, kont := .caller } (.fail (some 401))))
        (rest.map (fun q => Event.response { config := q, kont := .caller } (.fail (some 401)))))
      (.response call (.ok (some { access := some a, refresh := rf }))) := by
    simp only [s', List.map_cons, List.cons_append, run, List.foldl_cons, List.foldl_append,
      List.foldl_nil]
  -- the refresh call is answered
  have hlog : s'.log = s.log ++ [.sent call] ++
      rest.map (fun q => Effect.sent
        { config := { q with authorization := some ("Bearer " ++ a) }, kont := .caller }) ++
      [.sent { config := { first with retry := true, authorization := some ("Bearer " ++ a) }
               kont := .caller }] ∧ s'.isRefreshing = false ∧ s'.failedQueue = [] := by
    rw [hs']
    generalize run URL
      (step URL s (.response { config := first, kont := .caller } (.fail (some 401))))
      (rest.map (fun q => Event.response { config := q, kont := .caller } (.fail (some 401)))) = s2
      at h2 ⊢
    rw [h1] at h2
    simp only [dispatch_failedQueue, dispatch_log, dispatch_authTokens, dispatch_baseURL, hqueue,
      List.nil_append] at h2
    obtain ⟨_, hq2, hl2, _, _⟩ := h2
    simp only [step]
    rw [settleResolved_success _ _ _ (some { access := some a, refresh := rf }) (some r) .caller a
      rfl ha]
    refine ⟨?_, rfl, rfl⟩
    simp only [dispatch_log, onRefreshed_log, setAuthTokens_log, setAuthTokens_failedQueue,
      onRefreshed_authTokens, hl2, hq2, List.map_map]
    simp [Flight.stamped, requestInterceptor_setAuthTokens _ a _ _ ha, Function.comp_def, call]
  refine ⟨hlog.1, ?_, hlog.2.1, hlog.2.2⟩
  rw [hlog.1]
  simp only [refreshCalls, sends_append, sends_single_sent, List.filter_append, List.length_append,
    sends_map_sent]
  have hrest : (rest.map (fun q : Request =>
      ({ config := { q with authorization := some ("Bearer " ++ a) }, kont := .caller } : Flight))).filter
      (fun f => !f.kont.isCaller) = [] := by
    simp [List.filter_eq_nil_iff]
  rw [hrest]
  simp [call]

/-- Witness for `one_refresh_then_all_retried`: the task listing is answered
401 first, the task creation while the refresh is in flight. -/
theorem one_refresh_then_all_retried_witness :
    twoInFlight.isRefreshing = false ∧ twoInFlight.failedQueue = [] ∧
      twoInFlight.authTokens.refreshToken = some "r" ∧
      (∀ q ∈ [listTasks, addTask], q.retry = false ∧
        isAuthCriticalPath (normalizePath whatwgPathname twoInFlight.baseURL q.url) = false) ∧
      refreshCalls (run whatwgPathname twoInFlight
        ([listTasks, addTask].map
            (fun q => Event.response { config := q, kont := .caller } (.fail (some 401))) ++
          [.response (refreshCallFor listTasks)
            (.ok (some { access := some "new", refresh := none }))])).log = 1 :=
  ⟨by decide, by decide, by decide, by decide,
    (one_refresh_then_all_retried whatwgPathname twoInFlight listTasks [addTask] "r" "new" none
      (by decide) (by decide) (by decide) (by decide) (by decide) (by decide)).2.1⟩

/-- **C2.**  In every reachable state at most one handler is suspended at its
refresh call, hence at most one refresh call is outstanding, and the flag is
set as long as one is.  A turn that makes a call of the refresh endpoint makes
exactly one, starts from a state where the flag is cleared and ends in a state
where it is set. -/
theorem at_most_one_refresh_outstanding (URL : String → String → Option String)
    (s : ClientState) (h : Reachable URL s) :
    suspendedHandlers s ≤ 1 ∧ outstandingRefreshCalls s ≤ 1 ∧
      (0 < outstandingRefreshCalls s → s.isRefreshing = true) ∧
      ∀ ev : Event, ev.enabled s = true →
        refreshCalls (step URL s ev).log ≠ refreshCalls s.log →
        s.isRefreshing = false ∧ (step URL s ev).isRefreshing = true ∧
          refreshCalls (step URL s ev).log = refreshCalls s.log + 1 := by
  have hinv := singleFlight_reachable URL s h
  have hout : outstandingRefreshCalls s ≤ suspendedHandlers s := by
    have := outstanding_le s.inFlight
    simp only [outstandingRefreshCalls, suspendedHandlers]
    omega
  refine ⟨hinv.1, by have := hinv.1; omega, fun hpos => hinv.2 (by omega), ?_⟩
  intro ev hen
  exact (singleFlight_step URL s ev hinv hen).2

/-- Witness for `at_most_one_refresh_outstanding`: the state after
`sessionUntilRefresh` is reachable, and its one refresh call is outstanding. -/
theorem at_most_one_refresh_outstanding_witness :
    Reachable whatwgPathname
        (run whatwgPathname (initialState emptyStorage localBase) sessionUntilRefresh) ∧
      outstandingRefreshCalls
        (run whatwgPathname (initialState emptyStorage localBase) sessionUntilRefresh) = 1 ∧
      (run whatwgPathname (initialState emptyStorage localBase) sessionUntilRefresh).isRefreshing =
        true :=
  ⟨reachable_run whatwgPathname sessionUntilRefresh _ (Reachable.init _ _) (by decide),
    by decide,
    (at_most_one_refresh_outstanding whatwgPathname _
      (reachable_run whatwgPathname sessionUntilRefresh _ (Reachable.init _ _)
        (by decide))).2.2.1 (by decide)⟩

/-- **C3**, as stated, fails.  Under the base URL `https://api.example.com/` the
path of the login request is `/auth/token/`, which ends with none of the three
endpoints: on a 401 the handler neither notifies nor rejects, it marks the
request, sets the flag and calls the refresh endpoint.  In the same session a
401 answer to that refresh call puts the refresh request itself in the wait
queue. -/
theorem login_401_refreshes_under_override_base :
    statusOf (unauthorized loginRequest) = some 401 ∧
      normalizePath whatwgPathname overrideBase loginRequest.url = "/auth/token/" ∧
      (let s' := responseErrorHandler whatwgPathname (signedIn overrideBase)
          (unauthorized loginRequest) .caller
       s'.log = [.sent (refreshCallFor loginRequest)] ∧ s'.isRefreshing = true ∧
       s'.authTokens = (signedIn overrideBase).authTokens ∧
       (step whatwgPathname s'
          (.response (refreshCallFor loginRequest) (.fail (some 401)))).failedQueue =
        [refreshCallFor loginRequest]) := by
  decide

/-- **C3** (amended).  When the path of the request ends with one of
`/api/auth/token/refresh/`, `/api/auth/logout/`, `/api/auth/token/`, a 401
makes the handler run the unauthorized notification and reject with the
original error: the tokens are cleared, every listener is called, nothing is
sent, and the flag, the wait queue and the requests in flight are as before.
Whoever waits for the request (also a handler awaiting its own refresh call),
nothing is sent and nothing joins the wait queue. -/
theorem auth_critical_401_fails_fast (URL : String → String → Option String) (s : ClientState)
    (error : Err) (h401 : statusOf error = some 401)
    (hcritical :
      isAuthCriticalPath (normalizePath URL s.baseURL (originalRequestOf error).url) = true) :
    (let s' := responseErrorHandler URL s error .caller
     s'.log = s.log ++ notifyLog s.unauthorizedListeners ++
        [.rejected (originalRequestOf error) error] ∧
     s'.authTokens = { accessToken := none, refreshToken := none } ∧
     s'.authorization = none ∧ s'.inFlight = s.inFlight ∧
     s'.failedQueue = s.failedQueue ∧ s'.isRefreshing = s.isRefreshing) ∧
      ∀ k : Kont,
        let s' := responseErrorHandler URL s error k
        sends s'.log = sends s.log ∧ s'.inFlight = s.inFlight ∧
          (s'.failedQueue = s.failedQueue ∨ s'.failedQueue = []) :=
  ⟨fail_fast_caller URL s error h401 (Or.inr hcritical),
    fun k => fail_fast_any URL s error k h401 (Or.inr hcritical)⟩

/-- Witness for `auth_critical_401_fails_fast`: under the base URL
`http://localhost:8000/api/` the login request has the path `/api/auth/token/`. -/
theorem auth_critical_401_fails_fast_witness :
    statusOf (unauthorized loginRequest) = some 401 ∧
      isAuthCriticalPath (normalizePath whatwgPathname (signedIn localBase).baseURL
        (originalRequestOf (unauthorized loginRequest)).url) = true ∧
      (responseErrorHandler whatwgPathname (signedIn localBase) (unauthorized loginRequest)
        .caller).log =
        [.listenerCalled screenListener, .rejected loginRequest (unauthorized loginRequest)] :=
  ⟨by decide, by decide,
    (auth_critical_401_fails_fast whatwgPathname (signedIn localBase) (unauthorized loginRequest)
      (by decide) (by decide)).1.1⟩

/-- **C4**, as stated, fails.  When the refresh call is answered 401 (under the
base URL `http://localhost:8000/api/`), that response first goes through the
handler as a 401 on an auth endpoint, which runs the notification, and the
rejection then reaches the `catch` block of the driving handler, which runs it
again: the one registered listener is called twice. -/
theorem refresh_401_notifies_twice :
    (midRefresh localBase).unauthorizedListeners = [screenListener] ∧
      (step whatwgPathname (midRefresh localBase)
          (.response (refreshCallFor listTasks) (.fail (some 401)))).log =
        [.listenerCalled screenListener,
          .rejected addTask (unauthorized (refreshCallFor listTasks).config),
          .listenerCalled screenListener,
          .rejected { listTasks with retry := true }
            (unauthorized (refreshCallFor listTasks).config)] ∧
      (step whatwgPathname (midRefresh localBase)
          (.response (refreshCallFor listTasks) (.fail (some 401)))).log.count
        (.listenerCalled screenListener) = 2 := by
  decide

/-- **C4** (amended).  When the refresh call fails with anything but a 401, or
with a 401 on a path recognised as an auth endpoint, then: every queued waiter
is rejected with that same error (a waiter that is itself a suspended handler
has its rejection issued), the tokens are cleared, the driving request is
rejected with that error, nothing is sent, the queue is empty and the flag
false.  Each notification calls each registered listener once, whatever the
length of the queue; there is one notification when the failure is not a 401
and two when it is, the first made when the 401 passes through the handler as a
401 on an auth endpoint. -/
theorem refresh_failure_rejects_all (URL : String → String → Option String) (s : ClientState)
    (cfg o : Request) (c : Option String) (status : Option Nat)
    (hset : s.unauthorizedListeners.Nodup)
    (hsettles : status ≠ some 401 ∨
      isAuthCriticalPath (normalizePath URL s.baseURL cfg.url) = true) :
    let e := Err.axios (some cfg) status
    let s' := step URL s (.response { config := cfg, kont := .driver o c .caller } (.fail status))
    s'.log = s.log ++ (if status = some 401 then notifyLog s.unauthorizedListeners else []) ++
        (callerEntries s.failedQueue).map (fun f => .rejected f.config e) ++
        notifyLog s.unauthorizedListeners ++ [.rejected o e] ∧
      s'.ready = s.ready ++ (handlerEntries s.failedQueue).map (fun f => (f, e)) ∧
      s'.failedQueue = [] ∧ s'.isRefreshing = false ∧
      s'.authTokens = { accessToken := none, refreshToken := none } ∧ s'.authorization = none ∧
      sends s'.log = sends s.log ∧
      ∀ l ∈ s.unauthorizedListeners,
        s'.log.count (.listenerCalled l) =
          s.log.count (.listenerCalled l) + (if status = some 401 then 2 else 1) := by
  intro e s'
  have hlog : s'.log = s.log ++
      (if status = some 401 then notifyLog s.unauthorizedListeners else []) ++
      (callerEntries s.failedQueue).map (fun f => .rejected f.config e) ++
      notifyLog s.unauthorizedListeners ++ [.rejected o e] ∧
      s'.ready = s.ready ++ (handlerEntries s.failedQueue).map (fun f => (f, e)) ∧
      s'.failedQueue = [] ∧ s'.isRefreshing = false ∧
      s'.authTokens = { accessToken := none, refreshToken := none } ∧
      s'.authorization = none := by
    by_cases h401 : status = some 401
    · have hcrit : isAuthCriticalPath (normalizePath URL s.baseURL cfg.url) = true := by
        rcases hsettles with h | h
        · exact absurd h401 h
        · exact h
      simp only [s', step]
      rw [fail_fast URL _ (.axios (some cfg) status) _ (by simpa [statusOf] using h401)
        (Or.inr (by simpa [originalRequestOf] using hcrit))]
      simp [h401, originalRequestOf, e]
    · simp only [s', step]
      rw [pass_through URL _ (.axios (some cfg) status) _ (by simpa [statusOf] using h401)]
      simp [h401, originalRequestOf, e]
  refine ⟨hlog.1, hlog.2.1, hlog.2.2.1, hlog.2.2.2.1, hlog.2.2.2.2.1, hlog.2.2.2.2.2, ?_, ?_⟩
  · rw [hlog.1]
    by_cases h401 : status = some 401 <;> simp [h401]
  · intro l hl
    rw [hlog.1]
    have hone : s.unauthorizedListeners.count l = 1 := List.count_eq_one_of_mem hset hl
    by_cases h401 : status = some 401 <;>
      simp [h401, List.count_append, count_called_notifyLog, count_called_rejected, hone,
        List.count_cons]

/-- Witness for `refresh_failure_rejects_all`: the refresh call is answered 500. -/
theorem refresh_failure_rejects_all_witness :
    (midRefresh localBase).unauthorizedListeners.Nodup ∧
      ((some 500 : Option Nat) ≠ some 401 ∨
        isAuthCriticalPath (normalizePath whatwgPathname (midRefresh localBase).baseURL
          (refreshCallFor listTasks).config.url) = true) ∧
      (step whatwgPathname (midRefresh localBase)
          (.response (refreshCallFor listTasks) (.fail (some 500)))).log.count
        (.listenerCalled screenListener) = 1 :=
  ⟨by decide, Or.inl (by decide),
    (refresh_failure_rejects_all whatwgPathname (midRefresh localBase)
      (refreshCallFor listTasks).config { listTasks with retry := true } (some "r") (some 500)
      (by decide) (Or.inl (by decide))).2.2.2.2.2.2.2 screenListener (by decide)⟩

/-- **C5** at the failing input.  The task creation waited in the queue while
the refresh was in flight.  When the refresh succeeds it is sent again with
the new bearer token but without the retry mark; answered 401 a second time,
it is not failed: its handler runs no notification, sets the flag and calls
the refresh endpoint again. -/
theorem queued_request_is_resent_unmarked :
    ({ addTask with authorization := some "Bearer new" } : Request).retry = false ∧
    (step whatwgPathname (midRefresh localBase)
        (.response (refreshCallFor listTasks)
          (.ok (some { access := some "new", refresh := none })))).log =
      [.sent { config := { addTask with authorization := some "Bearer new" }, kont := .caller },
        .sent { config := { listTasks with authorization := some "Bearer new", retry := true },
                kont := .caller }] ∧
      (run whatwgPathname (midRefresh localBase)
        [.response (refreshCallFor listTasks)
            (.ok (some { access := some "new", refresh := none })),
          .response { config := { addTask with authorization := some "Bearer new" },
                      kont := .caller } (.fail (some 401))]).log =
      [.sent { config := { addTask with authorization := some "Bearer new" }, kont := .caller },
        .sent { config := { listTasks with authorization := some "Bearer new", retry := true },
                kont := .caller },
        .sent { config := { refreshRequest (some "r") with authorization := some "Bearer new" },
                kont := .driver { addTask with authorization := some "Bearer new", retry := true }
                  (some "r") .caller }] ∧
      (run whatwgPathname (midRefresh localBase)
        [.response (refreshCallFor listTasks)
            (.ok (some { access := some "new", refresh := none })),
          .response { config := { addTask with authorization := some "Bearer new" },
                      kont := .caller } (.fail (some 401))]).isRefreshing = true ∧
      validRun whatwgPathname (midRefresh localBase)
        [.response (refreshCallFor listTasks)
            (.ok (some { access := some "new", refresh := none })),
          .response { config := { addTask with authorization := some "Bearer new" },
                      kont := .caller } (.fail (some 401))] = true := by
  decide

/-- **C6.**  A 401 on a request already marked as retried makes the handler run
the unauthorized notification and reject with the original error: the tokens
are cleared, every listener is called, nothing is sent (so no refresh call),
and the flag, the wait queue and the requests in flight are as before.
Whoever waits for the request, nothing is sent and nothing joins the wait
queue. -/
theorem retried_401_fails_fast (URL : String → String → Option String) (s : ClientState)
    (error : Err) (h401 : statusOf error = some 401)
    (hretry : (originalRequestOf error).retry = true) :
    (let s' := responseErrorHandler URL s error .caller
     s'.log = s.log ++ notifyLog s.unauthorizedListeners ++
        [.rejected (originalRequestOf error) error] ∧
     s'.authTokens = { accessToken := none, refreshToken := none } ∧
     s'.authorization = none ∧ s'.inFlight = s.inFlight ∧
     s'.failedQueue = s.failedQueue ∧ s'.isRefreshing = s.isRefreshing) ∧
      ∀ k : Kont,
        let s' := responseErrorHandler URL s error k
        sends s'.log = sends s.log ∧ s'.inFlight = s.inFlight ∧
          (s'.failedQueue = s.failedQueue ∨ s'.failedQueue = []) :=
  ⟨fail_fast_caller URL s error h401 (Or.inl hretry),
    fun k => fail_fast_any URL s error k h401 (Or.inl hretry)⟩

/-- Witness for `retried_401_fails_fast`: a retried task listing answered 401. -/
theorem retried_401_fails_fast_witness :
    statusOf (unauthorized { listTasks with retry := true }) = some 401 ∧
      (originalRequestOf (unauthorized { listTasks with retry := true })).retry = true ∧
      (responseErrorHandler noURL (signedIn localBase)
        (unauthorized { listTasks with retry := true }) .caller).log =
        [.listenerCalled screenListener,
          .rejected { listTasks with retry := true }
            (unauthorized { listTasks with retry := true })] :=
  ⟨by decide, by decide,
    (retried_401_fails_fast noURL (signedIn localBase)
      (unauthorized { listTasks with retry := true }) (by decide) (by decide)).1.1⟩

/-- **C7.**  When a request drives the refresh and the refresh token is null,
nothing is sent: every queued waiter is rejected with the "refresh token
missing" error (a waiter that is itself a suspended handler has its rejection
issued), the notification runs (tokens cleared, header removed, every listener
called), the request, now marked as retried, is rejected with that same error,
and the flag ends false with an empty queue. -/
theorem missing_refresh_token_fails_at_once (URL : String → String → Option String)
    (s : ClientState) (error : Err) (h401 : statusOf error = some 401)
    (hfresh : (originalRequestOf error).retry = false)
    (hpath : isAuthCriticalPath (normalizePath URL s.baseURL (originalRequestOf error).url) = false)
    (hidle : s.isRefreshing = false) (htoken : s.authTokens.refreshToken = none) :
    let s' := responseErrorHandler URL s error .caller
    s'.log = s.log ++
        (callerEntries s.failedQueue).map (fun f => .rejected f.config .refreshTokenMissing) ++
        notifyLog s.unauthorizedListeners ++
        [.rejected { originalRequestOf error with retry := true } .refreshTokenMissing] ∧
      s'.ready = s.ready ++ (handlerEntries s.failedQueue).map (fun f => (f, .refreshTokenMissing)) ∧
      s'.inFlight = s.inFlight ∧
      s'.authTokens = { accessToken := none, refreshToken := none } ∧ s'.authorization = none ∧
      s'.failedQueue = [] ∧ s'.isRefreshing = false := by
  have htruthy : truthy s.authTokens.refreshToken = false := by rw [htoken]; rfl
  simp [drive_without_token URL s error .caller h401 hfresh hpath hidle htruthy]

/-- Witness for `missing_refresh_token_fails_at_once`: a task listing answered
401 in a session that holds an access token only. -/
theorem missing_refresh_token_fails_at_once_witness :
    statusOf (unauthorized listTasks) = some 401 ∧
      (originalRequestOf (unauthorized listTasks)).retry = false ∧
      isAuthCriticalPath (normalizePath whatwgPathname accessOnly.baseURL
        (originalRequestOf (unauthorized listTasks)).url) = false ∧
      accessOnly.isRefreshing = false ∧ accessOnly.authTokens.refreshToken = none ∧
      (responseErrorHandler whatwgPathname accessOnly (unauthorized listTasks) .caller).log =
        [.listenerCalled screenListener,
          .rejected { listTasks with retry := true } .refreshTokenMissing] :=
  ⟨by decide, by decide, by decide, by decide, by decide,
    (missing_refresh_token_fails_at_once whatwgPathname accessOnly (unauthorized listTasks)
      (by decide) (by decide) (by decide) (by decide) (by decide)).1⟩

/-- **C8**, as stated, fails.  A refresh response whose `refresh` field is the
empty string is a field the backend returned, so `??` keeps it, and
`setAuthTokens` then turns it into null: the refresh token `r` is lost and no
new one is held. -/
theorem empty_refresh_field_drops_refresh_token :
    (midRefresh localBase).authTokens.refreshToken = some "r" ∧
      (step whatwgPathname (midRefresh localBase)
        (.response (refreshCallFor listTasks)
          (.ok (some { access := some "new", refresh := some "" })))).authTokens =
        { accessToken := some "new", refreshToken := none } := by
  decide

/-- **C8** (amended).  After a successful refresh response `{access, refresh?}`
received by the handler whose refresh token was `r`: the access token held is
the returned one, and so is the default header; the refresh token held is the
returned one when that is a non-empty string, `r` when the response has no
`refresh` field (absent or null), and null when the field is the empty string. -/
theorem refresh_success_stores_tokens (URL : String → String → Option String) (s : ClientState)
    (req o : Request) (n : Kont) (r a : String) (rf : Option String) (ha : a ≠ "")
    (hr : r ≠ "") :
    let s' := step URL s (.response { config := req, kont := .driver o (some r) n }
      (.ok (some { access := some a, refresh := rf })))
    s'.authTokens.accessToken = some a ∧ s'.authorization = some ("Bearer " ++ a) ∧
      s'.authTokens.refreshToken =
        (match rf with
          | none => some r
          | some x => if x = "" then none else some x) ∧
      s'.storage = persistTokens s.storage (.str a) (JsVal.ofOption s'.authTokens.refreshToken) := by
  simp only [step]
  rw [settleResolved_success _ req o (some { access := some a, refresh := rf }) (some r) n a rfl
    ha]
  simp only [dispatch_authTokens, onRefreshed_authTokens, dispatch_authorization,
    onRefreshed_authorization, dispatch_storage, onRefreshed_storage]
  cases rf with
  | none =>
    have h := setAuthTokens_tokens
      ({ s with inFlight := s.inFlight.erase { config := req, kont := .driver o (some r) n } })
      a (.str r) ha
    exact ⟨h.1, h.2.1, h.2.2.1.trans (by simp [JsVal.orNull, hr]), h.2.2.2⟩
  | some x =>
    have h := setAuthTokens_tokens
      ({ s with inFlight := s.inFlight.erase { config := req, kont := .driver o (some r) n } })
      a (.str x) ha
    exact ⟨h.1, h.2.1, h.2.2.1.trans (by by_cases hx : x = "" <;> simp [JsVal.orNull, hx]),
      h.2.2.2⟩

/-- Witness for `refresh_success_stores_tokens`: the backend rotates the refresh token. -/
theorem refresh_success_stores_tokens_witness :
    "new" ≠ "" ∧ "r" ≠ "" ∧
      (step whatwgPathname (midRefresh localBase)
        (.response (refreshCallFor listTasks)
          (.ok (some { access := some "new", refresh := some "r2" })))).authTokens.refreshToken =
        some "r2" :=
  ⟨by decide, by decide,
    (refresh_success_stores_tokens whatwgPathname (midRefresh localBase)
      (refreshCallFor listTasks).config { listTasks with retry := true } .caller "r" "new"
      (some "r2") (by decide) (by decide)).2.2.1⟩

/-- **C9** at the failing input.  On a platform without a usable `URL` the path
of the refresh request is computed as `/auth/token/refresh/`, which is not
recognised as an auth endpoint.  When the refresh call is answered 401 while
the task creation waits in the queue, the refresh request joins the queue
itself: nothing is rejected, nobody is notified, nothing is in flight and the
flag stays set.  From then on, whatever requests are issued and however they
are answered, the flag stays set and the task creation stays in the queue. -/
theorem refresh_401_without_URL_parks_the_queue :
    normalizePath noURL localBase (refreshCallFor listTasks).config.url = "/auth/token/refresh/" ∧
      step noURL (midRefresh localBase)
        (.response (refreshCallFor listTasks) (.fail (some 401))) = stalled ∧
      stalled.log = [] ∧ stalled.inFlight = [] ∧ stalled.isRefreshing = true ∧
      ∀ events : List Event, validRun noURL stalled events = true →
        (run noURL stalled events).isRefreshing = true ∧
          { config := addTask, kont := .caller } ∈ (run noURL stalled events).failedQueue := by
  refine ⟨by decide, by decide, by decide, by decide, by decide, ?_⟩
  intro events hvalid
  have h := parked_run noURL events stalled (by decide) (by decide) (by decide) hvalid
  exact ⟨h.1, h.2.subset (by decide)⟩

/-- **C10** fails when the refresh call is answered 401 on a path that is not
recognised as an auth endpoint.  On a platform without a usable `URL` the path
of the refresh request is computed as `/auth/token/refresh/`.  In the state
reached by `sessionUntilRefresh` the handler of the task listing awaits the
refresh call; when that call is answered 401 its own handler queues it, the
driving handler is never resumed, and the flag stays set with two entries in
the wait queue and nothing in flight.  From then on the flag stays set
whatever happens: a further request answered 401 joins the queue, and the
refresh call that was refused stays the only one made.  Where the driving
handler is resumed (any other outcome), the flag is false and the queue empty
afterwards. -/
theorem refresh_401_unrecognised_keeps_the_flag_set :
    Reachable noURL (run noURL (initialState emptyStorage localBase) sessionUntilRefresh) ∧
      (run noURL (initialState emptyStorage localBase) sessionUntilRefresh).inFlight =
        [refreshCallFor listTasks] ∧
      normalizePath noURL localBase (refreshCallFor listTasks).config.url =
        "/auth/token/refresh/" ∧
      isAuthCriticalPath (normalizePath noURL localBase (refreshCallFor listTasks).config.url) =
        false ∧
      (step noURL (run noURL (initialState emptyStorage localBase) sessionUntilRefresh)
        (.response (refreshCallFor listTasks) (.fail (some 401)))).isRefreshing = true ∧
      (step noURL (run noURL (initialState emptyStorage localBase) sessionUntilRefresh)
        (.response (refreshCallFor listTasks) (.fail (some 401)))).failedQueue =
        [{ config := addTask, kont := .caller }, refreshCallFor listTasks] ∧
      (step noURL (run noURL (initialState emptyStorage localBase) sessionUntilRefresh)
        (.response (refreshCallFor listTasks) (.fail (some 401)))).inFlight = [] ∧
      (∀ events : List Event,
        validRun noURL
            (step noURL (run noURL (initialState emptyStorage localBase) sessionUntilRefresh)
              (.response (refreshCallFor listTasks) (.fail (some 401)))) events = true →
        (run noURL
            (step noURL (run noURL (initialState emptyStorage localBase) sessionUntilRefresh)
              (.response (refreshCallFor listTasks) (.fail (some 401)))) events).isRefreshing =
          true) ∧
      refreshCalls
          (run noURL
            (step noURL (run noURL (initialState emptyStorage localBase) sessionUntilRefresh)
              (.response (refreshCallFor listTasks) (.fail (some 401))))
            [.request { removeTask with authorization := none },
              .response { config := removeTask, kont := .caller } (.fail (some 401))]).log =
        1 ∧
      (run noURL
          (step noURL (run noURL (initialState emptyStorage localBase) sessionUntilRefresh)
            (.response (refreshCallFor listTasks) (.fail (some 401))))
          [.request { removeTask with authorization := none },
            .response { config := removeTask, kont := .caller } (.fail (some 401))]).failedQueue =
        [{ config := addTask, kont := .caller }, refreshCallFor listTasks,
          { config := removeTask, kont := .caller }] ∧
      ∀ (URL : String → String → Option String) (s : ClientState) (cfg o : Request)
        (c : Option String) (n : Kont),
        (∀ data : Option ResponseData,
          (step URL s (.response { config := cfg, kont := .driver o c n } (.ok data))).isRefreshing =
              false ∧
            (step URL s
              (.response { config := cfg, kont := .driver o c n } (.ok data))).failedQueue = []) ∧
          (∀ status : Option Nat,
            status ≠ some 401 ∨ isAuthCriticalPath (normalizePath URL s.baseURL cfg.url) = true →
            (step URL s
                (.response { config := cfg, kont := .driver o c n } (.fail status))).isRefreshing =
                false ∧
              (step URL s
                (.response { config := cfg, kont := .driver o c n } (.fail status))).failedQueue =
                []) ∧
          ∀ (error : Err) (k : Kont), statusOf error = some 401 →
            (originalRequestOf error).retry = false →
            isAuthCriticalPath (normalizePath URL s.baseURL (originalRequestOf error).url) =
              false →
            s.isRefreshing = false → truthy s.authTokens.refreshToken = false →
            (responseErrorHandler URL s error k).isRefreshing = false ∧
              (responseErrorHandler URL s error k).failedQueue = [] := by
  refine ⟨reachable_run noURL sessionUntilRefresh _ (Reachable.init _ _) (by decide), by decide,
    by decide, by decide, by decide, by decide, by decide, fun events hvalid => ?_, by decide,
    by decide, fun URL s cfg o c n => ?_⟩
  · exact (parked_run noURL events _ (by decide) (by decide) (by decide) hvalid).1
  · obtain ⟨h1, h2, h3, _⟩ := driver_ends_idle URL s cfg o c n
    exact ⟨h1, h2, h3⟩

/-- **C11.**  In every state the client can be in: (1) a turn that is not the
answer to the refresh call lets nobody out of the wait queue, a request that
joins it joins at its end; (2) when the refresh call is answered with an access
token, the queued requests are sent again in the order of the queue, each with
the new token, ahead of the request that drove the refresh; (3) when the
refresh call fails, with anything but a 401 or with a 401 the handler fails
fast, the queued requests are rejected in the order of the queue, ahead of the
request that drove the refresh; (4) likewise when the refresh call is answered
without an access token.  Each time the queue is empty afterwards. -/
theorem wait_queue_is_first_in_first_out (URL : String → String → Option String)
    (s : ClientState) (h : Reachable URL s) :
    (∀ ev : Event, ev.enabled s = true → (∀ f r, ev = .response f r → f.kont = .caller) →
        s.failedQueue <+: (step URL s ev).failedQueue) ∧
      (∀ (f : Flight) (o : Request) (c : Option String) (n : Kont) (data : Option ResponseData)
          (a : String), f ∈ s.inFlight → f.kont = .driver o c n →
          data.bind (fun d => d.access) = some a → a ≠ "" →
        sends (step URL s (.response f (.ok data))).log =
            sends s.log ++
              s.failedQueue.map (fun q =>
                { config := { q.config with authorization := some ("Bearer " ++ a) }
                  kont := q.kont }) ++
              [{ config := { o with authorization := some ("Bearer " ++ a) }, kont := n }] ∧
          (step URL s (.response f (.ok data))).failedQueue = []) ∧
      (∀ (f : Flight) (o : Request) (c : Option String) (n : Kont) (status : Option Nat),
          f ∈ s.inFlight → f.kont = .driver o c n →
          (status ≠ some 401 ∨ f.config.retry = true ∨
            isAuthCriticalPath (normalizePath URL s.baseURL f.config.url) = true) →
        rejections (step URL s (.response f (.fail status))).log =
            rejections s.log ++
              s.failedQueue.map (fun q => (q.config, Err.axios (some f.config) status)) ++
              [(o, Err.axios (some f.config) status)] ∧
          (step URL s (.response f (.fail status))).failedQueue = []) ∧
      (∀ (f : Flight) (o : Request) (c : Option String) (n : Kont) (data : Option ResponseData),
          f ∈ s.inFlight → f.kont = .driver o c n →
          truthy (data.bind (fun d => d.access)) = false →
        rejections (step URL s (.response f (.ok data))).log =
            rejections s.log ++ s.failedQueue.map (fun q => (q.config, Err.accessTokenMissing)) ++
              [(o, Err.accessTokenMissing)] ∧
          (step URL s (.response f (.ok data))).failedQueue = []) := by
  have hsf := singleFlight_reachable URL s h
  have htidy := (reachable_tidy URL s h).2
  have hready := reachable_ready URL s h
  refine ⟨fun ev _ hcaller => waiting_step URL s ev htidy hready hcaller, ?_, ?_, ?_⟩
  · intro f o c n data a _ hk hda ha
    have hstep : step URL s (.response f (.ok data)) =
        settleResolved { s with inFlight := s.inFlight.erase f } f.config data (.driver o c n) := by
      simp only [step, hk]
    rw [hstep, settleResolved_success _ f.config o data c n a hda ha]
    simp only [dispatch_log, onRefreshed_log, setAuthTokens_log, dispatch_failedQueue,
      onRefreshed_failedQueue, onRefreshed_authTokens, setAuthTokens_failedQueue, sends_append,
      sends_sent, sends_single_sent, requestInterceptor_setAuthTokens _ a _ _ ha, and_true]
    congr 2
    apply List.map_congr_left
    intro q _
    simp only [Flight.stamped, requestInterceptor_setAuthTokens _ a _ _ ha]
  · intro f o c n status hf hk hsettles
    have hframes := framesOf_erase s.inFlight f hf
    have hle := hsf.1
    simp only [suspendedHandlers] at hle
    have hkf : f.kont.frames = n.frames + 1 := by rw [hk]; rfl
    have hn : n = .caller := frames_zero n (by omega)
    have hq : callerEntries s.failedQueue = s.failedQueue := callerEntries_all _ (by omega)
    subst hn
    have hstep : step URL s (.response f (.fail status)) =
        responseErrorHandler URL { s with inFlight := s.inFlight.erase f }
          (.axios (some f.config) status) (.driver o c .caller) := by
      simp only [step, hk]
    rw [hstep]
    by_cases h401 : status = some 401
    · have hfast : f.config.retry = true ∨
          isAuthCriticalPath (normalizePath URL s.baseURL f.config.url) = true := by
        rcases hsettles with h1 | h2
        · exact absurd h401 h1
        · exact h2
      rw [fail_fast URL _ (.axios (some f.config) status) _ (by simpa [statusOf] using h401)
        (by simpa [originalRequestOf] using hfast)]
      simp [originalRequestOf, hq, rejections_map_rejected, rejections]
    · rw [pass_through URL _ (.axios (some f.config) status) _ (by simpa [statusOf] using h401)]
      simp [originalRequestOf, hq, rejections_map_rejected, rejections]
  · intro f o c n data hf hk hacc
    have hframes := framesOf_erase s.inFlight f hf
    have hle := hsf.1
    simp only [suspendedHandlers] at hle
    have hkf : f.kont.frames = n.frames + 1 := by rw [hk]; rfl
    have hn : n = .caller := frames_zero n (by omega)
    have hq : callerEntries s.failedQueue = s.failedQueue := callerEntries_all _ (by omega)
    subst hn
    have hstep : step URL s (.response f (.ok data)) =
        settleResolved { s with inFlight := s.inFlight.erase f } f.config data
          (.driver o c .caller) := by
      simp only [step, hk]
    rw [hstep, settleResolved_noAccess _ f.config o data c .caller hacc]
    simp [hq, rejections_map_rejected, rejections]

/-- Witness for `wait_queue_is_first_in_first_out`: the task creation and the
task removal wait in the queue, in that order, while the refresh call driven by
the task listing is out; when it is answered with the token "new" the creation
is sent again first, then the removal, then the listing. -/
theorem wait_queue_is_first_in_first_out_witness :
    Reachable whatwgPathname
        (run whatwgPathname (initialState emptyStorage localBase) sessionWithTwoQueued) ∧
      (run whatwgPathname (initialState emptyStorage localBase) sessionWithTwoQueued).failedQueue =
        [{ config := addTask, kont := .caller }, { config := removeTask, kont := .caller }] ∧
      sends (step whatwgPathname
          (run whatwgPathname (initialState emptyStorage localBase) sessionWithTwoQueued)
          (.response (refreshCallFor listTasks)
            (.ok (some { access := some "new", refresh := none })))).log =
        [{ config := listTasks, kont := .caller },
          { config := addTask, kont := .caller },
          refreshCallFor listTasks,
          { config := removeTask, kont := .caller },
          { config := { addTask with authorization := some "Bearer new" }, kont := .caller },
          { config := { removeTask with authorization := some "Bearer new" }, kont := .caller },
          { config := { listTasks with authorization := some "Bearer new", retry := true },
            kont := .caller }] :=
  ⟨reachable_run whatwgPathname sessionWithTwoQueued _ (Reachable.init _ _) (by decide),
    by decide,
    ((wait_queue_is_first_in_first_out whatwgPathname _
      (reachable_run whatwgPathname sessionWithTwoQueued _ (Reachable.init _ _) (by decide))).2.1
      (refreshCallFor listTasks) { listTasks with retry := true } (some "r") .caller
      (some { access := some "new", refresh := none }) "new" (by decide) rfl rfl
      (by decide)).1⟩

/-- **C12.**  An error whose status is not 401, a transport failure without a
response included, is rejected by the response handler as it is: the issuer of
the request gets that same error, and nothing else changes, so tokens, header,
store, flag, wait queue and listeners are as before, nothing is sent and no
listener is called.  Whoever waits for the request, the handler hands the
error on in the state it found.  A successful response reaches the issuer with
the data unchanged, and nothing else changes but the request leaving the
requests in flight; a handler that waits for the response gets the same data. -/
theorem other_errors_and_successes_pass_through (URL : String → String → Option String)
    (s : ClientState) (error : Err) (h : statusOf error ≠ some 401) :
    responseErrorHandler URL s error .caller =
        { s with log := s.log ++ [.rejected (originalRequestOf error) error] } ∧
      (∀ k : Kont, responseErrorHandler URL s error k =
        settleRejected s (originalRequestOf error) error k) ∧
      (∀ (f : Flight) (data : Option ResponseData), f.kont = .caller →
        step URL s (.response f (.ok data)) =
          { s with inFlight := s.inFlight.erase f, log := s.log ++ [.resolved f.config data] }) ∧
      (∀ (f : Flight) (data : Option ResponseData),
        step URL s (.response f (.ok data)) =
          settleResolved { s with inFlight := s.inFlight.erase f } f.config data f.kont) := by
  refine ⟨?_, fun k => pass_through URL s error k h, ?_, fun _ _ => rfl⟩
  · rw [pass_through URL s error .caller h]
    rfl
  · intro f data hk
    simp only [step, hk]
    rfl

/-- Witness for `other_errors_and_successes_pass_through`: a transport failure
of the task creation in the middle of a refresh. -/
theorem other_errors_and_successes_pass_through_witness :
    statusOf (.axios (some addTask) none) ≠ some 401 ∧
      responseErrorHandler whatwgPathname (midRefresh localBase) (.axios (some addTask) none)
          .caller =
        { midRefresh localBase with log := [.rejected addTask (.axios (some addTask) none)] } :=
  ⟨by decide,
    (other_errors_and_successes_pass_through whatwgPathname (midRefresh localBase)
      (.axios (some addTask) none) (by decide)).1⟩

/-- **C13.**  `notifyUnauthorized` first runs `clearAuthTokens` (tokens null,
header removed, the store through `clearStoredTokens`, no listener called yet)
and then goes through the registered listeners: every listener is called with
the tokens cleared, the calls made are exactly the registered listeners, each
once and in their order, whichever of them throw; a listener that throws gets a
warning and the loop goes on to the rest, and `notifyUnauthorized` returns with
the tokens null and the header absent.  On a working store `getStoredTokens`
returns null afterwards. -/
theorem notifyUnauthorized_clears_then_calls_everyone (s : ClientState) :
    ((clearAuthTokens s).storage = clearStoredTokens s.storage ∧
        (clearAuthTokens s).log = s.log ∧
        (clearAuthTokens s).unauthorizedListeners = s.unauthorizedListeners) ∧
      (∀ (before after : List Listener) (l : Listener),
        s.unauthorizedListeners = before ++ l :: after →
        (before.foldl callListener (clearAuthTokens s)).authTokens =
            { accessToken := none, refreshToken := none } ∧
          (before.foldl callListener (clearAuthTokens s)).authorization = none ∧
          notifyUnauthorized s =
            after.foldl callListener
              (callListener (before.foldl callListener (clearAuthTokens s)) l)) ∧
      (notifyUnauthorized s).log = s.log ++ notifyLog s.unauthorizedListeners ∧
      calls (notifyLog s.unauthorizedListeners) = s.unauthorizedListeners ∧
      (s.unauthorizedListeners.Nodup → ∀ l ∈ s.unauthorizedListeners,
        (calls (notifyLog s.unauthorizedListeners)).count l = 1) ∧
      (∀ l ∈ s.unauthorizedListeners, l.throws = true →
        Effect.listenerWarned l ∈ notifyLog s.unauthorizedListeners) ∧
      (notifyUnauthorized s).authTokens = { accessToken := none, refreshToken := none } ∧
      (notifyUnauthorized s).authorization = none ∧
      (s.storage.working = true → (getStoredTokens (notifyUnauthorized s).storage).1 = none) := by
  refine ⟨⟨clearAuthTokens_storage s, by simp, by simp⟩, ?_, notifyUnauthorized_log s,
    calls_notifyLog _, ?_, fun l hl ht => warned_of_throws _ l hl ht,
    notifyUnauthorized_authTokens s, notifyUnauthorized_authorization s, ?_⟩
  · intro before after l hsplit
    have hloop := listeners_loop before (clearAuthTokens s) ⟨rfl, rfl⟩
    refine ⟨hloop.1, hloop.2.1, ?_⟩
    have hls : (clearAuthTokens s).unauthorizedListeners = before ++ l :: after := by
      rw [← hsplit]
      simp
    unfold notifyUnauthorized
    simp only [hls, List.foldl_append, List.foldl_cons]
  · intro hnodup l hl
    rw [calls_notifyLog]
    exact List.count_eq_one_of_mem hnodup hl
  · intro hw
    have hc := clearStoredTokens_working s.storage hw
    have hkeep := listeners_keep_store_cleared s.unauthorizedListeners (clearAuthTokens s)
      (by rw [clearAuthTokens_storage]; exact ⟨hc.1, hc.2.1, hc.2.2.1⟩)
    have hn : notifyUnauthorized s =
        s.unauthorizedListeners.foldl callListener (clearAuthTokens s) := by
      unfold notifyUnauthorized
      simp
    rw [hn, (getStoredTokens_working _ hkeep.1).1, hkeep.2.1, hkeep.2.2]
    rfl

/-- **C14.**  In every state the client can be in, the request interceptor
puts `Bearer <access token>` on the config when the current access token is
not null, whatever `Authorization` the config carried, and returns the config
as it is when the access token is null; a request goes out as the interceptor
returns it. -/
theorem request_carries_current_token (URL : String → String → Option String)
    (s : ClientState) (h : Reachable URL s) (config : Request) :
    (∀ t, s.authTokens.accessToken = some t →
        requestInterceptor s.authTokens config =
          { config with authorization := some ("Bearer " ++ t) }) ∧
      (s.authTokens.accessToken = none → requestInterceptor s.authTokens config = config) ∧
      (step URL s (.request config)).inFlight =
        s.inFlight ++ [{ config := requestInterceptor s.authTokens config, kont := .caller }] := by
  have hwf := reachable_wellFormed URL s h
  refine ⟨?_, ?_, ?_⟩
  · intro t ht
    have hne : t ≠ "" := fun e => hwf.1 (by rw [ht, e])
    simp [requestInterceptor, ht, hne]
  · intro hnone
    simp [requestInterceptor, hnone]
  · simp [step]

/-- Witness for `request_carries_current_token`: after signing in with the
access token "old", a request that carries a header of its own goes out with
`Bearer old`. -/
theorem request_carries_current_token_witness :
    Reachable whatwgPathname (run whatwgPathname (initialState emptyStorage localBase) signIn) ∧
      requestInterceptor
          (run whatwgPathname (initialState emptyStorage localBase) signIn).authTokens
          { removeTask with authorization := some "Basic dXNlcg==" } =
        { removeTask with authorization := some "Bearer old" } :=
  ⟨reachable_run whatwgPathname signIn _ (Reachable.init _ _) (by decide),
    (request_carries_current_token whatwgPathname _
      (reachable_run whatwgPathname signIn _ (Reachable.init _ _) (by decide))
      { removeTask with authorization := some "Basic dXNlcg==" }).1 "old" (by decide)⟩

/-- **C15.**  A partial update keeps the other field: after
`setAuthTokens({accessToken: a})`, whatever `a` is, `getAuthTokens()` returns
the prior refresh token, and after `setAuthTokens({refreshToken: b})` the prior
access token.  Field by field: omitted or undefined keeps the prior value, null
and the empty string give null, a non-empty string is taken as it is. -/
theorem partial_update_keeps_other_field (s : ClientState) :
    (∀ a : JsVal,
        (getAuthTokens (setAuthTokens s a .undefined)).refreshToken = s.authTokens.refreshToken) ∧
      (∀ b : JsVal,
        (getAuthTokens (setAuthTokens s .undefined b)).accessToken = s.authTokens.accessToken) ∧
      (∀ a b : JsVal,
        (getAuthTokens (setAuthTokens s a b)).accessToken =
            (match a with
              | .undefined => s.authTokens.accessToken
              | .null => none
              | .str t => if t = "" then none else some t) ∧
          (getAuthTokens (setAuthTokens s a b)).refreshToken =
            (match b with
              | .undefined => s.authTokens.refreshToken
              | .null => none
              | .str t => if t = "" then none else some t)) := by
  refine ⟨fun a => ?_, fun b => ?_, fun a b => ⟨?_, ?_⟩⟩
  · exact setAuthTokens_refresh s a .undefined
  · exact setAuthTokens_access s .undefined b
  · show (setAuthTokens s a b).authTokens.accessToken = _
    rw [setAuthTokens_access]
    cases a with
    | undefined => rfl
    | null => rfl
    | str t => by_cases h : t = "" <;> simp [JsVal.orNull, h]
  · show (setAuthTokens s a b).authTokens.refreshToken = _
    rw [setAuthTokens_refresh]
    cases b with
    | undefined => rfl
    | null => rfl
    | str t => by_cases h : t = "" <;> simp [JsVal.orNull, h]

/-- **C16**, as stated, fails when a call on the durable store throws.  The
durable store holds the session old/r and its quota is used up: the client
starts, hydrates old/r, and `setAuthTokens` with new/r2 leaves new/r2 in memory
and on the header, but both `setItem` calls throw, the new pair goes to the
fallback object only, and `getStoredTokens` still answers old/r from the
durable store. -/
theorem full_store_keeps_the_old_session :
    (setAuthTokens (initialState fullDisk localBase) (.str "new") (.str "r2")).authTokens =
        { accessToken := some "new", refreshToken := some "r2" } ∧
      (getStoredTokens
          (setAuthTokens (initialState fullDisk localBase) (.str "new") (.str "r2")).storage).1 =
        some { accessToken := some "old", refreshToken := some "r" } ∧
      (setAuthTokens (initialState fullDisk localBase) (.str "new")
          (.str "r2")).storage.fallbackStore =
        [(ACCESS_KEY, "new"), (REFRESH_KEY, "r2")] := by
  decide

/-- **C16**, amended.  After every `setAuthTokens` call the default header is
`Bearer <accessToken>` when the access token left in memory is not null and
absent when it is null.  When the token store works (no call on the durable
store throws, or there is none and the fallback object serves), it holds
exactly the tokens left in memory: each key holds its field, `getStoredTokens`
returns that state when a field is not null, and when both are null neither key
is held and `getStoredTokens` returns null. -/
theorem store_and_header_follow_setAuthTokens (URL : String → String → Option String)
    (s : ClientState) (h : Reachable URL s) (a r : JsVal) :
    (setAuthTokens s a r).authorization = bearerOf (setAuthTokens s a r).authTokens.accessToken ∧
      (s.storage.working = true →
        (setAuthTokens s a r).storage.holds ACCESS_KEY =
            (setAuthTokens s a r).authTokens.accessToken ∧
          (setAuthTokens s a r).storage.holds REFRESH_KEY =
            (setAuthTokens s a r).authTokens.refreshToken ∧
          ((setAuthTokens s a r).authTokens.accessToken ≠ none ∨
              (setAuthTokens s a r).authTokens.refreshToken ≠ none →
            (getStoredTokens (setAuthTokens s a r).storage).1 =
              some (setAuthTokens s a r).authTokens) ∧
          ((setAuthTokens s a r).authTokens.accessToken = none ∧
              (setAuthTokens s a r).authTokens.refreshToken = none →
            (getStoredTokens (setAuthTokens s a r).storage).1 = none)) := by
  have hwf := reachable_wellFormed URL s h
  have hwf' := setAuthTokens_wellFormed s a r hwf
  refine ⟨?_, fun hw => ?_⟩
  · rw [(setAuthTokens_effects s a r).1]
    exact wellFormed_header _ hwf'
  · obtain ⟨h1, h2, h3⟩ := setAuthTokens_store s a r hwf hw
    have hget := stored_tokens_of_holds _ _ h1 h2 h3
    refine ⟨h2, h3, fun hsome => ?_, fun hnone => ?_⟩
    · rw [hget, if_pos ((truthy_or_iff _ hwf').mpr hsome)]
    · rw [hget, if_neg]
      rw [truthy_or_iff _ hwf']
      rw [hnone.1, hnone.2]
      simp

/-- Witness for `store_and_header_follow_setAuthTokens`: on a working durable
store, signing in with an access token only leaves exactly that in the store
and on the header. -/
theorem store_and_header_follow_setAuthTokens_witness :
    Reachable whatwgPathname (initialState (durable []) localBase) ∧
      (setAuthTokens (initialState (durable []) localBase) (.str "new") .null).authorization =
        some "Bearer new" ∧
      (getStoredTokens
          (setAuthTokens (initialState (durable []) localBase) (.str "new") .null).storage).1 =
        some { accessToken := some "new", refreshToken := none } :=
  ⟨Reachable.init _ _,
    (store_and_header_follow_setAuthTokens whatwgPathname _ (Reachable.init _ _)
      (.str "new") .null).1,
    ((store_and_header_follow_setAuthTokens whatwgPathname _ (Reachable.init _ _)
      (.str "new") .null).2 (by decide)).2.2.1 (by decide)⟩

/-- **C17**, as stated, fails when `removeItem` throws.  The durable store
holds the session old/r; the client starts and hydrates it; both `removeItem`
calls of `clearAuthTokens` throw.  The tokens in memory are null and the header
is gone, but both keys remain in the durable store and `getStoredTokens`
returns old/r, not null. -/
theorem failed_removal_leaves_the_session_stored :
    (clearAuthTokens (initialState fullDisk localBase)).authTokens =
        { accessToken := none, refreshToken := none } ∧
      (clearAuthTokens (initialState fullDisk localBase)).authorization = none ∧
      (getStoredTokens (clearAuthTokens (initialState fullDisk localBase)).storage).1 =
        some { accessToken := some "old", refreshToken := some "r" } := by
  decide

/-- **C17**, amended.  From every token state, after `clearAuthTokens()` the
tokens in memory are both null and the default header is absent; and when the
token store works (no call on the durable store throws, or there is none and
the fallback object serves) neither key remains in it and `getStoredTokens()`
returns null. -/
theorem clearAuthTokens_clears_memory_header_store (s : ClientState) :
    (clearAuthTokens s).authTokens = { accessToken := none, refreshToken := none } ∧
      (clearAuthTokens s).authorization = none ∧
      (s.storage.working = true →
        (clearAuthTokens s).storage.holds ACCESS_KEY = none ∧
          (clearAuthTokens s).storage.holds REFRESH_KEY = none ∧
          (getStoredTokens (clearAuthTokens s).storage).1 = none) := by
  refine ⟨clearAuthTokens_authTokens s, clearAuthTokens_authorization s, fun hw => ?_⟩
  rw [clearAuthTokens_storage]
  obtain ⟨h1, h2, h3, _⟩ := clearStoredTokens_working s.storage hw
  refine ⟨h2, h3, ?_⟩
  rw [(getStoredTokens_working _ h1).1, h2, h3]
  rfl

/-- **C18.**  On a working store, in every state the client can be in: after
`setAuthTokens` (with any arguments) and after `clearAuthTokens`, running
`hydrateStoredTokens` again gives the same tokens in memory and the same
default header.  Where the store is a durable one, a process that starts on
the store left behind hydrates the same tokens and the same header, and the
first request it sends goes out stamped from those tokens.  (Without a durable
store the session lives in the fallback object of the process: a process that
starts afterwards has null tokens and no header, which is what it has after
`clearAuthTokens` in either case.) -/
theorem hydration_reproduces_the_session (URL : String → String → Option String)
    (s : ClientState) (h : Reachable URL s) (hw : s.storage.working = true) :
    (∀ a r : JsVal,
        (hydrateStoredTokens (setAuthTokens s a r)).authTokens = (setAuthTokens s a r).authTokens ∧
          (hydrateStoredTokens (setAuthTokens s a r)).authorization =
            (setAuthTokens s a r).authorization ∧
          (s.storage.localStorage.isSome = true → ∀ (baseURL : String) (config : Request),
            (initialState (setAuthTokens s a r).storage baseURL).authTokens =
                (setAuthTokens s a r).authTokens ∧
              (initialState (setAuthTokens s a r).storage baseURL).authorization =
                (setAuthTokens s a r).authorization ∧
              (step URL (initialState (setAuthTokens s a r).storage baseURL)
                  (.request config)).inFlight =
                [{ config := requestInterceptor (setAuthTokens s a r).authTokens config,
                   kont := .caller }]) ∧
          (s.storage.localStorage = none → ∀ baseURL : String,
            (initialState (setAuthTokens s a r).storage baseURL).authTokens =
                { accessToken := none, refreshToken := none } ∧
              (initialState (setAuthTokens s a r).storage baseURL).authorization = none)) ∧
      (hydrateStoredTokens (clearAuthTokens s)).authTokens = (clearAuthTokens s).authTokens ∧
      (hydrateStoredTokens (clearAuthTokens s)).authorization =
        (clearAuthTokens s).authorization ∧
      ∀ baseURL : String,
        (initialState (clearAuthTokens s).storage baseURL).authTokens =
            (clearAuthTokens s).authTokens ∧
          (initialState (clearAuthTokens s).storage baseURL).authorization =
            (clearAuthTokens s).authorization := by
  have hwf := reachable_wellFormed URL s h
  refine ⟨fun a r => ?_, ?_⟩
  · have hwf' := setAuthTokens_wellFormed s a r hwf
    obtain ⟨h1, h2, h3⟩ := setAuthTokens_store s a r hwf hw
    have hhead : (setAuthTokens s a r).authorization =
        bearerOf (setAuthTokens s a r).authTokens.accessToken := by
      rw [(setAuthTokens_effects s a r).1]
      exact wellFormed_header _ hwf'
    obtain ⟨g1, g2⟩ := hydrate_of_holds (setAuthTokens s a r) _ h1 hwf' h2 h3
    refine ⟨g1, g2.trans hhead.symm, fun hd baseURL config => ?_, fun hn baseURL => ?_⟩
    · obtain ⟨i1, i2, i3⟩ := initialState_of_holds (setAuthTokens s a r).storage baseURL _
        ((setAuthTokens_durable s a r).trans hd) h1 hwf' h2 h3
      refine ⟨i1, i2.trans hhead.symm, ?_⟩
      show (dispatch _ config .caller).inFlight = _
      rw [dispatch_inFlight, i3, i1]
      rfl
    · apply initialState_without_durable
      have hs := setAuthTokens_durable s a r
      rw [hn] at hs
      cases hl : (setAuthTokens s a r).storage.localStorage with
      | none => rfl
      | some l => rw [hl] at hs; simp at hs
  · obtain ⟨hw', hk1, hk2, _⟩ := clearStoredTokens_working s.storage hw
    rw [← clearAuthTokens_storage] at hw' hk1 hk2
    obtain ⟨g1, g2⟩ := hydrate_of_holds (clearAuthTokens s)
      { accessToken := none, refreshToken := none } hw' null_wellFormed hk1 hk2
    refine ⟨g1.trans (clearAuthTokens_authTokens s).symm,
      g2.trans (clearAuthTokens_authorization s).symm, fun baseURL => ?_⟩
    rw [clearAuthTokens_authTokens, clearAuthTokens_authorization]
    cases hl : (clearAuthTokens s).storage.localStorage with
    | none => exact initialState_without_durable _ baseURL hl
    | some l =>
      obtain ⟨i1, i2, _⟩ := initialState_of_holds (clearAuthTokens s).storage baseURL
        { accessToken := none, refreshToken := none } (by rw [hl]; rfl) hw' null_wellFormed
        hk1 hk2
      exact ⟨i1, i2⟩

/-- Witness for `hydration_reproduces_the_session`: a client on a working
durable store signs in with new/r2; hydrating again gives new/r2 and the
header `Bearer new`, and so does a process that starts on the store left. -/
theorem hydration_reproduces_the_session_witness :
    Reachable whatwgPathname (initialState (durable []) localBase) ∧
      (initialState (durable []) localBase).storage.working = true ∧
      (hydrateStoredTokens
          (setAuthTokens (initialState (durable []) localBase) (.str "new") (.str "r2"))).authTokens =
        { accessToken := some "new", refreshToken := some "r2" } ∧
      (hydrateStoredTokens
          (setAuthTokens (initialState (durable []) localBase) (.str "new")
            (.str "r2"))).authorization =
        some "Bearer new" ∧
      (initialState
          (setAuthTokens (initialState (durable []) localBase) (.str "new") (.str "r2")).storage
          localBase).authorization =
        some "Bearer new" :=
  ⟨Reachable.init _ _, by decide,
    ((hydration_reproduces_the_session whatwgPathname _ (Reachable.init _ _) (by decide)).1
      (.str "new") (.str "r2")).1,
    ((hydration_reproduces_the_session whatwgPathname _ (Reachable.init _ _) (by decide)).1
      (.str "new") (.str "r2")).2.1,
    (((hydration_reproduces_the_session whatwgPathname _ (Reachable.init _ _) (by decide)).1
      (.str "new") (.str "r2")).2.2.1 (by decide) localBase listTasks).2.1⟩

/-- **C19**, as stated, fails for a key that holds the empty string.  The
durable store holds the access-token key with the value "" and no refresh-token
key: the access key is present, yet `getStoredTokens` returns null, because
`!accessToken` is true of the empty string. -/
theorem empty_string_counts_as_absent :
    (durable [(ACCESS_KEY, "")]).holds ACCESS_KEY = some "" ∧
      (getStoredTokens (durable [(ACCESS_KEY, "")])).1 = none := by
  decide

/-- **C19**, amended.  `getStoredTokens()` returns null if and only if each of
the two values it reads is null or the empty string; otherwise it returns the
record of the two values read.  On a working store the value read is what the
store holds under the key, null when the key is absent: null is returned if and
only if each key is absent or holds the empty string, and otherwise the record
has both fields, an absent key giving null. -/
theorem getStoredTokens_null_iff (st : TokenStorage) :
    (((getStoredTokens st).1 = none ↔
          ((readStorage st ACCESS_KEY).1 = none ∨ (readStorage st ACCESS_KEY).1 = some "") ∧
            ((readStorage (readStorage st ACCESS_KEY).2 REFRESH_KEY).1 = none ∨
              (readStorage (readStorage st ACCESS_KEY).2 REFRESH_KEY).1 = some "")) ∧
        ((getStoredTokens st).1 ≠ none →
          (getStoredTokens st).1 =
            some { accessToken := (readStorage st ACCESS_KEY).1
                   refreshToken := (readStorage (readStorage st ACCESS_KEY).2 REFRESH_KEY).1 })) ∧
      (st.working = true →
        ((getStoredTokens st).1 = none ↔
            (st.holds ACCESS_KEY = none ∨ st.holds ACCESS_KEY = some "") ∧
              (st.holds REFRESH_KEY = none ∨ st.holds REFRESH_KEY = some "")) ∧
          ((getStoredTokens st).1 ≠ none →
            (getStoredTokens st).1 =
              some { accessToken := st.holds ACCESS_KEY, refreshToken := st.holds REFRESH_KEY })) := by
  have hfalsy : ∀ v : Option String, truthy v = false ↔ (v = none ∨ v = some "") := by
    intro v
    cases v with
    | none => simp [truthy]
    | some t => simp [truthy]
  have key : ∀ x y : Option String,
      (((if !truthy x && !truthy y then (none : Option AuthTokens)
            else some { accessToken := x, refreshToken := y }) = none ↔
          (x = none ∨ x = some "") ∧ (y = none ∨ y = some "")) ∧
        ((if !truthy x && !truthy y then (none : Option AuthTokens)
            else some { accessToken := x, refreshToken := y }) ≠ none →
          (if !truthy x && !truthy y then (none : Option AuthTokens)
            else some { accessToken := x, refreshToken := y }) =
            some { accessToken := x, refreshToken := y })) := by
    intro x y
    rw [← hfalsy x, ← hfalsy y]
    cases truthy x <;> cases truthy y <;> simp
  have hget : (getStoredTokens st).1 =
      (if !truthy (readStorage st ACCESS_KEY).1 &&
          !truthy (readStorage (readStorage st ACCESS_KEY).2 REFRESH_KEY).1 then none
        else some { accessToken := (readStorage st ACCESS_KEY).1
                    refreshToken := (readStorage (readStorage st ACCESS_KEY).2 REFRESH_KEY).1 }) := by
    unfold getStoredTokens
    simp only
    split <;> rfl
  refine ⟨?_, fun hw => ?_⟩
  · rw [hget]
    exact key _ _
  · rw [(getStoredTokens_working st hw).1]
    exact key _ _

/-- **C20**, as stated, fails for a field passed as undefined.  The durable
store holds old/r; `persistTokens({ refreshToken: "r2" })`, the access token
undefined, removes the access-token key (`accessToken || null` is null) instead
of leaving "old" under it. -/
theorem undefined_field_removes_the_key :
    (durable [(ACCESS_KEY, "old"), (REFRESH_KEY, "r")]).holds ACCESS_KEY = some "old" ∧
      (persistTokens (durable [(ACCESS_KEY, "old"), (REFRESH_KEY, "r")]) .undefined
          (.str "r2")).holds ACCESS_KEY = none ∧
      (persistTokens (durable [(ACCESS_KEY, "old"), (REFRESH_KEY, "r")]) .undefined
          (.str "r2")).holds REFRESH_KEY = some "r2" := by
  decide

/-- **C20**, amended.  `persistTokens(tokens)` writes both keys, each with the
value of its field where undefined, null and the empty string count as null.
On every stored state of a working store: a field passed as undefined, null or
the empty string removes that key, a field passed as a non-empty string stores
that string, and no other key changes. -/
theorem persistTokens_writes_both_keys (st : TokenStorage) (a r : JsVal) :
    persistTokens st a r =
        writeStorage
          (writeStorage st ACCESS_KEY
            (match a with
              | .str t => if t = "" then none else some t
              | _ => none))
          REFRESH_KEY
          (match r with
            | .str t => if t = "" then none else some t
            | _ => none) ∧
      (st.working = true →
        (persistTokens st a r).holds ACCESS_KEY =
            (match a with
              | .str t => if t = "" then none else some t
              | _ => none) ∧
          (persistTokens st a r).holds REFRESH_KEY =
            (match r with
              | .str t => if t = "" then none else some t
              | _ => none) ∧
          ∀ other, other ≠ ACCESS_KEY → other ≠ REFRESH_KEY →
            (persistTokens st a r).holds other = st.holds other) := by
  have hval : ∀ v : JsVal, v.orNull =
      (match v with
        | .str t => if t = "" then none else some t
        | _ => none) := by
    intro v
    cases v with
    | undefined => rfl
    | null => rfl
    | str t => by_cases h : t = "" <;> simp [JsVal.orNull, h]
  refine ⟨?_, fun hw => ?_⟩
  · unfold persistTokens
    rw [hval a, hval r]
  · obtain ⟨_, h2, h3, h4⟩ := persistTokens_working st a r hw
    exact ⟨h2.trans (hval a), h3.trans (hval r), h4⟩

/-- **C21.**  Whatever the durable store does, the three functions of the token
store run to their end.  A write on a store that is missing, or whose call
throws, is applied to the fallback object (with a warning when the call threw,
the durable items left as they were), and a read in these cases is answered
from the fallback object.  `persistTokens`, `clearStoredTokens` and
`getStoredTokens` each make both of their calls on the durable store whether
or not the first one throws, and after `persistTokens` and `clearStoredTokens`
the fallback object holds, under each key whose call threw, the value written
(null for `clearStoredTokens`, so the key is gone). -/
theorem storage_failures_are_absorbed (st : TokenStorage) :
    (∀ (key : String) (value : Option String),
        (st.localStorage = none → writeStorage st key value = writeFallback st key value) ∧
          (∀ ls, st.localStorage = some ls → ls.throwsNext = true →
            writeStorage st key value =
                writeFallback
                  { st with localStorage := some ls.afterCall, warnings := st.warnings + 1 }
                  key value ∧
              (writeStorage st key value).fallbackStore.lookup key = value ∧
              (writeStorage st key value).localStorage = some ls.afterCall ∧
              (writeStorage st key value).warnings = st.warnings + 1) ∧
          (st.localStorage = none →
            (writeStorage st key value).fallbackStore.lookup key = value)) ∧
      (∀ key : String,
        (st.localStorage = none → (readStorage st key).1 = st.fallbackStore.lookup key) ∧
          (∀ ls, st.localStorage = some ls → ls.throwsNext = true →
            (readStorage st key).1 = st.fallbackStore.lookup key ∧
              (readStorage st key).2.warnings = st.warnings + 1)) ∧
      (∀ a r : JsVal,
        (persistTokens st a r).localStorage.map (fun ls => ls.faults) =
            st.localStorage.map (fun ls => ls.faults.tail.tail) ∧
          (clearStoredTokens st).localStorage.map (fun ls => ls.faults) =
            st.localStorage.map (fun ls => ls.faults.tail.tail) ∧
          (getStoredTokens st).2.localStorage.map (fun ls => ls.faults) =
            st.localStorage.map (fun ls => ls.faults.tail.tail)) ∧
      (∀ (ls : LocalStorage) (a r : JsVal), st.localStorage = some ls →
        (ls.faults.headD false = true →
          (persistTokens st a r).fallbackStore.lookup ACCESS_KEY = a.orNull ∧
            (clearStoredTokens st).fallbackStore.lookup ACCESS_KEY = none) ∧
          (ls.faults.tail.headD false = true →
            (persistTokens st a r).fallbackStore.lookup REFRESH_KEY = r.orNull ∧
              (clearStoredTokens st).fallbackStore.lookup REFRESH_KEY = none)) := by
  have hread : ∀ (t : TokenStorage) (key : String),
      (readStorage t key).2.localStorage.map (fun ls => ls.faults) =
        t.localStorage.map (fun ls => ls.faults.tail) := by
    intro t key
    have hc := readStorage_cases t key
    cases hl : t.localStorage with
    | none => rw [hc.1 hl, hl]; rfl
    | some ls =>
      cases ht : ls.throwsNext
      · rw [hc.2.2 ls hl ht]; rfl
      · rw [hc.2.1 ls hl ht]; rfl
  have hpersist : ∀ a r : JsVal,
      (persistTokens st a r).localStorage.map (fun ls => ls.faults) =
        st.localStorage.map (fun ls => ls.faults.tail.tail) := by
    intro a r
    unfold persistTokens
    rw [(writeStorage_frame _ REFRESH_KEY _).1]
    have h1 := (writeStorage_frame st ACCESS_KEY a.orNull).1
    cases hw : (writeStorage st ACCESS_KEY a.orNull).localStorage <;>
      cases hl : st.localStorage <;> simp_all
  have hkeys : ∀ (ls : LocalStorage) (a r : JsVal), st.localStorage = some ls →
      (ls.faults.headD false = true →
        (persistTokens st a r).fallbackStore.lookup ACCESS_KEY = a.orNull) ∧
      (ls.faults.tail.headD false = true →
        (persistTokens st a r).fallbackStore.lookup REFRESH_KEY = r.orNull) := by
    intro ls a r hl
    constructor
    · intro ht
      unfold persistTokens
      rw [(writeStorage_frame _ REFRESH_KEY _).2 ACCESS_KEY (fun e => keys_differ e.symm),
        writeStorage_throws st ls ACCESS_KEY _ hl ht]
      exact (writeFallback_spec _ _ _).1
    · intro ht
      unfold persistTokens
      have hf := (writeStorage_frame st ACCESS_KEY a.orNull).1
      rw [hl] at hf
      cases hw : (writeStorage st ACCESS_KEY a.orNull).localStorage with
      | none => rw [hw] at hf; simp at hf
      | some ls1 =>
        rw [hw] at hf
        have hf1 : ls1.faults = ls.faults.tail := by simpa using hf
        have ht1 : ls1.throwsNext = true := by
          unfold LocalStorage.throwsNext
          rw [hf1]
          exact ht
        rw [writeStorage_throws _ ls1 REFRESH_KEY _ hw ht1]
        exact (writeFallback_spec _ _ _).1
  refine ⟨fun key value => ⟨writeStorage_missing st key value, fun ls hl ht => ?_, fun hl => ?_⟩,
    fun key => ⟨fun hl => ?_, fun ls hl ht => ?_⟩, fun a r => ⟨hpersist a r, hpersist .null .null, ?_⟩,
    fun ls a r hl => ⟨fun ht => ⟨(hkeys ls a r hl).1 ht, (hkeys ls .null .null hl).1 ht⟩,
      fun ht => ⟨(hkeys ls a r hl).2 ht, (hkeys ls .null .null hl).2 ht⟩⟩⟩
  · have h := writeFallback_spec
      { st with localStorage := some ls.afterCall, warnings := st.warnings + 1 } key value
    rw [writeStorage_throws st ls key value hl ht]
    exact ⟨rfl, h.1, h.2.2.1, h.2.2.2⟩
  · rw [writeStorage_missing st key value hl]
    exact (writeFallback_spec st key value).1
  · rw [(readStorage_cases st key).1 hl]
  · rw [(readStorage_cases st key).2.1 ls hl ht]
    exact ⟨rfl, rfl⟩
  · have h1 := hread st ACCESS_KEY
    have h2 := hread (readStorage st ACCESS_KEY).2 REFRESH_KEY
    have hg : (getStoredTokens st).2 = (readStorage (readStorage st ACCESS_KEY).2 REFRESH_KEY).2 := by
      unfold getStoredTokens
      simp only
      split <;> rfl
    rw [hg, h2]
    cases hw : (readStorage st ACCESS_KEY).2.localStorage <;>
      cases hl : st.localStorage <;> simp_all

/-- **C22**, as stated, fails for an override that ends with a slash.  With
`EXPO_PUBLIC_API_URL` set to `https://api.example.com/` the source is "env" and
`envBaseUrl` is the override, but `resolvedBaseUrl` is
`https://api.example.com`: `stripTrailingSlash` has cut the slash. -/
theorem override_loses_its_trailing_slash :
    (initialBaseMeta
        { bareRuntime with EXPO_PUBLIC_API_URL := some "https://api.example.com/" }).source =
        "env" ∧
      (initialBaseMeta
        { bareRuntime with EXPO_PUBLIC_API_URL := some "https://api.example.com/" }).envBaseUrl =
        some "https://api.example.com/" ∧
      (initialBaseMeta
        { bareRuntime with
          EXPO_PUBLIC_API_URL := some "https://api.example.com/" }).resolvedBaseUrl =
        "https://api.example.com" := by
  decide

/-- **C22**, amended.  If the override is not empty after trimming, the source
is "env" and `resolvedBaseUrl` is the trimmed override less one trailing slash,
whatever host could be inferred; for the override `https://api.example.com` it
is exactly that string.  Otherwise, if on a platform other than web a host `h`
is inferred (from the script URL, or else from the Expo fields), the source is
"auto" and `resolvedBaseUrl` is `http://h:<API_PORT>/api`.  Otherwise the source
is "fallback" and `resolvedBaseUrl` is `http://localhost:<API_PORT>/api`. -/
theorem startup_resolution_precedence (rt : Runtime) :
    (envBaseUrl rt ≠ "" →
        (initialBaseMeta rt).source = "env" ∧
          (initialBaseMeta rt).resolvedBaseUrl = stripTrailingSlash (envBaseUrl rt) ∧
          (initialBaseMeta rt).envBaseUrl = some (envBaseUrl rt)) ∧
      (rt.EXPO_PUBLIC_API_URL = some "https://api.example.com" →
        (initialBaseMeta rt).source = "env" ∧
          (initialBaseMeta rt).resolvedBaseUrl = "https://api.example.com") ∧
      (envBaseUrl rt = "" → rt.OS ≠ "web" → ∀ h : String,
        (resolveMetroHost rt = some h ∨
          (resolveMetroHost rt = none ∧ resolveExpoHost rt = some h)) →
        (initialBaseMeta rt).source = "auto" ∧
          (initialBaseMeta rt).resolvedBaseUrl = "http://" ++ h ++ ":" ++ rt.API_PORT ++ "/api" ∧
          (initialBaseMeta rt).autoDetectedBaseUrl =
            some ("http://" ++ h ++ ":" ++ rt.API_PORT ++ "/api")) ∧
      (envBaseUrl rt = "" →
        (rt.OS = "web" ∨ (resolveMetroHost rt = none ∧ resolveExpoHost rt = none)) →
        (initialBaseMeta rt).source = "fallback" ∧
          (initialBaseMeta rt).resolvedBaseUrl = "http://localhost:" ++ rt.API_PORT ++ "/api") := by
  refine ⟨initialBaseMeta_env rt, fun hurl => ?_, fun henv hos h hhost => ?_, fun henv hnone => ?_⟩
  · have henv : envBaseUrl rt = "https://api.example.com" := by
      unfold envBaseUrl
      rw [hurl]
      decide
    have hne : envBaseUrl rt ≠ "" := by rw [henv]; decide
    obtain ⟨h1, h2, _⟩ := initialBaseMeta_env rt hne
    refine ⟨h1, ?_⟩
    rw [h2, henv]
    decide
  · have hauto := resolveDeviceBaseUrl_host rt h hos hhost
    obtain ⟨_, hkeep, hne⟩ := buildBaseUrlForHost_kept rt h
    obtain ⟨h1, h2, h3, _⟩ := initialBaseMeta_auto rt _ henv hauto hne
    exact ⟨h1, h2.trans hkeep, h3⟩
  · obtain ⟨h1, h2, _⟩ := initialBaseMeta_fallback rt henv (resolveDeviceBaseUrl_none rt hnone)
    exact ⟨h1, h2⟩

/-- **C23**, as stated, fails for an override that ends with two slashes.
With `EXPO_PUBLIC_API_URL` set to `https://api.example.com//` the resolved base
URL is `https://api.example.com/`: `stripTrailingSlash` cuts one slash.  The
same holds of `setApiBaseUrl` with such an input. -/
theorem override_with_two_slashes_keeps_one :
    (initialBase
        { bareRuntime with
          EXPO_PUBLIC_API_URL := some "https://api.example.com//" }).baseMeta.resolvedBaseUrl =
        "https://api.example.com/" ∧
      endsWith
        (initialBase
          { bareRuntime with
            EXPO_PUBLIC_API_URL := some "https://api.example.com//" }).baseMeta.resolvedBaseUrl
        "/" = true ∧
      (setApiBaseUrl (initialBase bareRuntime) "http://10.0.2.2:8000/api//"
        "manual").baseMeta.resolvedBaseUrl = "http://10.0.2.2:8000/api/" := by
  decide

/-- **C23**, amended.  When the trimmed override does not end with two
slashes, the resolved base URL does not end with a slash at startup nor after
any sequence of calls of `ensureApiBaseUrl` and answers to its health checks.
`setApiBaseUrl` leaves its input less one trailing slash as the resolved base
URL, which does not end with a slash unless the input ended with two. -/
theorem resolved_base_url_has_no_trailing_slash (rt : Runtime)
    (h : endsWith (envBaseUrl rt) "//" = false) :
    endsWith (initialBase rt).baseMeta.resolvedBaseUrl "/" = false ∧
      (∀ events : List BaseEvent,
        endsWith (runBase rt (initialBase rt) events).baseMeta.resolvedBaseUrl "/" = false) ∧
      ∀ (s : BaseState) (next source : String),
        (setApiBaseUrl s next source).baseMeta.resolvedBaseUrl = stripTrailingSlash next ∧
          (endsWith next "//" = false →
            endsWith (setApiBaseUrl s next source).baseMeta.resolvedBaseUrl "/" = false) := by
  have hinit : endsWith (initialBase rt).baseMeta.resolvedBaseUrl "/" = false := by
    show endsWith (initialBaseMeta rt).resolvedBaseUrl "/" = false
    rcases initialBaseMeta_resolved rt with henv | hend
    · rw [henv]
      exact stripTrailingSlash_ends _ h
    · exact hend
  exact ⟨hinit, fun events => runBase_resolved rt events _ hinit,
    fun s next source => ⟨rfl, fun hn => stripTrailingSlash_ends next hn⟩⟩

/-- Witness for `resolved_base_url_has_no_trailing_slash`: the override
`https://api.example.com/`, with one trailing slash. -/
theorem resolved_base_url_has_no_trailing_slash_witness :
    endsWith (envBaseUrl { bareRuntime with EXPO_PUBLIC_API_URL := some "https://api.example.com/" })
        "//" = false ∧
      endsWith
        (initialBase
          { bareRuntime with
            EXPO_PUBLIC_API_URL := some "https://api.example.com/" }).baseMeta.resolvedBaseUrl
        "/" = false :=
  ⟨by decide,
    (resolved_base_url_has_no_trailing_slash
      { bareRuntime with EXPO_PUBLIC_API_URL := some "https://api.example.com/" } (by decide)).1⟩

/-- **C24.**  For a loopback name (`localhost` or `127.0.0.1` in any case,
after trimming): `sanitizeHost` returns `10.0.2.2` on an Android emulator and
null on a physical device of any platform.  A host that is not blank and not a
loopback name is returned trimmed.  On a physical device no candidate parses to
a loopback name; a candidate that parses to null is passed over by the loop of
`resolveExpoHost`, a script URL that parses to null leaves the choice to the
Expo fields, and when nothing is inferred the resolution goes on to the next
tier, the override or else the fallback. -/
theorem loopback_is_translated_or_dropped (rt : Runtime) (host : String)
    (hloop : toLowerCase (trim host) = "localhost" ∨ toLowerCase (trim host) = "127.0.0.1") :
    (rt.OS = "android" → rt.isDevice = false → sanitizeHost rt (some host) = some "10.0.2.2") ∧
      (rt.isDevice = true → sanitizeHost rt (some host) = none) ∧
      (∀ other : String,
        ¬ (toLowerCase (trim other) = "localhost" ∨ toLowerCase (trim other) = "127.0.0.1") →
        trim other ≠ "" → sanitizeHost rt (some other) = some (trim other)) ∧
      (rt.isDevice = true → ∀ (candidate : Option String) (h : String),
        parseHostCandidate rt candidate = some h →
        toLowerCase h ≠ "localhost" ∧ toLowerCase h ≠ "127.0.0.1") ∧
      (∀ (candidate : Option String) (rest : List (Option String)),
        parseHostCandidate rt candidate = none →
        firstHost rt (candidate :: rest) = firstHost rt rest) ∧
      (parseHostCandidate rt rt.scriptURL = none → rt.OS ≠ "web" →
        resolveDeviceBaseUrl rt = (resolveExpoHost rt).map (buildBaseUrlForHost rt)) ∧
      (resolveMetroHost rt = none → resolveExpoHost rt = none →
        (initialBaseMeta rt).source = (if envBaseUrl rt = "" then "fallback" else "env")) := by
  refine ⟨fun hos hdev => ?_, fun hdev => ?_, fun other hplain hblank =>
    sanitizeHost_plain rt other hplain hblank,
    fun hdev candidate h hs => parseHostCandidate_device rt candidate h hdev hs,
    fun candidate rest h => firstHost_skip rt candidate rest h, fun hscript hos => ?_,
    fun hm he => ?_⟩
  · rw [sanitizeHost_loopback rt host hloop]
    simp [hos, hdev]
  · rw [sanitizeHost_loopback rt host hloop]
    simp [hdev]
  · have hm := resolveMetroHost_none rt hscript
    cases he : resolveExpoHost rt with
    | none => rw [resolveDeviceBaseUrl_none rt (Or.inr ⟨hm, he⟩)]; rfl
    | some h => rw [resolveDeviceBaseUrl_host rt h hos (Or.inr ⟨hm, he⟩)]; rfl
  · by_cases henv : envBaseUrl rt = ""
    · rw [(initialBaseMeta_fallback rt henv (resolveDeviceBaseUrl_none rt (Or.inr ⟨hm, he⟩))).1,
        if_pos henv]
    · rw [(initialBaseMeta_env rt henv).1, if_neg henv]

/-- Witness for `loopback_is_translated_or_dropped`: the name ` LocalHost ` on
an Android emulator and on a physical iPhone. -/
theorem loopback_is_translated_or_dropped_witness :
    (toLowerCase (trim " LocalHost ") = "localhost" ∨
        toLowerCase (trim " LocalHost ") = "127.0.0.1") ∧
      sanitizeHost { bareRuntime with OS := "android", isDevice := false } (some " LocalHost ") =
        some "10.0.2.2" ∧
      sanitizeHost bareRuntime (some " LocalHost ") = none :=
  ⟨by decide,
    (loopback_is_translated_or_dropped { bareRuntime with OS := "android", isDevice := false }
      " LocalHost " (by decide)).1 rfl rfl,
    (loopback_is_translated_or_dropped bareRuntime " LocalHost " (by decide)).2.1 rfl⟩

/-- **C25** fails for `collectHostCandidates`.  `resolveMetroHost` and
`resolveExpoHost` never return a host on `exp.host`, `exp.direct` or `expo.dev`
or on a subdomain of these, in any case of the letters.  But the third and the
fourth entry of the list of `collectHostCandidates`, the debugger hosts cut at
their first colon, go through `sanitizeHost` only: with
`Constants.manifest.debuggerHost` set to `u-abc.anonymous.exp.direct:80`,
`resolveExpoHost` returns null, the list of candidates is that tunnel host, and
`ensureApiBaseUrl` sends its health check to it. -/
theorem tunnel_host_among_probe_candidates :
    (∀ (rt : Runtime) (h : String),
        (resolveMetroHost rt = some h ∨ resolveExpoHost rt = some h) →
        ∀ domain ∈ ["exp.host", "exp.direct", "expo.dev"],
          toLowerCase h ≠ domain ∧ endsWith (toLowerCase h) ("." ++ domain) = false) ∧
      resolveExpoHost
          { bareRuntime with manifest_debuggerHost := some "u-abc.anonymous.exp.direct:80" } =
        none ∧
      collectHostCandidates
          { bareRuntime with manifest_debuggerHost := some "u-abc.anonymous.exp.direct:80" } =
        ["u-abc.anonymous.exp.direct"] ∧
      isExpoTunnelHost (some "u-abc.anonymous.exp.direct") = true ∧
      (ensureApiBaseUrl
          { bareRuntime with manifest_debuggerHost := some "u-abc.anonymous.exp.direct:80" }
          (initialBase
            { bareRuntime with manifest_debuggerHost := some "u-abc.anonymous.exp.direct:80" })
          1).fetched =
        ["http://u-abc.anonymous.exp.direct:8000/api/health/"] := by
  refine ⟨?_, by decide, by decide, by decide, by decide⟩
  intro rt h hh domain hd
  have hfree : h ≠ "" ∧ isExpoTunnelHost (some h) = false := by
    rcases hh with hm | he
    · exact resolveMetroHost_some rt h hm
    · exact firstHost_some rt _ h he
  have ht := hfree.2
  simp only [isExpoTunnelHost, hfree.1, if_false, Bool.or_eq_false_iff, decide_eq_false_iff_not]
    at ht
  simp only [List.mem_cons, List.mem_singleton, List.not_mem_nil, or_false] at hd
  rcases hd with hd | hd | hd <;> subst hd
  · exact ⟨ht.1.1.1.1.1, ht.1.1.1.1.2⟩
  · exact ⟨ht.1.1.1.2, ht.1.1.2⟩
  · exact ⟨ht.1.2, ht.2⟩

/-- **C26**, as stated, fails where the platform parses URLs.  For the
candidate `http://MyPC.local:8081/index.bundle` on a platform with a WHATWG
`URL`, `parseHostCandidate` returns `mypc.local`, the host as the parser
reports it, and not `sanitizeHost` of the host `MyPC.local`, which is
`MyPC.local`; without a usable `URL` it does return `MyPC.local`. -/
theorem parsed_host_is_lower_cased :
    parseHostCandidate { bareRuntime with hostname := whatwgHostname }
        (some "http://MyPC.local:8081/index.bundle") = some "mypc.local" ∧
      sanitizeHost { bareRuntime with hostname := whatwgHostname } (some "MyPC.local") =
        some "MyPC.local" ∧
      parseHostCandidate bareRuntime (some "http://MyPC.local:8081/index.bundle") =
        some "MyPC.local" := by
  decide

/-- **C26**, amended.  For a candidate without surrounding white space of the
shape `[scheme://]host[:port][/path][?query]`, that is a lead which is empty or
a scheme (a letter followed by letters, digits, `.`, `+`, `-`) with `://`,
then a host that is not empty and has none of `/ ? # :`, then nothing or a rest
that starts with one of these (and, without a scheme, not with `://`), on a
platform where `new URL` of `http://host[:port][/path][?query]` is missing or
throws, or else reports the host in lower case: the scheme, the port and
everything after the host are removed, and `parseHostCandidate` returns
`sanitizeHost(host)` when `URL` is missing or throws, and otherwise
`sanitizeHost` of the host in lower case, which is `sanitizeHost(host)` in
lower case.  In both cases the result is `sanitizeHost(host)` up to the case
of the letters.  For an absent, empty or blank candidate it returns null. -/
theorem parseHostCandidate_strips_scheme_port_path (rt : Runtime) (lead host rest : String)
    (hlead : lead = "" ∨ ∃ c cs, lead = String.mk (c :: cs) ++ "://" ∧ c.isAlpha = true ∧
      ∀ x ∈ cs, isSchemeChar x = true)
    (hhost : host.data ≠ [] ∧ ∀ c ∈ host.data, isHostChar c = true)
    (hrest : rest.data = [] ∨ ∃ c tail, rest.data = c :: tail ∧ isHostChar c = false)
    (hbare : lead = "" → startsWith rest "://" = false)
    (htrim : trim (lead ++ host ++ rest) = lead ++ host ++ rest)
    (hurl : rt.hostname ("http://" ++ host ++ rest) = none ∨
      rt.hostname ("http://" ++ host ++ rest) = some (toLowerCase host)) :
    (rt.hostname ("http://" ++ host ++ rest) = none →
        parseHostCandidate rt (some (lead ++ host ++ rest)) = sanitizeHost rt (some host)) ∧
      (rt.hostname ("http://" ++ host ++ rest) = some (toLowerCase host) →
        parseHostCandidate rt (some (lead ++ host ++ rest)) =
            sanitizeHost rt (some (toLowerCase host)) ∧
          parseHostCandidate rt (some (lead ++ host ++ rest)) =
            (sanitizeHost rt (some host)).map toLowerCase) ∧
      (parseHostCandidate rt (some (lead ++ host ++ rest))).map toLowerCase =
        (sanitizeHost rt (some host)).map toLowerCase ∧
      parseHostCandidate rt none = none ∧ parseHostCandidate rt (some "") = none ∧
      ∀ blank : String, trim blank = "" → parseHostCandidate rt (some blank) = none := by
  have hstrip : stripScheme (lead ++ host ++ rest) = host ++ rest := by
    rcases hlead with h0 | ⟨c, cs, hsc, hc, hcs⟩
    · have h1 : lead ++ host = host := by
        rw [h0]
        apply String.ext
        simp
      rw [h1]
      exact stripScheme_host host rest hhost.2 hhost.1 hrest (hbare h0)
    · rw [hsc]
      have := stripScheme_scheme c cs (host ++ rest) hc hcs
      simp only [String.append_assoc] at this ⊢
      exact this
  have hmain := parseHostCandidate_shape rt _ host rest htrim hstrip hhost.2 hhost.1 hrest
  have hnone : rt.hostname ("http://" ++ host ++ rest) = none →
      parseHostCandidate rt (some (lead ++ host ++ rest)) = sanitizeHost rt (some host) := by
    intro h
    rw [hmain, h]
    rfl
  have hsome : rt.hostname ("http://" ++ host ++ rest) = some (toLowerCase host) →
      parseHostCandidate rt (some (lead ++ host ++ rest)) =
        sanitizeHost rt (some (toLowerCase host)) := by
    intro h
    rw [hmain, h]
    rfl
  refine ⟨hnone, fun h => ⟨hsome h, (hsome h).trans (sanitizeHost_toLowerCase rt host)⟩, ?_,
    rfl, rfl, fun blank hb => ?_⟩
  · rcases hurl with h | h
    · rw [hnone h]
    · rw [hsome h, sanitizeHost_toLowerCase, Option.map_map]
      congr 1
      funext x
      exact toLowerCase_idem x
  · unfold parseHostCandidate
    by_cases he : blank = ""
    · simp [he]
    · simp [he, hb]

/-- Witness for `parseHostCandidate_strips_scheme_port_path`: the candidate
`exp://Dev-PC.lan:8081/index.bundle?platform=android` on a platform with a
WHATWG `URL`. -/
theorem parseHostCandidate_strips_scheme_port_path_witness :
    whatwgHostname ("http://" ++ "Dev-PC.lan" ++ ":8081/index.bundle?platform=android") =
        some (toLowerCase "Dev-PC.lan") ∧
      parseHostCandidate { bareRuntime with hostname := whatwgHostname }
          (some ("exp://" ++ "Dev-PC.lan" ++ ":8081/index.bundle?platform=android")) =
        some "dev-pc.lan" :=
  ⟨by decide,
    ((parseHostCandidate_strips_scheme_port_path { bareRuntime with hostname := whatwgHostname }
      "exp://" "Dev-PC.lan" ":8081/index.bundle?platform=android"
      (Or.inr ⟨'e', ['x', 'p'], by decide, by decide, by decide⟩)
      ⟨by decide, by decide⟩ (Or.inr ⟨':', _, rfl, by decide⟩) (fun h => absurd h (by decide))
      (by decide) (Or.inr (by decide))).2.1 (by decide)).1⟩

/-- **C27.**  When `ensureApiBaseUrl` is called with the source "fallback" and
no sweep out: the candidates are distinct and none is empty; they are probed in
the order of the list, each at `http://<host>:<API_PORT>/api/health/`; at the
first host whose health check succeeds the sweep ends, no further host is
probed, the metadata have the source "auto-probe" and `resolvedBaseUrl` and
`autoDetectedBaseUrl` equal to `http://<that host>:<API_PORT>/api`, the base
URL of the client follows, and the caller gets these metadata.  When every
health check fails, or there is no candidate, the caller gets the metadata
unchanged, with the source "fallback". -/
theorem probing_stops_at_first_reachable_host (rt : Runtime) (s : BaseState) (c : Nat)
    (hfb : s.baseMeta.source = "fallback") (hidle : s.promise = none) :
    ((collectHostCandidates rt).Nodup ∧ ∀ h ∈ collectHostCandidates rt, h ≠ "") ∧
      (∀ h : String,
        healthUrl rt h = "http://" ++ h ++ ":" ++ rt.API_PORT ++ "/api/health/") ∧
      (∀ (pre post : List String) (h : String),
        collectHostCandidates rt = pre ++ h :: post →
        (runBase rt s
            ([BaseEvent.ensure c] ++ pre.map (fun _ => BaseEvent.answer false) ++
              [BaseEvent.answer true])).fetched =
            s.fetched ++ (pre ++ [h]).map (healthUrl rt) ∧
          (runBase rt s
            ([BaseEvent.ensure c] ++ pre.map (fun _ => BaseEvent.answer false) ++
              [BaseEvent.answer true])).baseMeta =
            { envBaseUrl := s.baseMeta.envBaseUrl
              autoDetectedBaseUrl := some ("http://" ++ h ++ ":" ++ rt.API_PORT ++ "/api")
              resolvedBaseUrl := "http://" ++ h ++ ":" ++ rt.API_PORT ++ "/api"
              source := "auto-probe" } ∧
          (runBase rt s
            ([BaseEvent.ensure c] ++ pre.map (fun _ => BaseEvent.answer false) ++
              [BaseEvent.answer true])).baseURL =
            "http://" ++ h ++ ":" ++ rt.API_PORT ++ "/api" ++ "/" ∧
          (runBase rt s
            ([BaseEvent.ensure c] ++ pre.map (fun _ => BaseEvent.answer false) ++
              [BaseEvent.answer true])).promise = none ∧
          (runBase rt s
            ([BaseEvent.ensure c] ++ pre.map (fun _ => BaseEvent.answer false) ++
              [BaseEvent.answer true])).returned =
            s.returned ++
              [(c,
                { envBaseUrl := s.baseMeta.envBaseUrl
                  autoDetectedBaseUrl := some ("http://" ++ h ++ ":" ++ rt.API_PORT ++ "/api")
                  resolvedBaseUrl := "http://" ++ h ++ ":" ++ rt.API_PORT ++ "/api"
                  source := "auto-probe" })]) ∧
      (runBase rt s
          ([BaseEvent.ensure c] ++
            (collectHostCandidates rt).map (fun _ => BaseEvent.answer false) ++
            [BaseEvent.settle])).fetched =
          s.fetched ++ (collectHostCandidates rt).map (healthUrl rt) ∧
        (runBase rt s
          ([BaseEvent.ensure c] ++
            (collectHostCandidates rt).map (fun _ => BaseEvent.answer false) ++
            [BaseEvent.settle])).baseMeta = s.baseMeta ∧
        (runBase rt s
          ([BaseEvent.ensure c] ++
            (collectHostCandidates rt).map (fun _ => BaseEvent.answer false) ++
            [BaseEvent.settle])).baseURL = s.baseURL ∧
        (runBase rt s
          ([BaseEvent.ensure c] ++
            (collectHostCandidates rt).map (fun _ => BaseEvent.answer false) ++
            [BaseEvent.settle])).promise = none ∧
        (runBase rt s
          ([BaseEvent.ensure c] ++
            (collectHostCandidates rt).map (fun _ => BaseEvent.answer false) ++
            [BaseEvent.settle])).returned = s.returned ++ [(c, s.baseMeta)] := by
  refine ⟨collectHostCandidates_spec rt, healthUrl_eq rt, fun pre post h hosts => ?_, ?_⟩
  · have hrun := sweep_succeeds rt s c [] pre post h hfb hidle hosts
    simp only [List.map_nil, List.append_nil] at hrun
    rw [hrun]
    have hf := success_fields rt s (s.fetched ++ (pre ++ [h]).map (healthUrl rt)) h [c]
    simp only [buildBaseUrlForHost_eq] at hf ⊢
    refine ⟨hf.1, hf.2.1, hf.2.2.1, hf.2.2.2.1, ?_⟩
    rw [hf.2.2.2.2]
    rfl
  · have hrun := sweep_fails rt s c [] hfb hidle
    simp only [List.map_nil, List.append_nil] at hrun
    rw [hrun]
    simp [finishProbe, getApiBaseMeta]

/-- Witness for `probing_stops_at_first_reachable_host`: in the browser tab
the first candidate does not answer and the second does. -/
theorem probing_stops_at_first_reachable_host_witness :
    (initialBase webRuntime).baseMeta.source = "fallback" ∧
      (initialBase webRuntime).promise = none ∧
      collectHostCandidates webRuntime = ["10.0.0.3", "192.168.0.7"] ∧
      (runBase webRuntime (initialBase webRuntime)
          [BaseEvent.ensure 1, BaseEvent.answer false, BaseEvent.answer true]).fetched =
        ["http://10.0.0.3:8000/api/health/", "http://192.168.0.7:8000/api/health/"] ∧
      (runBase webRuntime (initialBase webRuntime)
          [BaseEvent.ensure 1, BaseEvent.answer false, BaseEvent.answer true]).baseMeta =
        { envBaseUrl := none
          autoDetectedBaseUrl := some "http://192.168.0.7:8000/api"
          resolvedBaseUrl := "http://192.168.0.7:8000/api"
          source := "auto-probe" } :=
  ⟨by decide, by decide, by decide,
    ((probing_stops_at_first_reachable_host webRuntime (initialBase webRuntime) 1 (by decide)
      (by decide)).2.2.1 ["10.0.0.3"] [] "192.168.0.7" (by decide)).1,
    ((probing_stops_at_first_reachable_host webRuntime (initialBase webRuntime) 1 (by decide)
      (by decide)).2.2.1 ["10.0.0.3"] [] "192.168.0.7" (by decide)).2.1⟩

/-- **C28.**  Whenever the source of the metadata is not "fallback",
`ensureApiBaseUrl` gives its caller the current metadata and changes nothing
else: no health check is sent, the metadata, the base URL of the client and
the pending sweep stay as they were; the same holds of any number of calls.
After a health check has succeeded the source is "auto-probe", and no later
call or answer changes the metadata or the base URL or sends a health check. -/
theorem resolved_source_ends_probing (rt : Runtime) (s : BaseState)
    (h : s.baseMeta.source ≠ "fallback") :
    (∀ c : Nat,
        ensureApiBaseUrl rt s c = { s with returned := s.returned ++ [(c, s.baseMeta)] } ∧
          (ensureApiBaseUrl rt s c).fetched = s.fetched ∧
          (ensureApiBaseUrl rt s c).baseMeta = s.baseMeta ∧
          (ensureApiBaseUrl rt s c).baseURL = s.baseURL) ∧
      (∀ callers : List Nat,
        (runBase rt s (callers.map BaseEvent.ensure)).fetched = s.fetched ∧
          (runBase rt s (callers.map BaseEvent.ensure)).baseMeta = s.baseMeta ∧
          (runBase rt s (callers.map BaseEvent.ensure)).baseURL = s.baseURL ∧
          (runBase rt s (callers.map BaseEvent.ensure)).returned =
            s.returned ++ callers.map (fun caller => (caller, s.baseMeta))) ∧
      ∀ (s0 : BaseState) (sweep : Sweep) (host : String),
        s0.promise = some sweep → sweep.awaiting = some host →
        (stepBase rt s0 (.answer true)).baseMeta.source = "auto-probe" ∧
          ∀ events : List BaseEvent,
            (runBase rt (stepBase rt s0 (.answer true)) events).baseMeta =
                (stepBase rt s0 (.answer true)).baseMeta ∧
              (runBase rt (stepBase rt s0 (.answer true)) events).baseURL =
                (stepBase rt s0 (.answer true)).baseURL ∧
              (runBase rt (stepBase rt s0 (.answer true)) events).fetched =
                (stepBase rt s0 (.answer true)).fetched := by
  refine ⟨fun c => ?_, fun callers => ?_, fun s0 sweep host hp ha => ?_⟩
  · have e := ensureApiBaseUrl_resolved rt s c h
    refine ⟨e, ?_, ?_, ?_⟩ <;> rw [e]
  · rw [calls_resolved rt callers s h]
    exact ⟨rfl, rfl, rfl, rfl⟩
  · have e : stepBase rt s0 (.answer true) =
        finishProbe (setApiBaseUrl s0 (buildBaseUrlForHost rt host) "auto-probe") sweep.waiters :=
      probeAnswered_success rt s0 sweep host hp ha
    have hsrc : (stepBase rt s0 (.answer true)).baseMeta.source = "auto-probe" := by rw [e]; rfl
    have hnone : (stepBase rt s0 (.answer true)).promise = none := by rw [e]; rfl
    refine ⟨hsrc, fun events => ?_⟩
    have hne : (stepBase rt s0 (.answer true)).baseMeta.source ≠ "fallback" := by
      rw [hsrc]; decide
    obtain ⟨hm, hu, hf, _⟩ := runBase_settled rt events _ hne hnone
    exact ⟨hm, hu, hf⟩

/-- Witness for `resolved_source_ends_probing`: the override
`https://api.example.com` is set, so the source is "env" from the start. -/
theorem resolved_source_ends_probing_witness :
    (initialBase
        { bareRuntime with EXPO_PUBLIC_API_URL := some "https://api.example.com" }).baseMeta.source ≠
        "fallback" ∧
      (runBase { bareRuntime with EXPO_PUBLIC_API_URL := some "https://api.example.com" }
          (initialBase { bareRuntime with EXPO_PUBLIC_API_URL := some "https://api.example.com" })
          ([1, 2].map BaseEvent.ensure)).fetched = [] :=
  ⟨by decide,
    ((resolved_source_ends_probing
      { bareRuntime with EXPO_PUBLIC_API_URL := some "https://api.example.com" }
      (initialBase { bareRuntime with EXPO_PUBLIC_API_URL := some "https://api.example.com" })
      (by decide)).2.1 [1, 2]).1⟩

/-- **C29.**  When `ensureApiBaseUrl` is called a second time while the sweep
of the first call is out and the source is "fallback", the second call sends
no health check and only joins those who wait for the sweep.  The health
checks sent are those of a single call, whether the sweep finds a host or
not, and both callers get the same metadata, those the client holds when the
sweep has ended. -/
theorem concurrent_calls_share_one_sweep (rt : Runtime) (s : BaseState) (c1 c2 : Nat)
    (hfb : s.baseMeta.source = "fallback") (hidle : s.promise = none) :
    (∃ sweep : Sweep,
        (stepBase rt s (.ensure c1)).promise = some sweep ∧ sweep.waiters = [c1] ∧
          stepBase rt (stepBase rt s (.ensure c1)) (.ensure c2) =
            { stepBase rt s (.ensure c1) with
              promise := some { sweep with waiters := [c1, c2] } }) ∧
      (∀ (pre post : List String) (h : String),
        collectHostCandidates rt = pre ++ h :: post →
        (runBase rt s
            ([BaseEvent.ensure c1, BaseEvent.ensure c2] ++
              pre.map (fun _ => BaseEvent.answer false) ++ [BaseEvent.answer true])).fetched =
            (runBase rt s
              ([BaseEvent.ensure c1] ++ pre.map (fun _ => BaseEvent.answer false) ++
                [BaseEvent.answer true])).fetched ∧
          (runBase rt s
            ([BaseEvent.ensure c1, BaseEvent.ensure c2] ++
              pre.map (fun _ => BaseEvent.answer false) ++ [BaseEvent.answer true])).fetched =
            s.fetched ++ (pre ++ [h]).map (healthUrl rt) ∧
          (runBase rt s
            ([BaseEvent.ensure c1, BaseEvent.ensure c2] ++
              pre.map (fun _ => BaseEvent.answer false) ++ [BaseEvent.answer true])).returned =
            s.returned ++
              [(c1,
                (runBase rt s
                  ([BaseEvent.ensure c1, BaseEvent.ensure c2] ++
                    pre.map (fun _ => BaseEvent.answer false) ++
                    [BaseEvent.answer true])).baseMeta),
                (c2,
                  (runBase rt s
                    ([BaseEvent.ensure c1, BaseEvent.ensure c2] ++
                      pre.map (fun _ => BaseEvent.answer false) ++
                      [BaseEvent.answer true])).baseMeta)]) ∧
      (runBase rt s
          ([BaseEvent.ensure c1, BaseEvent.ensure c2] ++
            (collectHostCandidates rt).map (fun _ => BaseEvent.answer false) ++
            [BaseEvent.settle])).fetched =
          (runBase rt s
            ([BaseEvent.ensure c1] ++
              (collectHostCandidates rt).map (fun _ => BaseEvent.answer false) ++
              [BaseEvent.settle])).fetched ∧
        (runBase rt s
          ([BaseEvent.ensure c1, BaseEvent.ensure c2] ++
            (collectHostCandidates rt).map (fun _ => BaseEvent.answer false) ++
            [BaseEvent.settle])).fetched =
          s.fetched ++ (collectHostCandidates rt).map (healthUrl rt) ∧
        (runBase rt s
          ([BaseEvent.ensure c1, BaseEvent.ensure c2] ++
            (collectHostCandidates rt).map (fun _ => BaseEvent.answer false) ++
            [BaseEvent.settle])).returned =
          s.returned ++ [(c1, s.baseMeta), (c2, s.baseMeta)] ∧
        (runBase rt s
          ([BaseEvent.ensure c1, BaseEvent.ensure c2] ++
            (collectHostCandidates rt).map (fun _ => BaseEvent.answer false) ++
            [BaseEvent.settle])).baseMeta = s.baseMeta := by
  refine ⟨?_, fun pre post h hosts => ?_, ?_⟩
  · cases hc : collectHostCandidates rt with
    | nil =>
      have e1 : stepBase rt s (.ensure c1) =
          { s with promise := some { awaiting := none, rest := [], waiters := [c1] } } :=
        ensureApiBaseUrl_nothing rt s c1 hfb hidle hc
      refine ⟨{ awaiting := none, rest := [], waiters := [c1] }, by rw [e1], rfl, ?_⟩
      rw [e1]
      exact ensureApiBaseUrl_joins rt _ c2 _ hfb rfl
    | cons a tail =>
      have e1 : stepBase rt s (.ensure c1) =
          { s with
            fetched := s.fetched ++ [healthUrl rt a]
            promise := some { awaiting := some a, rest := tail, waiters := [c1] } } :=
        ensureApiBaseUrl_starts rt s c1 a tail hfb hidle hc
      refine ⟨{ awaiting := some a, rest := tail, waiters := [c1] }, by rw [e1], rfl, ?_⟩
      rw [e1]
      exact ensureApiBaseUrl_joins rt _ c2 _ hfb rfl
  · have two := sweep_succeeds rt s c1 [c2] pre post h hfb hidle hosts
    have one := sweep_succeeds rt s c1 [] pre post h hfb hidle hosts
    simp only [List.map_nil, List.append_nil, List.map_cons, List.singleton_append,
      List.cons_append, List.nil_append] at two one ⊢
    rw [two, one]
    have hk := (buildBaseUrlForHost_kept rt h).2.1
    simp [finishProbe, setApiBaseUrl, getApiBaseMeta, hk]
  · have two := sweep_fails rt s c1 [c2] hfb hidle
    have one := sweep_fails rt s c1 [] hfb hidle
    simp only [List.map_nil, List.append_nil, List.map_cons, List.singleton_append,
      List.cons_append, List.nil_append] at two one ⊢
    rw [two, one]
    simp [finishProbe, getApiBaseMeta]

/-- Witness for `concurrent_calls_share_one_sweep`: two calls in the browser
tab, where the first candidate does not answer and the second does. -/
theorem concurrent_calls_share_one_sweep_witness :
    (initialBase webRuntime).baseMeta.source = "fallback" ∧
      (initialBase webRuntime).promise = none ∧
      (runBase webRuntime (initialBase webRuntime)
          [BaseEvent.ensure 1, BaseEvent.ensure 2, BaseEvent.answer false,
            BaseEvent.answer true]).fetched =
        ["http://10.0.0.3:8000/api/health/", "http://192.168.0.7:8000/api/health/"] :=
  ⟨by decide, by decide,
    ((concurrent_calls_share_one_sweep webRuntime (initialBase webRuntime) 1 2 (by decide)
      (by decide)).2.1 ["10.0.0.3"] [] "192.168.0.7" (by decide)).2.1⟩

/-- **C30** fails when `setItem` throws and `getItem` does not.  The durable
store holds old/r and its quota is used up: `persistTokens` with new/r2 puts
the pair into the fallback object, and the `getStoredTokens` that follows reads
the durable store and returns old/r.  With an empty durable store whose writes
throw, `getStoredTokens` returns null right after `persistTokens` with new/r2.
On a working store the pair written is the pair read. -/
theorem failed_write_is_not_read_back :
    (persistTokens (getStoredTokens fullDisk).2 (.str "new") (.str "r2")).fallbackStore =
        [(ACCESS_KEY, "new"), (REFRESH_KEY, "r2")] ∧
      (getStoredTokens
          (persistTokens (getStoredTokens fullDisk).2 (.str "new") (.str "r2"))).1 =
        some { accessToken := some "old", refreshToken := some "r" } ∧
      (getStoredTokens (persistTokens writeProtected (.str "new") (.str "r2"))).1 = none ∧
      ∀ (st : TokenStorage) (a r : JsVal), st.working = true →
        (getStoredTokens (persistTokens st a r)).1 =
          (if !truthy a.orNull && !truthy r.orNull then none
            else some { accessToken := a.orNull, refreshToken := r.orNull }) := by
  refine ⟨by decide, by decide, by decide, fun st a r hw => ?_⟩
  obtain ⟨h1, h2, h3, _⟩ := persistTokens_working st a r hw
  rw [(getStoredTokens_working _ h1).1, h2, h3]

end Datacake
